import Mathlib

/-!
# Calendar module of the Personal Desktop Assistant

A shallow embedding of `src/calendar/Calendar.jsx` (month grid, day/week list
filters, time formatting) together with the part of the host language's `Date`
arithmetic that the module relies on.

Modelling conventions:

* A valid `Date` object is identified with its *local* time value: the number of
  milliseconds since 1970-01-01T00:00:00.000 on the local wall clock.  The local
  zone is taken to have a fixed offset from UTC, so that comparing instants and
  comparing local time values agree; there is no daylight saving.  Statements
  on navigation are therefore made on calendar days, not on the time of day.
* The offset of the local zone matters in two places, the range limit of `Date`
  and the instant that `new Date(null)` denotes (the epoch); there it is taken
  to be zero.
* The calendar is the proleptic Gregorian one, as in the language standard.
  The range limit of `Date` (`TimeClip`) is modelled in the constructor call
  `new Date(year, month, date)`, by which the month grid builds its cells; the
  methods `setDate`, `setMonth` and `setHours` are taken without it.
* An Invalid Date (time value NaN) is `none` where it can occur, namely for the
  date read from an event record and for the dates of the month grid.
-/

namespace Calendar

/-! ## Date arithmetic of the host language (day numbers and time values) -/

def msPerDay : Int := 86400000

/-- Day number of a time value -/
def Day (t : Int) : Int := t / msPerDay

def TimeWithinDay (t : Int) : Int := t % msPerDay

def DaysInYear (y : Int) : Int :=
  if y % 4 ≠ 0 then 365
  else if y % 100 ≠ 0 then 366
  else if y % 400 ≠ 0 then 365
  else 366

/-- Day number of the first day of year `y` -/
def DayFromYear (y : Int) : Int :=
  365 * (y - 1970) + (y - 1969) / 4 - (y - 1901) / 100 + (y - 1601) / 400

/-- The year containing day number `d`: the largest `y` with `DayFromYear y ≤ d`
(see `YearFromDay_spec` and `YearFromDay_unique`), computed from an estimate
that is off by at most one. -/
def YearFromDay (d : Int) : Int :=
  let y := 1970 + (400 * d) / 146097
  if d < DayFromYear y then y - 1
  else if DayFromYear (y + 1) ≤ d then y + 1
  else y

def YearFromTime (t : Int) : Int := YearFromDay (Day t)

def InLeapYear (t : Int) : Int :=
  if DaysInYear (YearFromTime t) = 366 then 1 else 0

def DayWithinYear (t : Int) : Int := Day t - DayFromYear (YearFromTime t)

/-- Month number (0 = January) from the day within the year and the leap flag -/
def monthOfYearDay (dwy leap : Int) : Int :=
  if dwy < 31 then 0
  else if dwy < 59 + leap then 1
  else if dwy < 90 + leap then 2
  else if dwy < 120 + leap then 3
  else if dwy < 151 + leap then 4
  else if dwy < 181 + leap then 5
  else if dwy < 212 + leap then 6
  else if dwy < 243 + leap then 7
  else if dwy < 273 + leap then 8
  else if dwy < 304 + leap then 9
  else if dwy < 334 + leap then 10
  else 11

def MonthFromTime (t : Int) : Int := monthOfYearDay (DayWithinYear t) (InLeapYear t)

/-- Day of the month (1-based) from the day within the year and the leap flag -/
def dateOfYearDay (dwy leap : Int) : Int :=
  let m := monthOfYearDay dwy leap
  if m = 0 then dwy + 1
  else if m = 1 then dwy - 30
  else if m = 2 then dwy - 58 - leap
  else if m = 3 then dwy - 89 - leap
  else if m = 4 then dwy - 119 - leap
  else if m = 5 then dwy - 150 - leap
  else if m = 6 then dwy - 180 - leap
  else if m = 7 then dwy - 211 - leap
  else if m = 8 then dwy - 242 - leap
  else if m = 9 then dwy - 272 - leap
  else if m = 10 then dwy - 303 - leap
  else dwy - 333 - leap

def DateFromTime (t : Int) : Int := dateOfYearDay (DayWithinYear t) (InLeapYear t)

/-- Weekday of a time value, 0 = Sunday (1970-01-01 was a Thursday) -/
def WeekDay (t : Int) : Int := (Day t + 4) % 7

/-- Day within the year of the first day of month `m` (0 = January) -/
def monthStart (m leap : Int) : Int :=
  if m = 0 then 0
  else if m = 1 then 31
  else if m = 2 then 59 + leap
  else if m = 3 then 90 + leap
  else if m = 4 then 120 + leap
  else if m = 5 then 151 + leap
  else if m = 6 then 181 + leap
  else if m = 7 then 212 + leap
  else if m = 8 then 243 + leap
  else if m = 9 then 273 + leap
  else if m = 10 then 304 + leap
  else 334 + leap

def leapOfYear (y : Int) : Int := if DaysInYear y = 366 then 1 else 0

/-- Day number denoted by a year, a month index (any integer, carried into the
year) and a day of the month (any integer, counted from the first of that
month) -/
def MakeDay (year month date : Int) : Int :=
  let ym := year + month / 12
  let mn := month % 12
  DayFromYear ym + monthStart mn (leapOfYear ym) + date - 1

def MakeTime (hour min sec ms : Int) : Int :=
  hour * 3600000 + min * 60000 + sec * 1000 + ms

def MakeDate (day time : Int) : Int := day * msPerDay + time

/-! ## `Date` objects -/

/-- A valid `Date` object, identified by its local time value -/
structure JSDate where
  time : Int
  deriving DecidableEq, Repr

namespace JSDate

def getFullYear (d : JSDate) : Int := YearFromTime d.time
def getMonth (d : JSDate) : Int := MonthFromTime d.time
def getDate (d : JSDate) : Int := DateFromTime d.time
def getDay (d : JSDate) : Int := WeekDay d.time

/-- The call `d.setDate(dt)`: the day of the month is replaced, the time of day kept -/
def setDate (d : JSDate) (dt : Int) : JSDate :=
  ⟨MakeDate (MakeDay (YearFromTime d.time) (MonthFromTime d.time) dt) (TimeWithinDay d.time)⟩

/-- The call `d.setMonth(m)`: the month is replaced, day of month and time of day kept -/
def setMonth (d : JSDate) (m : Int) : JSDate :=
  ⟨MakeDate (MakeDay (YearFromTime d.time) m (DateFromTime d.time)) (TimeWithinDay d.time)⟩

/-- The call `d.setHours(h, m, s, ms)`: the time of day is replaced, the day kept -/
def setHours (d : JSDate) (h m s ms : Int) : JSDate :=
  ⟨MakeDate (Day d.time) (MakeTime h m s ms)⟩

end JSDate

/-- Largest time value that a `Date` can hold: 100 000 000 days -/
def maxTime : Int := 8640000000000000

/-- The operation `TimeClip`: an Invalid Date (`none`) when the time value lies
outside the range of `Date` -/
def TimeClip (t : Int) : Option JSDate :=
  if -maxTime ≤ t ∧ t ≤ maxTime then some ⟨t⟩ else none

/-- The constructor call `new Date(year, month, date)`: local midnight of the
denoted day; a year argument in 0..99 stands for 1900 + year; the result is an
Invalid Date when the day lies outside the range of `Date`. -/
def newDate (year month date : Int) : Option JSDate :=
  let yr := if 0 ≤ year ∧ year ≤ 99 then 1900 + year else year
  TimeClip (MakeDate (MakeDay yr month date) (MakeTime 0 0 0 0))

/-! ## Month grid -/

/-- A cell of the grid; its `date` may be an Invalid Date (`none`) -/
structure DayCell where
  date : Option JSDate
  isCurrentMonth : Bool
  deriving DecidableEq, Repr

/-- Number of rounds of a counting loop whose bound is the Number `n`: none at
all when `n` is NaN (`none`), since every comparison with NaN is false -/
def rounds : Option Int → Nat
  | some n => n.toNat
  | none => 0

/-- The loop `for (let i = n - 1; i >= 0; i--) days.push(f i)`: it runs for
`i = n - 1, ..., 0` (not at all when `n ≤ 0`) -/
def forDown {α : Type} (f : Int → α) : Nat → List α → List α
  | 0, days => days
  | n + 1, days => forDown f n (days ++ [f (n : Int)])

/-- The loop `for (let day = from; ...; day++) days.push(f day)` run for `n` rounds -/
def forUp {α : Type} (f : Int → α) : Nat → Int → List α → List α
  | 0, _, days => days
  | n + 1, day, days => forUp f n (day + 1) (days ++ [f day])

/-- The function `generateCalendarDays` for the reference date `currentDate` -/
def generateCalendarDays (currentDate : JSDate) : List DayCell :=
  let year := currentDate.getFullYear
  let month := currentDate.getMonth
  let firstDay := newDate year month 1
  let lastDay := newDate year (month + 1) 0
  -- `getDay` and `getDate` of an Invalid Date are NaN
  let firstDayOfWeek := firstDay.map JSDate.getDay
  let daysInMonth := lastDay.map JSDate.getDate
  let days : List DayCell := []
  -- previous month's trailing days: `i` runs down from `firstDayOfWeek - 1` while `i >= 0`
  let days := forDown (fun i => ⟨newDate year month (-i), false⟩) (rounds firstDayOfWeek) days
  -- current month's days: `day` runs from 1 while `day <= daysInMonth`
  let days := forUp (fun day => ⟨newDate year month day, true⟩) (rounds daysInMonth) 1 days
  -- next month's leading days: `day` runs from 1 while `day <= remainingDays`
  let remainingDays := 42 - days.length
  let days := forUp (fun day => ⟨newDate year (month + 1) day, false⟩) remainingDays 1 days
  days

/-! ## Texts -/

/-- The conversion `String(x)` of a Number that is an integer, or NaN (`none`) -/
def numberToString : Option Int → String
  | none => "NaN"
  | some n => toString n

/-- The call `s.padStart(targetLength, fill)` for a one-character filler -/
def padStart (s : String) (targetLength : Nat) (fill : Char) : String :=
  String.mk (List.replicate (targetLength - s.length) fill ++ s.data)

/-- Pieces of a character list between occurrences of `sep` (at least one piece) -/
def splitChars (sep : Char) : List Char → List (List Char)
  | [] => [[]]
  | c :: cs =>
    if c = sep then [] :: splitChars sep cs
    else
      match splitChars sep cs with
      | [] => [[c]]
      | p :: ps => (c :: p) :: ps

/-- The call `s.split(sep)` for a one-character separator -/
def split (s : String) (sep : Char) : List String :=
  (splitChars sep s.data).map String.mk

/-- White space skipped by `parseInt` in front of the number -/
def isJSWhitespace (c : Char) : Bool :=
  c = ' ' || c = '\t' || c = '\n' || c = '\r' || c.toNat = 11 || c.toNat = 12 ||
  c.toNat = 160 || c.toNat = 5760 || (8192 ≤ c.toNat && c.toNat ≤ 8202) ||
  c.toNat = 8232 || c.toNat = 8233 || c.toNat = 8239 || c.toNat = 8287 ||
  c.toNat = 12288 || c.toNat = 65279

/-- Value of a character as a digit in the given radix (10 or 16), if it is one -/
def digitValue (radix : Nat) (c : Char) : Option Nat :=
  if '0' ≤ c ∧ c ≤ '9' then some (c.toNat - '0'.toNat)
  else if radix = 16 ∧ 'a' ≤ c ∧ c ≤ 'f' then some (c.toNat - 'a'.toNat + 10)
  else if radix = 16 ∧ 'A' ≤ c ∧ c ≤ 'F' then some (c.toNat - 'A'.toNat + 10)
  else none

/-- Reads the longest run of digits at the front of `cs`, continuing from the
value `acc`; `seen` tells whether a digit has been read -/
def readDigits (radix : Nat) : List Char → Nat → Bool → Option Nat
  | [], acc, seen => if seen then some acc else none
  | c :: cs, acc, seen =>
    match digitValue radix c with
    | some v => readDigits radix cs (acc * radix + v) true
    | none => if seen then some acc else none

/-- The call `parseInt(s)` with no radix argument: leading white space and a
sign are accepted, a `0x` prefix selects base 16, the longest run of digits is
read, and the result is NaN (`none`) when there is no digit. -/
def parseInt (s : String) : Option Int :=
  let cs := s.data.dropWhile isJSWhitespace
  let (neg, cs) :=
    match cs with
    | '-' :: r => (true, r)
    | '+' :: r => (false, r)
    | r => (false, r)
  let (radix, cs) :=
    match cs with
    | '0' :: 'x' :: r => (16, r)
    | '0' :: 'X' :: r => (16, r)
    | r => (10, r)
  match readDigits radix cs 0 false with
  | none => none
  | some n => some (if neg then -(n : Int) else (n : Int))

/-! ## Helpers of the calendar module -/

/-- An argument of `getDateString`: a falsy value, or a `Date` object, which may
be an Invalid Date (`none`) -/
inductive DateArg where
  | falsy
  | date (d : Option JSDate)
  deriving DecidableEq, Repr

/-- The helper `getDateString` -/
def getDateString (date : DateArg) : String :=
  match date with
  | .falsy => ""
  | .date d =>
    let year := d.map JSDate.getFullYear
    let month := padStart (numberToString ((d.map JSDate.getMonth).map (· + 1))) 2 '0'
    let day := padStart (numberToString (d.map JSDate.getDate)) 2 '0'
    numberToString year ++ "-" ++ month ++ "-" ++ day

/-- The helper `getDateWithoutTime` -/
def getDateWithoutTime (date : JSDate) : JSDate :=
  let d := date
  d.setHours 0 0 0 0

/-- The entries of `timeSlots`: the hour `i`, zero-padded, followed by `:00` -/
def timeSlot (i : Nat) : String :=
  let hour := padStart (toString i) 2 '0'
  hour ++ ":00"

def timeSlots : List String := (List.range 24).map timeSlot

/-- The function `formatTime` -/
def formatTime (timeString : String) : String :=
  if timeString = "" then ""
  else
    let parts := split timeString ':'
    let hours := parts.headD ""
    let minutes := (parts.get? 1).getD "undefined"
    let hour24 := parseInt hours
    let hour12 : Option Int :=
      hour24.map fun h => if h = 0 then 12 else if h > 12 then h - 12 else h
    let ampm := if (hour24.map fun h => decide (h ≥ 12)).getD false then "PM" else "AM"
    numberToString hour12 ++ ":" ++ minutes ++ " " ++ ampm

/-! ## Event records and the views -/

/-- A value of a timestamp field of an event record, as `new Date` reads it: a
non-empty text, with the local time value it denotes (`time`) or one that does
not parse (`garbled`), or the value `null`, which records sent by the remote
service may hold.  A form never holds `null`. -/
inductive Stamp where
  | time (t : Int)
  | garbled
  | null
  deriving DecidableEq, Repr

/-- An event record.  Every field may be missing; a timestamp field that is
missing or the empty text is `none` (both are falsy, and `new Date` makes an
Invalid Date of both).  Other values of a timestamp field (numbers, booleans)
are not modelled. -/
structure Event where
  _id : Option String := none
  title : Option String := none
  description : Option String := none
  datetime : Option Stamp := none
  endDatetime : Option Stamp := none
  location : Option String := none
  type : Option String := none
  category : Option String := none
  name : Option String := none
  createdAt : Option Stamp := none
  deriving DecidableEq, Repr

/-- The call `new Date(x)` on a timestamp field (or on what `a || b` yields);
`new Date(null)` is the epoch -/
def dateOfField : Option Stamp → Option JSDate
  | some (.time t) => some ⟨t⟩
  | some .garbled => none
  | some .null => some ⟨0⟩
  | none => none

/-- Whether the value of a timestamp field is truthy: a missing field, the
empty text and `null` are falsy -/
def truthy : Option Stamp → Bool
  | some (.time _) => true
  | some .garbled => true
  | some .null => false
  | none => false

/-- The expression `a || b` on two timestamp fields -/
def orField (a b : Option Stamp) : Option Stamp := if truthy a then a else b

/-- The expression `new Date(event.datetime || event.createdAt)` -/
def eventDate (event : Event) : Option JSDate :=
  dateOfField (orField event.datetime event.createdAt)

/-- The comparison `a >= b` of a `Date` that may be invalid with a valid one -/
def dateGE (a : Option JSDate) (b : JSDate) : Bool :=
  match a with
  | some x => decide (x.time ≥ b.time)
  | none => false

/-- The comparison `a <= b` of a `Date` that may be invalid with a valid one -/
def dateLE (a : Option JSDate) (b : JSDate) : Bool :=
  match a with
  | some x => decide (x.time ≤ b.time)
  | none => false

/-- The function `getEventsForDate` -/
def getEventsForDate (events : List Event) (date : JSDate) : List Event :=
  let targetDate := getDateWithoutTime date
  let targetDateStr := getDateString (.date (some targetDate))
  events.filter fun event =>
    if truthy event.datetime then
      let eventDate := dateOfField event.datetime
      getDateString (.date eventDate) == targetDateStr
    else if truthy event.createdAt then
      let eventDate := dateOfField event.createdAt
      getDateString (.date eventDate) == targetDateStr
    else false

inductive ViewMode where
  | month
  | week
  | day
  deriving DecidableEq, Repr

/-- First instant of the week of `currentDate`, as computed in the week filter -/
def weekStart (currentDate : JSDate) : JSDate :=
  let weekStart := currentDate
  let weekStart := weekStart.setDate (currentDate.getDate - currentDate.getDay)
  weekStart.setHours 0 0 0 0

/-- Last instant of the week of `currentDate`, as computed in the week filter -/
def weekEnd (currentDate : JSDate) : JSDate :=
  let weekStart := weekStart currentDate
  let weekEnd := weekStart
  let weekEnd := weekEnd.setDate (weekStart.getDate + 6)
  weekEnd.setHours 23 59 59 999

/-- The filter of the week/day list -/
def listFilter (viewMode : ViewMode) (currentDate : JSDate) (event : Event) : Bool :=
  let eventDate := eventDate event
  let eventDateStr := getDateString (.date eventDate)
  if viewMode = .day then
    let currentDateStr := getDateString (.date (some currentDate))
    eventDateStr == currentDateStr
  else
    dateGE eventDate (weekStart currentDate) && dateLE eventDate (weekEnd currentDate)

/-- The comparator of the week/day list: the difference of the two time
values, NaN (`none`) when one of the dates is invalid -/
def compareStart (a b : Event) : Option Int :=
  match eventDate a, eventDate b with
  | some x, some y => some (x.time - y.time)
  | _, _ => none

/-- Whether the comparator does not put `a` after `b`; a NaN result counts as zero -/
def startLE (a b : Event) : Prop :=
  match compareStart a b with
  | some v => v ≤ 0
  | none => True

instance : DecidableRel startLE := fun a b => by
  unfold startLE
  cases compareStart a b <;> infer_instance

/-- The events listed in week or day view: `events.filter(...).sort(...)`; the
sort is stable -/
def listedEvents (viewMode : ViewMode) (currentDate : JSDate) (events : List Event) :
    List Event :=
  (events.filter (listFilter viewMode currentDate)).insertionSort startLE

/-! ## The event collection: state, local cache and remote service

The state kept here is the part of the component state that outlives a single
interaction: the collection `events`, the flag `apiOnline`, `loading`, `error`
and the entry of `localStorage` under `STORAGE_KEY`.  The two forms are
arguments of the operations; that an operation clears its form afterwards is
left out.  The date and time texts of a form are represented by what
`new Date` reads from the text built from them. -/

/-- Exceptions that the operations can raise -/
inductive JSError where
  | rangeError
  | syntaxError
  deriving DecidableEq, Repr

/-- The text stored under `STORAGE_KEY`: the empty text, the text
`JSON.stringify(events)` of an event list (valid JSON texts are taken to be
of this kind), or a non-empty text that is not valid JSON -/
inductive CacheText where
  | empty
  | json (events : List Event)
  | invalid
  deriving DecidableEq, Repr

/-- What a call of `fetch` yields: the promise rejects (network error), or
there is a response with its `ok` flag and with the event list that
`response.json()` gives (`none` when the body is malformed and `json()`
rejects) -/
inductive FetchOutcome where
  | networkError
  | response (ok : Bool) (body : Option (List Event))
  deriving DecidableEq, Repr

structure CalendarState where
  events : List Event
  apiOnline : Bool
  loading : Bool
  error : String
  cache : Option CacheText
  deriving DecidableEq, Repr

/-- Result of an operation: the state it leaves, and the exception with which
it ended, if any -/
structure Outcome where
  state : CalendarState
  raised : Option JSError
  deriving DecidableEq, Repr

/-- The form state `newEvent` or `editEvent`; `startStamp` stands for the text
built from `date` and `startTime`, `endStamp` for the one built from `date` and
`endTime` (`Stamp.garbled` when the text is no date, as with an empty `date`) -/
structure EventForm where
  title : String
  description : String
  startStamp : Stamp
  endStamp : Stamp
  location : String
  type : String
  deriving DecidableEq, Repr

/-- The call `s.trim()` -/
def jsTrim (s : String) : String :=
  String.mk ((s.data.dropWhile isJSWhitespace).reverse.dropWhile isJSWhitespace).reverse

/-- The test `!s.trim()` -/
def isBlank (s : String) : Bool := jsTrim s = ""

/-- The call `d.toISOString()`: the text denoting the instant of `d`; it throws
a RangeError for an Invalid Date -/
def toISOString : Option JSDate → Except JSError Stamp
  | some d => .ok (.time d.time)
  | none => .error .rangeError

/-- The save effect, which runs after the first render and after every render
in which `events` has changed; its condition holds of every array -/
def saveEffect (s : CalendarState) : CalendarState :=
  if s.events.length > 0 ∨ s.events.length = 0 then
    { s with cache := some (.json s.events) }
  else s

/-- The call `setEvents(events)` with a fresh array, together with the save
effect of the render that follows it -/
def setEvents (s : CalendarState) (events : List Event) : CalendarState :=
  saveEffect { s with events := events }

/-- State of the component at its first render, given the cache entry that
the browser holds -/
def initialState (cache : Option CacheText) : CalendarState :=
  { events := [], apiOnline := true, loading := true, error := "", cache := cache }

/-- The function `loadEvents` from the point where `fetch` has settled, run in
the state `s` that the component has by then -/
def loadEvents (s : CalendarState) (fetched : FetchOutcome) : Outcome :=
  match fetched with
  | .response true (some data) =>
    let s := setEvents s data
    let s := { s with cache := some (.json data) }
    let s := { s with apiOnline := true }
    let s := { s with error := "" }
    ⟨{ s with loading := false }, none⟩
  | _ =>
    -- the catch block
    let s := { s with apiOnline := false }
    let storedEvents := s.cache
    match storedEvents with
    | some (.json stored) =>
      let s := setEvents s stored
      let s := { s with error := "Offline mode: changes stored locally" }
      ⟨{ s with loading := false }, none⟩
    | some .invalid =>
      -- `JSON.parse` throws; the `finally` block still runs
      ⟨{ s with loading := false }, some .syntaxError⟩
    | _ =>
      let s := { s with error := "Offline mode: changes stored locally" }
      ⟨{ s with loading := false }, none⟩

/-- Start-up of the component.  After the first render the two effects run
one after the other: the first calls `loadEvents`, which issues the request and
waits; the second is the save effect, run with the initial `events`.  When the
request has settled, `loadEvents` goes on. -/
def startup (cache : Option CacheText) (fetched : FetchOutcome) : Outcome :=
  let s := initialState cache
  let s := saveEffect s
  loadEvents s fetched

/-- The identifier built in `createEvent` from the clock reading `Date.now()`
and the text `Math.random().toString(36).substr(2, 9)` -/
def newEventId (clock : Int) (rand : String) : String :=
  "event_" ++ toString clock ++ "_" ++ rand

/-- The remote mirror call of an operation: it is tried only when `apiOnline`
held when the operation started, and only a rejected `fetch` is caught -/
def mirror (apiOnline : Bool) (s : CalendarState) (remote : FetchOutcome) : CalendarState :=
  if apiOnline then
    match remote with
    | .networkError => { s with apiOnline := false }
    | .response _ _ => s
  else s

/-- The object literal `eventData` of `createEvent`, given the identifier and
the three texts that `toISOString` has produced -/
def eventDataOf (newId : String) (newEvent : EventForm)
    (datetime endDatetime createdAt : Stamp) : Event :=
  { _id := some newId
    title := some newEvent.title
    description := some newEvent.description
    datetime := some datetime
    endDatetime := some endDatetime
    location := some newEvent.location
    type := some newEvent.type
    category := some newEvent.type
    name := some newEvent.title
    createdAt := some createdAt }

/-- The object literal of `updateEvent` that replaces a matching event: the
fields of `event`, overwritten by those of the form -/
def updatedEventOf (event : Event) (editEvent : EventForm)
    (datetime endDatetime : Stamp) : Event :=
  { event with
    title := some editEvent.title
    description := some editEvent.description
    datetime := some datetime
    endDatetime := some endDatetime
    location := some editEvent.location
    type := some editEvent.type
    category := some editEvent.type
    name := some editEvent.title }

/-- The function `createEvent` on the form `newEvent`; `now` is the value of
`new Date()` -/
def createEvent (s : CalendarState) (newEvent : EventForm) (clock : Int) (rand : String)
    (now : JSDate) (remote : FetchOutcome) : Outcome :=
  if isBlank newEvent.title then ⟨s, none⟩
  else
    let newId := newEventId clock rand
    let eventDateTime := dateOfField (some newEvent.startStamp)
    let endDateTime := dateOfField (some newEvent.endStamp)
    let eventData : Except JSError Event := do
      let datetime ← toISOString eventDateTime
      let endDatetime ← toISOString endDateTime
      let createdAt ← toISOString (some now)
      pure (eventDataOf newId newEvent datetime endDatetime createdAt)
    match eventData with
    | .error e => ⟨s, some e⟩
    | .ok eventData =>
      let updatedEvents := s.events ++ [eventData]
      let s1 := setEvents s updatedEvents
      ⟨mirror s.apiOnline s1 remote, none⟩

/-- The call `events.map(f)` for a callback that may throw -/
def mapEvents (f : Event → Except JSError Event) : List Event → Except JSError (List Event)
  | [] => .ok []
  | event :: rest =>
    match f event with
    | .error e => .error e
    | .ok event1 =>
      match mapEvents f rest with
      | .error e => .error e
      | .ok rest1 => .ok (event1 :: rest1)

/-- The function `updateEvent` on the form `editEvent` -/
def updateEvent (s : CalendarState) (id : Option String) (editEvent : EventForm)
    (remote : FetchOutcome) : Outcome :=
  let eventDateTime := dateOfField (some editEvent.startStamp)
  let endDateTime := dateOfField (some editEvent.endStamp)
  let updatedEvents := mapEvents (fun event =>
    if event._id = id then do
      let datetime ← toISOString eventDateTime
      let endDatetime ← toISOString endDateTime
      pure (updatedEventOf event editEvent datetime endDatetime)
    else pure event) s.events
  match updatedEvents with
  | .error e => ⟨s, some e⟩
  | .ok updatedEvents =>
    let s1 := setEvents s updatedEvents
    ⟨mirror s.apiOnline s1 remote, none⟩

/-- The function `deleteEvent`; `confirmed` is the answer to `window.confirm` -/
def deleteEvent (s : CalendarState) (id : Option String) (confirmed : Bool)
    (remote : FetchOutcome) : Outcome :=
  if !confirmed then ⟨s, none⟩
  else
    let updatedEvents := s.events.filter (fun event => decide (event._id ≠ id))
    let s1 := setEvents s updatedEvents
    ⟨mirror s.apiOnline s1 remote, none⟩

/-- A click on the button `Create Event` of the create form, which is disabled
while the title is blank -/
def clickCreate (s : CalendarState) (newEvent : EventForm) (clock : Int) (rand : String)
    (now : JSDate) (remote : FetchOutcome) : Outcome :=
  if isBlank newEvent.title then ⟨s, none⟩
  else createEvent s newEvent clock rand now remote

/-- A click on the button `Update Event` of the edit form of the event with
the given id, which is disabled while the title is blank -/
def clickUpdate (s : CalendarState) (id : Option String) (editEvent : EventForm)
    (remote : FetchOutcome) : Outcome :=
  if isBlank editEvent.title then ⟨s, none⟩
  else updateEvent s id editEvent remote

/-! ## Notions used to state the properties of the collection -/

/-- The cache holds the serialised collection -/
def cacheInSync (s : CalendarState) : Prop := s.cache = some (.json s.events)

instance (s : CalendarState) : Decidable (cacheInSync s) :=
  inferInstanceAs (Decidable (s.cache = some (.json s.events)))

/-- No two events of the collection share an id -/
def idsUnique (events : List Event) : Prop := (events.map fun event => event._id).Nodup

instance (events : List Event) : Decidable (idsUnique events) :=
  inferInstanceAs (Decidable (List.Nodup (events.map fun (event : Event) => event._id)))

/-- The title of the event is present and non-empty after trimming -/
def hasTitle (event : Event) : Bool :=
  match event.title with
  | some t => !isBlank t
  | none => false

/-- A request sent to the remote service by a mirror call -/
inductive Request where
  | post (body : Event)
  | put (id : Option String) (body : Option Event)
  | delete (id : Option String)
  deriving DecidableEq, Repr

/-- The requests that the mirror step of an operation sends: the guard
`if (apiOnline)` stands before the call of `fetch` -/
def mirrorRequests (apiOnline : Bool) (request : Request) : List Request :=
  if apiOnline then [request] else []

/-- The requests that a run of `createEvent` sends -/
def createEventRequests (s : CalendarState) (newEvent : EventForm) (clock : Int)
    (rand : String) (now : JSDate) : List Request :=
  if isBlank newEvent.title then []
  else
    let newId := newEventId clock rand
    let eventDateTime := dateOfField (some newEvent.startStamp)
    let endDateTime := dateOfField (some newEvent.endStamp)
    let eventData : Except JSError Event := do
      let datetime ← toISOString eventDateTime
      let endDatetime ← toISOString endDateTime
      let createdAt ← toISOString (some now)
      pure (eventDataOf newId newEvent datetime endDatetime createdAt)
    match eventData with
    | .error _ => []
    | .ok eventData => mirrorRequests s.apiOnline (.post eventData)

/-- The requests that a run of `updateEvent` sends; the body is
`updatedEvents.find(e => e._id === id)` -/
def updateEventRequests (s : CalendarState) (id : Option String) (editEvent : EventForm) :
    List Request :=
  let eventDateTime := dateOfField (some editEvent.startStamp)
  let endDateTime := dateOfField (some editEvent.endStamp)
  let updatedEvents := mapEvents (fun event =>
    if event._id = id then do
      let datetime ← toISOString eventDateTime
      let endDatetime ← toISOString endDateTime
      pure (updatedEventOf event editEvent datetime endDatetime)
    else pure event) s.events
  match updatedEvents with
  | .error _ => []
  | .ok updatedEvents =>
    let updatedEvent := updatedEvents.find? (fun e => decide (e._id = id))
    mirrorRequests s.apiOnline (.put id updatedEvent)

/-- The requests that a run of `deleteEvent` sends -/
def deleteEventRequests (s : CalendarState) (id : Option String) (confirmed : Bool) :
    List Request :=
  if !confirmed then []
  else mirrorRequests s.apiOnline (.delete id)

/-- A run of one of the three changing operations, with its arguments -/
inductive Operation where
  | create (newEvent : EventForm) (clock : Int) (rand : String) (now : JSDate)
      (remote : FetchOutcome)
  | update (id : Option String) (editEvent : EventForm) (remote : FetchOutcome)
  | delete (id : Option String) (confirmed : Bool) (remote : FetchOutcome)
  deriving DecidableEq, Repr

def applyOperation (s : CalendarState) : Operation → Outcome
  | .create newEvent clock rand now remote => createEvent s newEvent clock rand now remote
  | .update id editEvent remote => updateEvent s id editEvent remote
  | .delete id confirmed remote => deleteEvent s id confirmed remote

def operationRequests (s : CalendarState) : Operation → List Request
  | .create newEvent clock rand now _ => createEventRequests s newEvent clock rand now
  | .update id editEvent _ => updateEventRequests s id editEvent
  | .delete id confirmed _ => deleteEventRequests s id confirmed

/-- State after a sequence of operations, each run in the state its
predecessor has left -/
def runOperations (s : CalendarState) : List Operation → CalendarState
  | [] => s
  | op :: rest => runOperations (applyOperation s op).state rest

/-- A reload of the page: the component starts anew, with the cache entry that
the state before the reload has left in the browser -/
def reload (s : CalendarState) (fetched : FetchOutcome) : Outcome :=
  startup s.cache fetched

/-- Both date-times that the form denotes are valid instants -/
def formDatesValid (form : EventForm) : Bool :=
  match form.startStamp, form.endStamp with
  | .time _, .time _ => true
  | _, _ => false

/-- The date-times of the form of the operation, if it has one, are valid -/
def Operation.datesValid : Operation → Bool
  | .create newEvent _ _ _ _ => formDatesValid newEvent
  | .update _ editEvent _ => formDatesValid editEvent
  | .delete _ _ _ => true

/-! ## Navigation, event types and the empty state -/

/-- The function `navigateMonth` -/
def navigateMonth (currentDate : JSDate) (direction : Int) : JSDate :=
  let newDate := currentDate
  newDate.setMonth (currentDate.getMonth + direction)

/-- The function `navigateWeek` -/
def navigateWeek (currentDate : JSDate) (direction : Int) : JSDate :=
  let newDate := currentDate
  newDate.setDate (currentDate.getDate + direction * 7)

/-- The function `navigateDay` -/
def navigateDay (currentDate : JSDate) (direction : Int) : JSDate :=
  let newDate := currentDate
  newDate.setDate (currentDate.getDate + direction)

/-- The handler of the buttons `Previous` (`direction = -1`) and `Next`
(`direction = 1`): the new value of `currentDate` -/
def navigate (viewMode : ViewMode) (currentDate : JSDate) (direction : Int) : JSDate :=
  if viewMode = .month then navigateMonth currentDate direction
  else if viewMode = .week then navigateWeek currentDate direction
  else navigateDay currentDate direction

/-- An entry of the table `eventTypes` -/
structure EventTypeInfo where
  value : String
  label : String
  color : String
  textColor : String
  deriving DecidableEq, Repr

def eventTypes : List EventTypeInfo :=
  [ { value := "meeting", label := "Meeting", color := "event-meeting", textColor := "text-blue-700" },
    { value := "reminder", label := "Reminder", color := "event-reminder", textColor := "text-green-700" },
    { value := "task", label := "Task", color := "event-task", textColor := "text-yellow-700" },
    { value := "event", label := "Event", color := "event-event", textColor := "text-purple-700" },
    { value := "personal", label := "Personal", color := "event-personal", textColor := "text-pink-700" } ]

/-- The function `getEventTypeInfo`; an argument that is `undefined` is `none`,
and so is a result that is `undefined` -/
def getEventTypeInfo (type : Option String) : Option EventTypeInfo :=
  eventTypes.find? (fun t => decide (some t.value = type)) <|> eventTypes[0]?

/-- The argument `event.type || event.category` of `getEventTypeInfo` -/
def eventTypeOf (event : Event) : Option String :=
  match event.type with
  | some t => if t = "" then event.category else some t
  | none => event.category

/-- The condition under which the week/day list shows `No Events Scheduled` -/
def emptyStateShown (viewMode : ViewMode) (currentDate : JSDate) (events : List Event) : Bool :=
  (decide (viewMode = .day) && !events.any (fun e =>
    getDateString (.date (eventDate e)) == getDateString (.date (some currentDate)))) ||
  (decide (viewMode = .week) && !events.any (fun e =>
    let eventDate := eventDate e
    dateGE eventDate (weekStart currentDate) && dateLE eventDate (weekEnd currentDate)))

/-- Time value of the start of an event that has a valid date -/
def startTime (event : Event) : Option Int := (eventDate event).map fun d => d.time

/-! ## Calendar notions used to state the properties -/

/-- Length of month `m` (0 = January) in a common (`leap = 0`) or leap (`leap = 1`) year -/
def monthLen (m leap : Int) : Int :=
  if m = 1 then 28 + leap
  else if m = 3 ∨ m = 5 ∨ m = 8 ∨ m = 10 then 30
  else 31

/-- Number of days of month `m` (0 = January) of year `y` -/
def daysInMonthOf (y m : Int) : Int := monthLen m (leapOfYear y)

/-- Weekday index (0 = Sunday) of the first day of the month that `d` lies in -/
def firstWeekdayOfMonth (d : JSDate) : Int :=
  WeekDay (d.time - (d.getDate - 1) * msPerDay)

/-- Year and month index of the month before month `m` of year `y` -/
def prevMonth (y m : Int) : Int × Int := if m = 0 then (y - 1, 11) else (y, m - 1)

/-- Year and month index of the month after month `m` of year `y` -/
def nextMonth (y m : Int) : Int × Int := if m = 11 then (y + 1, 0) else (y, m + 1)

/-- The reference date lies at least 37 days after the first and at least 42
days before the last instant that a `Date` can hold, so that every day of its
month grid is in the range of `Date` -/
def gridInRange (d : JSDate) : Prop :=
  -maxTime + 37 * msPerDay ≤ d.time ∧ d.time + 42 * msPerDay ≤ maxTime

instance (d : JSDate) : Decidable (gridInRange d) :=
  inferInstanceAs (Decidable (-maxTime + 37 * msPerDay ≤ d.time ∧
    d.time + 42 * msPerDay ≤ maxTime))

/-! ## Lemmas on the date arithmetic -/

theorem DaysInYear_pos (y : Int) : 365 ≤ DaysInYear y ∧ DaysInYear y ≤ 366 := by
  unfold DaysInYear
  split_ifs <;> omega

theorem DayFromYear_succ (y : Int) : DayFromYear (y + 1) = DayFromYear y + DaysInYear y := by
  unfold DayFromYear DaysInYear
  split_ifs <;> omega

theorem YearFromDay_spec (d : Int) :
    DayFromYear (YearFromDay d) ≤ d ∧ d < DayFromYear (YearFromDay d + 1) := by
  unfold YearFromDay
  simp only
  generalize hy : 1970 + (400 * d) / 146097 = y
  split_ifs with h1 h2
  · rw [sub_add_cancel]
    refine ⟨?_, h1⟩
    have := DayFromYear_succ (y - 1)
    rw [sub_add_cancel] at this
    unfold DayFromYear DaysInYear at *
    split_ifs at this <;> omega
  · refine ⟨h2, ?_⟩
    have := DayFromYear_succ (y + 1)
    unfold DayFromYear DaysInYear at *
    split_ifs at this <;> omega
  · exact ⟨by omega, by omega⟩

theorem DayFromYear_mono {a b : Int} (h : a ≤ b) : DayFromYear a ≤ DayFromYear b := by
  unfold DayFromYear
  omega

/-- The year of a day is the only `y` with `DayFromYear y ≤ d < DayFromYear (y + 1)` -/
theorem YearFromDay_unique {d y : Int} (h1 : DayFromYear y ≤ d) (h2 : d < DayFromYear (y + 1)) :
    YearFromDay d = y := by
  have hs := YearFromDay_spec d
  by_contra hne
  rcases lt_or_gt_of_ne hne with h | h
  · have := DayFromYear_mono (show YearFromDay d + 1 ≤ y by omega)
    omega
  · have := DayFromYear_mono (show y + 1 ≤ YearFromDay d by omega)
    omega

theorem leapOfYear_cases (y : Int) :
    (leapOfYear y = 0 ∨ leapOfYear y = 1) ∧ DaysInYear y = 365 + leapOfYear y := by
  unfold leapOfYear
  have := DaysInYear_pos y
  split_ifs <;> omega

/-- The twelve rows of the month table: the range of days within the year, the
month and the day of the month -/
theorem yearDay_cases (dwy leap : Int) :
    (dwy < 31 ∧ monthOfYearDay dwy leap = 0 ∧ dateOfYearDay dwy leap = dwy + 1) ∨
    (31 ≤ dwy ∧ dwy < 59 + leap ∧ monthOfYearDay dwy leap = 1 ∧
      dateOfYearDay dwy leap = dwy - 30) ∨
    (59 + leap ≤ dwy ∧ dwy < 90 + leap ∧ monthOfYearDay dwy leap = 2 ∧
      dateOfYearDay dwy leap = dwy - 58 - leap) ∨
    (90 + leap ≤ dwy ∧ dwy < 120 + leap ∧ monthOfYearDay dwy leap = 3 ∧
      dateOfYearDay dwy leap = dwy - 89 - leap) ∨
    (120 + leap ≤ dwy ∧ dwy < 151 + leap ∧ monthOfYearDay dwy leap = 4 ∧
      dateOfYearDay dwy leap = dwy - 119 - leap) ∨
    (151 + leap ≤ dwy ∧ dwy < 181 + leap ∧ monthOfYearDay dwy leap = 5 ∧
      dateOfYearDay dwy leap = dwy - 150 - leap) ∨
    (181 + leap ≤ dwy ∧ dwy < 212 + leap ∧ monthOfYearDay dwy leap = 6 ∧
      dateOfYearDay dwy leap = dwy - 180 - leap) ∨
    (212 + leap ≤ dwy ∧ dwy < 243 + leap ∧ monthOfYearDay dwy leap = 7 ∧
      dateOfYearDay dwy leap = dwy - 211 - leap) ∨
    (243 + leap ≤ dwy ∧ dwy < 273 + leap ∧ monthOfYearDay dwy leap = 8 ∧
      dateOfYearDay dwy leap = dwy - 242 - leap) ∨
    (273 + leap ≤ dwy ∧ dwy < 304 + leap ∧ monthOfYearDay dwy leap = 9 ∧
      dateOfYearDay dwy leap = dwy - 272 - leap) ∨
    (304 + leap ≤ dwy ∧ dwy < 334 + leap ∧ monthOfYearDay dwy leap = 10 ∧
      dateOfYearDay dwy leap = dwy - 303 - leap) ∨
    (334 + leap ≤ dwy ∧ monthOfYearDay dwy leap = 11 ∧
      dateOfYearDay dwy leap = dwy - 333 - leap) := by
  by_cases h0 : dwy < 31
  · exact Or.inl ⟨h0, by simp [monthOfYearDay, h0], by simp [dateOfYearDay, monthOfYearDay, h0]⟩
  right
  by_cases h1 : dwy < 59 + leap
  · exact Or.inl ⟨by omega, h1, by simp [monthOfYearDay, h0, h1],
      by simp [dateOfYearDay, monthOfYearDay, h0, h1]⟩
  right
  by_cases h2 : dwy < 90 + leap
  · exact Or.inl ⟨by omega, h2, by simp [monthOfYearDay, h0, h1, h2],
      by simp [dateOfYearDay, monthOfYearDay, h0, h1, h2]⟩
  right
  by_cases h3 : dwy < 120 + leap
  · exact Or.inl ⟨by omega, h3, by simp [monthOfYearDay, h0, h1, h2, h3],
      by simp [dateOfYearDay, monthOfYearDay, h0, h1, h2, h3]⟩
  right
  by_cases h4 : dwy < 151 + leap
  · exact Or.inl ⟨by omega, h4, by simp [monthOfYearDay, h0, h1, h2, h3, h4],
      by simp [dateOfYearDay, monthOfYearDay, h0, h1, h2, h3, h4]⟩
  right
  by_cases h5 : dwy < 181 + leap
  · exact Or.inl ⟨by omega, h5, by simp [monthOfYearDay, h0, h1, h2, h3, h4, h5],
      by simp [dateOfYearDay, monthOfYearDay, h0, h1, h2, h3, h4, h5]⟩
  right
  by_cases h6 : dwy < 212 + leap
  · exact Or.inl ⟨by omega, h6, by simp [monthOfYearDay, h0, h1, h2, h3, h4, h5, h6],
      by simp [dateOfYearDay, monthOfYearDay, h0, h1, h2, h3, h4, h5, h6]⟩
  right
  by_cases h7 : dwy < 243 + leap
  · exact Or.inl ⟨by omega, h7, by simp [monthOfYearDay, h0, h1, h2, h3, h4, h5, h6, h7],
      by simp [dateOfYearDay, monthOfYearDay, h0, h1, h2, h3, h4, h5, h6, h7]⟩
  right
  by_cases h8 : dwy < 273 + leap
  · exact Or.inl ⟨by omega, h8, by simp [monthOfYearDay, h0, h1, h2, h3, h4, h5, h6, h7, h8],
      by simp [dateOfYearDay, monthOfYearDay, h0, h1, h2, h3, h4, h5, h6, h7, h8]⟩
  right
  by_cases h9 : dwy < 304 + leap
  · exact Or.inl ⟨by omega, h9,
      by simp [monthOfYearDay, h0, h1, h2, h3, h4, h5, h6, h7, h8, h9],
      by simp [dateOfYearDay, monthOfYearDay, h0, h1, h2, h3, h4, h5, h6, h7, h8, h9]⟩
  right
  by_cases h10 : dwy < 334 + leap
  · exact Or.inl ⟨by omega, h10,
      by simp [monthOfYearDay, h0, h1, h2, h3, h4, h5, h6, h7, h8, h9, h10],
      by simp [dateOfYearDay, monthOfYearDay, h0, h1, h2, h3, h4, h5, h6, h7, h8, h9, h10]⟩
  right
  exact ⟨by omega, by simp [monthOfYearDay, h0, h1, h2, h3, h4, h5, h6, h7, h8, h9, h10],
      by simp [dateOfYearDay, monthOfYearDay, h0, h1, h2, h3, h4, h5, h6, h7, h8, h9, h10]⟩

theorem monthStart_cases (m leap : Int) (hm0 : 0 ≤ m) (hm1 : m ≤ 11) :
    (m = 0 ∧ monthStart m leap = 0 ∧ monthLen m leap = 31) ∨
    (m = 1 ∧ monthStart m leap = 31 ∧ monthLen m leap = 28 + leap) ∨
    (m = 2 ∧ monthStart m leap = 59 + leap ∧ monthLen m leap = 31) ∨
    (m = 3 ∧ monthStart m leap = 90 + leap ∧ monthLen m leap = 30) ∨
    (m = 4 ∧ monthStart m leap = 120 + leap ∧ monthLen m leap = 31) ∨
    (m = 5 ∧ monthStart m leap = 151 + leap ∧ monthLen m leap = 30) ∨
    (m = 6 ∧ monthStart m leap = 181 + leap ∧ monthLen m leap = 31) ∨
    (m = 7 ∧ monthStart m leap = 212 + leap ∧ monthLen m leap = 31) ∨
    (m = 8 ∧ monthStart m leap = 243 + leap ∧ monthLen m leap = 30) ∨
    (m = 9 ∧ monthStart m leap = 273 + leap ∧ monthLen m leap = 31) ∨
    (m = 10 ∧ monthStart m leap = 304 + leap ∧ monthLen m leap = 30) ∨
    (m = 11 ∧ monthStart m leap = 334 + leap ∧ monthLen m leap = 31) := by
  have hm : m = 0 ∨ m = 1 ∨ m = 2 ∨ m = 3 ∨ m = 4 ∨ m = 5 ∨ m = 6 ∨ m = 7 ∨ m = 8 ∨ m = 9 ∨
      m = 10 ∨ m = 11 := by omega
  rcases hm with h | h | h | h | h | h | h | h | h | h | h | h <;> subst h <;>
    simp [monthStart, monthLen]

theorem yearDay_decomp (dwy leap : Int) (h0 : 0 ≤ dwy) (h1 : dwy < 365 + leap) :
    0 ≤ monthOfYearDay dwy leap ∧ monthOfYearDay dwy leap ≤ 11 ∧
    1 ≤ dateOfYearDay dwy leap ∧
    dateOfYearDay dwy leap ≤ monthLen (monthOfYearDay dwy leap) leap ∧
    monthStart (monthOfYearDay dwy leap) leap + dateOfYearDay dwy leap - 1 = dwy := by
  rcases yearDay_cases dwy leap with h | h | h | h | h | h | h | h | h | h | h | h <;>
    (obtain ⟨_, _⟩ := h
     simp_all [monthStart, monthLen]
     try omega)

theorem yearDay_comp (m dt leap : Int) (hm0 : 0 ≤ m) (hm1 : m ≤ 11) (hl : leap = 0 ∨ leap = 1)
    (hd0 : 1 ≤ dt) (hd1 : dt ≤ monthLen m leap) :
    monthOfYearDay (monthStart m leap + dt - 1) leap = m ∧
    dateOfYearDay (monthStart m leap + dt - 1) leap = dt := by
  rcases monthStart_cases m leap hm0 hm1 with h | h | h | h | h | h | h | h | h | h | h | h <;>
    (obtain ⟨hm, hs, hlen⟩ := h
     rw [hlen] at hd1
     rw [hs]
     rcases yearDay_cases (monthStart m leap + dt - 1) leap with
       c | c | c | c | c | c | c | c | c | c | c | c <;>
     (rw [hs] at c; omega))


theorem Day_MakeDate (d tod : Int) (h0 : 0 ≤ tod) (h1 : tod < msPerDay) :
    Day (MakeDate d tod) = d ∧ TimeWithinDay (MakeDate d tod) = tod := by
  unfold Day TimeWithinDay MakeDate msPerDay at *
  omega

theorem Day_midnight (d : Int) : Day (d * msPerDay) = d := by
  unfold Day msPerDay
  omega

theorem InLeapYear_eq (t : Int) : InLeapYear t = leapOfYear (YearFromTime t) := rfl

/-- Every time value lies on the day its year, month and day of month denote -/
theorem date_decomp (t : Int) :
    0 ≤ MonthFromTime t ∧ MonthFromTime t ≤ 11 ∧ 1 ≤ DateFromTime t ∧
    DateFromTime t ≤ monthLen (MonthFromTime t) (leapOfYear (YearFromTime t)) ∧
    Day t = DayFromYear (YearFromTime t) +
      monthStart (MonthFromTime t) (leapOfYear (YearFromTime t)) + DateFromTime t - 1 := by
  have hs := YearFromDay_spec (Day t)
  have hl := leapOfYear_cases (YearFromTime t)
  have hsucc := DayFromYear_succ (YearFromTime t)
  have hd := yearDay_decomp (DayWithinYear t) (leapOfYear (YearFromTime t))
    (by unfold DayWithinYear YearFromTime; omega)
    (by unfold DayWithinYear YearFromTime at *; omega)
  unfold MonthFromTime DateFromTime
  rw [InLeapYear_eq]
  obtain ⟨a, b, c, d, e⟩ := hd
  refine ⟨a, b, c, d, ?_⟩
  unfold DayWithinYear at e ⊢
  omega

/-- A time value on the day denoted by a year, a month and a day of that month
has these as its year, month and day of month -/
theorem date_comp (t y m dt : Int) (hm0 : 0 ≤ m) (hm1 : m ≤ 11) (hd0 : 1 ≤ dt)
    (hd1 : dt ≤ monthLen m (leapOfYear y))
    (hday : Day t = DayFromYear y + monthStart m (leapOfYear y) + dt - 1) :
    YearFromTime t = y ∧ MonthFromTime t = m ∧ DateFromTime t = dt := by
  have hl := leapOfYear_cases y
  have hsucc := DayFromYear_succ y
  have hc := yearDay_comp m dt (leapOfYear y) hm0 hm1 hl.1 hd0 hd1
  have hy : YearFromTime t = y := by
    unfold YearFromTime
    apply YearFromDay_unique
    · rcases monthStart_cases m (leapOfYear y) hm0 hm1 with
        h | h | h | h | h | h | h | h | h | h | h | h <;> omega
    · rcases monthStart_cases m (leapOfYear y) hm0 hm1 with
        h | h | h | h | h | h | h | h | h | h | h | h <;> omega
  refine ⟨hy, ?_, ?_⟩
  · unfold MonthFromTime DayWithinYear
    rw [InLeapYear_eq, hy, hday]
    have : DayFromYear y + monthStart m (leapOfYear y) + dt - 1 - DayFromYear y =
        monthStart m (leapOfYear y) + dt - 1 := by omega
    rw [this]
    exact hc.1
  · unfold DateFromTime DayWithinYear
    rw [InLeapYear_eq, hy, hday]
    have : DayFromYear y + monthStart m (leapOfYear y) + dt - 1 - DayFromYear y =
        monthStart m (leapOfYear y) + dt - 1 := by omega
    rw [this]
    exact hc.2

theorem MakeDay_of_month (y m dt : Int) (hm0 : 0 ≤ m) (hm1 : m ≤ 11) :
    MakeDay y m dt = DayFromYear y + monthStart m (leapOfYear y) + dt - 1 := by
  unfold MakeDay
  have h1 : m / 12 = 0 := by omega
  have h2 : m % 12 = m := by omega
  simp only [h1, h2, add_zero]

theorem MakeDay_shift (y m dt : Int) : MakeDay y m dt = MakeDay y m 1 + dt - 1 := by
  simp only [MakeDay]
  omega

/-- The day set by year, month and day of month taken from a time value -/
theorem MakeDay_fields (t dt : Int) :
    MakeDay (YearFromTime t) (MonthFromTime t) dt = Day t - DateFromTime t + dt := by
  have h := date_decomp t
  rw [MakeDay_of_month _ _ _ h.1 h.2.1]
  omega

/-- The first day of the next month comes a month length after the first of this month -/
theorem MakeDay_next (y m dt : Int) (hm0 : 0 ≤ m) (hm1 : m ≤ 11) :
    MakeDay y (m + 1) dt = MakeDay y m dt + monthLen m (leapOfYear y) := by
  have hl := leapOfYear_cases y
  have hsucc := DayFromYear_succ y
  rw [MakeDay_of_month y m dt hm0 hm1]
  by_cases h11 : m = 11
  · subst h11
    unfold MakeDay
    norm_num [monthStart, monthLen]
    omega
  · rw [MakeDay_of_month y (m + 1) dt (by omega) (by omega)]
    rcases monthStart_cases m (leapOfYear y) hm0 hm1 with
      h | h | h | h | h | h | h | h | h | h | h | h <;>
    (obtain ⟨hm, hs, hlen⟩ := h
     subst hm
     rw [hlen]
     norm_num [monthStart]
     try omega)

theorem forDown_eq {α : Type} (f : Int → α) (n : Nat) (days : List α) :
    forDown f n days = days ++ (List.range n).map (fun (k : Nat) => f ((n : Int) - 1 - (k : Int))) := by
  induction n generalizing days with
  | zero => simp [forDown]
  | succ n ih =>
    rw [forDown, ih, List.range_succ_eq_map, List.map_cons, List.map_map, List.append_assoc]
    have h0 : ((n + 1 : Nat) : Int) - 1 - ((0 : Nat) : Int) = (n : Int) := by push_cast; omega
    rw [h0, List.singleton_append]
    congr 2
    apply List.map_congr_left
    intro k _
    simp only [Function.comp]
    congr 1
    push_cast
    omega

theorem forUp_eq {α : Type} (f : Int → α) (n : Nat) (s : Int) (days : List α) :
    forUp f n s days = days ++ (List.range n).map (fun (k : Nat) => f (s + (k : Int))) := by
  induction n generalizing s days with
  | zero => simp [forUp]
  | succ n ih =>
    rw [forUp, ih, List.range_succ_eq_map, List.map_cons, List.map_map, List.append_assoc]
    have h0 : s + ((0 : Nat) : Int) = s := by push_cast; omega
    rw [h0, List.singleton_append]
    congr 2
    apply List.map_congr_left
    intro k _
    simp only [Function.comp]
    congr 1
    push_cast
    omega

theorem newDate_eq (year month date : Int) :
    newDate year month date =
      TimeClip (MakeDay (if 0 ≤ year ∧ year ≤ 99 then 1900 + year else year) month date *
        msPerDay) := by
  simp [newDate, MakeDate, MakeTime]

theorem TimeClip_day (d : Int) (h0 : -100000000 ≤ d) (h1 : d ≤ 100000000) :
    TimeClip (d * msPerDay) = some ⟨d * msPerDay⟩ := by
  unfold TimeClip
  rw [if_pos]
  unfold maxTime msPerDay
  omega

theorem WeekDay_range (t : Int) : 0 ≤ WeekDay t ∧ WeekDay t ≤ 6 := by
  unfold WeekDay
  omega

theorem monthLen_range (m leap : Int) (hl : leap = 0 ∨ leap = 1) :
    28 ≤ monthLen m leap ∧ monthLen m leap ≤ 31 := by
  unfold monthLen
  split_ifs <;> omega

theorem rounds_getDay (x : Option JSDate) : rounds (x.map JSDate.getDay) ≤ 6 := by
  cases x with
  | none => simp [rounds]
  | some d =>
    have := WeekDay_range d.time
    simp only [Option.map_some', rounds, JSDate.getDay]
    omega

theorem rounds_getDate (x : Option JSDate) : rounds (x.map JSDate.getDate) ≤ 31 := by
  cases x with
  | none => simp [rounds]
  | some d =>
    have h := date_decomp d.time
    have hl := monthLen_range (MonthFromTime d.time) _ (leapOfYear_cases (YearFromTime d.time)).1
    simp only [Option.map_some', rounds, JSDate.getDate]
    omega

theorem generateCalendarDays_length (cd : JSDate) : (generateCalendarDays cd).length = 42 := by
  unfold generateCalendarDays
  simp only [forDown_eq, forUp_eq, List.nil_append, List.length_append, List.length_map,
    List.length_range]
  have h1 := rounds_getDay (newDate cd.getFullYear cd.getMonth 1)
  have h2 := rounds_getDate (newDate cd.getFullYear (cd.getMonth + 1) 0)
  omega

/-- The first day of the month of a reference date in range, as a day number -/
theorem gridInRange_first (cd : JSDate) (yr : Int)
    (hyr : yr = if 0 ≤ cd.getFullYear ∧ cd.getFullYear ≤ 99 then 1900 + cd.getFullYear
      else cd.getFullYear) (hr : gridInRange cd) :
    -100000000 + 6 ≤ MakeDay yr cd.getMonth 1 ∧ MakeDay yr cd.getMonth 1 + 41 ≤ 100000000 := by
  have hdec := date_decomp cd.time
  have hm0 : 0 ≤ cd.getMonth := hdec.1
  have hm1 : cd.getMonth ≤ 11 := hdec.2.1
  by_cases hy : 0 ≤ cd.getFullYear ∧ cd.getFullYear ≤ 99
  · rw [if_pos hy] at hyr
    rw [MakeDay_of_month _ _ _ hm0 hm1]
    have h1 := DayFromYear_mono (show (1900 : Int) ≤ yr by omega)
    have h2 := DayFromYear_mono (show yr ≤ (1999 : Int) by omega)
    have e1 : DayFromYear 1900 = -25567 := by decide
    have e2 : DayFromYear 1999 = 10592 := by decide
    have hl := (leapOfYear_cases yr).1
    rcases monthStart_cases cd.getMonth (leapOfYear yr) hm0 hm1 with
      h | h | h | h | h | h | h | h | h | h | h | h <;> omega
  · rw [if_neg hy] at hyr
    subst hyr
    have hf := MakeDay_fields cd.time 1
    have hl := monthLen_range (MonthFromTime cd.time) _ (leapOfYear_cases (YearFromTime cd.time)).1
    have hD : -100000000 + 37 ≤ Day cd.time ∧ Day cd.time + 42 ≤ 100000000 := by
      unfold gridInRange maxTime msPerDay at hr
      unfold Day msPerDay
      omega
    simp only [JSDate.getFullYear, JSDate.getMonth]
    omega


/-- The grid in closed form, for a reference date in range: cell `k` is local
midnight of the day `k - w` days after the first of the month of `yr`, the
year as the `Date` constructor reads it -/
theorem generateCalendarDays_eq (cd : JSDate) (yr : Int)
    (hyr : yr = if 0 ≤ cd.getFullYear ∧ cd.getFullYear ≤ 99 then 1900 + cd.getFullYear
      else cd.getFullYear) (hr : gridInRange cd) :
    generateCalendarDays cd = (List.range 42).map (fun (k : Nat) =>
      (⟨some ⟨(MakeDay yr cd.getMonth 1 - (MakeDay yr cd.getMonth 1 + 4) % 7 + (k : Int)) *
          msPerDay⟩,
        decide ((MakeDay yr cd.getMonth 1 + 4) % 7 ≤ (k : Int) ∧
          (k : Int) < (MakeDay yr cd.getMonth 1 + 4) % 7 +
            monthLen cd.getMonth (leapOfYear yr))⟩ : DayCell)) := by
  have hdec := date_decomp cd.time
  have hm0 : 0 ≤ cd.getMonth := hdec.1
  have hm1 : cd.getMonth ≤ 11 := hdec.2.1
  have hl := leapOfYear_cases yr
  have hlen := monthLen_range cd.getMonth (leapOfYear yr) hl.1
  have hrange := gridInRange_first cd yr hyr hr
  generalize hF : MakeDay yr cd.getMonth 1 = F at hrange
  generalize hw : (F + 4) % 7 = w
  generalize hn : monthLen cd.getMonth (leapOfYear yr) = n at hlen
  have hw0 : 0 ≤ w ∧ w ≤ 6 := by omega
  have hnd : ∀ mo dt, newDate cd.getFullYear mo dt = TimeClip (MakeDay yr mo dt * msPerDay) := by
    intro mo dt
    rw [newDate_eq, ← hyr]
  have hfirst : newDate cd.getFullYear cd.getMonth 1 = some ⟨F * msPerDay⟩ := by
    rw [hnd, hF, TimeClip_day _ (by omega) (by omega)]
  have hlast : newDate cd.getFullYear (cd.getMonth + 1) 0 = some ⟨(F + n - 1) * msPerDay⟩ := by
    rw [hnd, MakeDay_next _ _ _ hm0 hm1, MakeDay_shift, hF, hn]
    have e : F + 0 - 1 + n = F + n - 1 := by omega
    rw [e, TimeClip_day _ (by omega) (by omega)]
  have hfirstDay : (⟨F * msPerDay⟩ : JSDate).getDay = w := by
    rw [JSDate.getDay, WeekDay, Day_midnight, hw]
  have hlastDay : (⟨(F + n - 1) * msPerDay⟩ : JSDate).getDate = n := by
    rw [JSDate.getDate]
    refine (date_comp _ yr cd.getMonth n hm0 hm1 (by omega) (by omega) ?_).2.2
    rw [Day_midnight, ← hF, MakeDay_of_month _ _ _ hm0 hm1]
    omega
  unfold generateCalendarDays
  simp only [hfirst, hlast, Option.map_some', hfirstDay, hlastDay, rounds, forDown_eq, forUp_eq,
    List.nil_append, List.length_append, List.length_map, List.length_range]
  have h42 : 42 = w.toNat + (n.toNat + (42 - (w.toNat + n.toNat))) := by omega
  conv_rhs => rw [h42]
  simp only [List.range_add, List.map_append, List.map_map, List.append_assoc]
  congr 1
  · apply List.map_congr_left
    intro k hk
    rw [List.mem_range] at hk
    rw [hnd, MakeDay_shift, hF]
    have h1 : F + -((w.toNat : Int) - 1 - (k : Int)) - 1 = F - w + (k : Int) := by omega
    have h2 : ¬ (w ≤ (k : Int) ∧ (k : Int) < w + n) := by omega
    rw [h1, decide_eq_false h2, TimeClip_day _ (by omega) (by omega)]
  congr 1
  · apply List.map_congr_left
    intro k hk
    rw [List.mem_range] at hk
    simp only [Function.comp]
    rw [hnd, MakeDay_shift, hF]
    have h1 : F + (1 + (k : Int)) - 1 = F - w + ((w.toNat + k : Nat) : Int) := by omega
    have h2 : w ≤ ((w.toNat + k : Nat) : Int) ∧ ((w.toNat + k : Nat) : Int) < w + n := by omega
    rw [h1, decide_eq_true h2, TimeClip_day _ (by omega) (by omega)]
  · apply List.map_congr_left
    intro k hk
    rw [List.mem_range] at hk
    simp only [Function.comp]
    rw [hnd, MakeDay_next _ _ _ hm0 hm1, MakeDay_shift, hF, hn]
    have h1 : F + (1 + (k : Int)) - 1 + n = F - w + ((w.toNat + (n.toNat + k) : Nat) : Int) := by
      omega
    have h2 : ¬ (w ≤ ((w.toNat + (n.toNat + k) : Nat) : Int) ∧
        ((w.toNat + (n.toNat + k) : Nat) : Int) < w + n) := by omega
    rw [h1, decide_eq_false h2, TimeClip_day _ (by omega) (by omega)]

theorem grid_cell (cd : JSDate) (yr : Int)
    (hyr : yr = if 0 ≤ cd.getFullYear ∧ cd.getFullYear ≤ 99 then 1900 + cd.getFullYear
      else cd.getFullYear) (hr : gridInRange cd) (k : Nat) (c : DayCell)
    (h : (generateCalendarDays cd)[k]? = some c) :
    k < 42 ∧ c =
      ⟨some ⟨(MakeDay yr cd.getMonth 1 - (MakeDay yr cd.getMonth 1 + 4) % 7 + (k : Int)) *
          msPerDay⟩,
        decide ((MakeDay yr cd.getMonth 1 + 4) % 7 ≤ (k : Int) ∧
          (k : Int) < (MakeDay yr cd.getMonth 1 + 4) % 7 +
            monthLen cd.getMonth (leapOfYear yr))⟩ := by
  rw [generateCalendarDays_eq cd yr hyr hr, List.getElem?_map] at h
  by_cases hk : k < 42
  · rw [List.getElem?_range hk] at h
    simp only [Option.map_some', Option.some.injEq] at h
    exact ⟨hk, h.symm⟩
  · rw [List.getElem?_eq_none (by simp; omega)] at h
    simp at h

theorem Day_sub_days (t j : Int) : Day (t - j * msPerDay) = Day t - j := by
  unfold Day msPerDay
  omega

theorem firstWeekdayOfMonth_eq (cd : JSDate) :
    firstWeekdayOfMonth cd = (MakeDay cd.getFullYear cd.getMonth 1 + 4) % 7 := by
  unfold firstWeekdayOfMonth WeekDay
  rw [Day_sub_days]
  have := MakeDay_fields cd.time 1
  unfold JSDate.getFullYear JSDate.getMonth JSDate.getDate
  omega

/-- Fields of local midnight of the `j`-th day (from 0) of a month -/
theorem fields_in_month (Y M j : Int) (hm0 : 0 ≤ M) (hm1 : M ≤ 11) (hj0 : 0 ≤ j)
    (hj1 : j < monthLen M (leapOfYear Y)) :
    YearFromTime ((MakeDay Y M 1 + j) * msPerDay) = Y ∧
    MonthFromTime ((MakeDay Y M 1 + j) * msPerDay) = M ∧
    DateFromTime ((MakeDay Y M 1 + j) * msPerDay) = j + 1 := by
  apply date_comp _ Y M (j + 1) hm0 hm1 (by omega) (by omega)
  rw [Day_midnight, MakeDay_of_month _ _ _ hm0 hm1]
  omega

theorem prevMonth_first (y m : Int) (hm0 : 0 ≤ m) (hm1 : m ≤ 11) :
    0 ≤ (prevMonth y m).2 ∧ (prevMonth y m).2 ≤ 11 ∧
    MakeDay y m 1 = MakeDay (prevMonth y m).1 (prevMonth y m).2 1 +
      monthLen (prevMonth y m).2 (leapOfYear (prevMonth y m).1) := by
  unfold prevMonth
  split_ifs with h
  · subst h
    refine ⟨by norm_num, by norm_num, ?_⟩
    rw [← MakeDay_next _ _ _ (by norm_num) (by norm_num)]
    simp only [MakeDay]
    norm_num
  · refine ⟨by omega, by omega, ?_⟩
    simp only
    rw [← MakeDay_next _ _ _ (by omega) (by omega), sub_add_cancel]

theorem nextMonth_first (y m : Int) (hm0 : 0 ≤ m) (hm1 : m ≤ 11) :
    0 ≤ (nextMonth y m).2 ∧ (nextMonth y m).2 ≤ 11 ∧
    MakeDay (nextMonth y m).1 (nextMonth y m).2 1 =
      MakeDay y m 1 + monthLen m (leapOfYear y) := by
  unfold nextMonth
  split_ifs with h
  · subst h
    refine ⟨by norm_num, by norm_num, ?_⟩
    rw [← MakeDay_next _ _ _ (by norm_num) (by norm_num)]
    simp only [MakeDay]
    norm_num
  · refine ⟨by omega, by omega, ?_⟩
    simp only
    rw [← MakeDay_next _ _ _ (by omega) (by omega)]

theorem prevMonth_ne (y m : Int) : prevMonth y m ≠ (y, m) := by
  unfold prevMonth
  split_ifs <;> simp

theorem nextMonth_ne (y m : Int) : nextMonth y m ≠ (y, m) := by
  unfold nextMonth
  split_ifs <;> simp

/-- Year, month and day of month of every cell of the grid of a reference date
in range whose year is not in 0..99 -/
theorem grid_fields (cd : JSDate) (hyear : ¬ (0 ≤ cd.getFullYear ∧ cd.getFullYear ≤ 99))
    (hr : gridInRange cd) (k : Nat) (c : DayCell)
    (h : (generateCalendarDays cd)[k]? = some c) :
    k < 42 ∧ ∃ d : JSDate, c.date = some d ∧
    d.time = (MakeDay cd.getFullYear cd.getMonth 1 - firstWeekdayOfMonth cd + (k : Int)) *
      msPerDay ∧
    (c.isCurrentMonth = true ↔ firstWeekdayOfMonth cd ≤ (k : Int) ∧
      (k : Int) < firstWeekdayOfMonth cd + daysInMonthOf cd.getFullYear cd.getMonth) ∧
    ((k : Int) < firstWeekdayOfMonth cd →
      (d.getFullYear, d.getMonth) = prevMonth cd.getFullYear cd.getMonth ∧
      d.getDate = daysInMonthOf (prevMonth cd.getFullYear cd.getMonth).1
        (prevMonth cd.getFullYear cd.getMonth).2 - firstWeekdayOfMonth cd + (k : Int) + 1) ∧
    (firstWeekdayOfMonth cd ≤ (k : Int) →
      (k : Int) < firstWeekdayOfMonth cd + daysInMonthOf cd.getFullYear cd.getMonth →
      d.getFullYear = cd.getFullYear ∧ d.getMonth = cd.getMonth ∧
      d.getDate = (k : Int) - firstWeekdayOfMonth cd + 1) ∧
    (firstWeekdayOfMonth cd + daysInMonthOf cd.getFullYear cd.getMonth ≤ (k : Int) →
      (d.getFullYear, d.getMonth) = nextMonth cd.getFullYear cd.getMonth ∧
      d.getDate = (k : Int) -
        (firstWeekdayOfMonth cd + daysInMonthOf cd.getFullYear cd.getMonth) + 1) := by
  obtain ⟨hk, hc⟩ := grid_cell cd cd.getFullYear (by rw [if_neg hyear]) hr k c h
  have hdec := date_decomp cd.time
  have hm0 : 0 ≤ cd.getMonth := hdec.1
  have hm1 : cd.getMonth ≤ 11 := hdec.2.1
  rw [← firstWeekdayOfMonth_eq] at hc
  have hw : 0 ≤ firstWeekdayOfMonth cd ∧ firstWeekdayOfMonth cd ≤ 6 := WeekDay_range _
  generalize firstWeekdayOfMonth cd = w at *
  generalize cd.getFullYear = y at *
  generalize cd.getMonth = m at *
  have hlen := monthLen_range m _ (leapOfYear_cases y).1
  obtain ⟨hp0, hp1, hp⟩ := prevMonth_first y m hm0 hm1
  have hplen := monthLen_range (prevMonth y m).2 _ (leapOfYear_cases (prevMonth y m).1).1
  obtain ⟨hn0, hn1, hn⟩ := nextMonth_first y m hm0 hm1
  have hnlen := monthLen_range (nextMonth y m).2 _ (leapOfYear_cases (nextMonth y m).1).1
  subst hc
  unfold daysInMonthOf
  refine ⟨hk, _, rfl, rfl, decide_eq_true_iff, ?_, ?_, ?_⟩
  · intro hlt
    have hf := fields_in_month (prevMonth y m).1 (prevMonth y m).2
      (monthLen (prevMonth y m).2 (leapOfYear (prevMonth y m).1) - w + (k : Int))
      hp0 hp1 (by omega) (by omega)
    have he : MakeDay y m 1 - w + (k : Int) =
        MakeDay (prevMonth y m).1 (prevMonth y m).2 1 +
        (monthLen (prevMonth y m).2 (leapOfYear (prevMonth y m).1) - w + (k : Int)) := by omega
    simp only [JSDate.getFullYear, JSDate.getMonth, JSDate.getDate]
    rw [he, hf.1, hf.2.1, hf.2.2]
    exact ⟨rfl, rfl⟩
  · intro h1 h2
    have hf := fields_in_month y m ((k : Int) - w) hm0 hm1 (by omega) (by omega)
    have he : MakeDay y m 1 - w + (k : Int) = MakeDay y m 1 + ((k : Int) - w) := by omega
    simp only [JSDate.getFullYear, JSDate.getMonth, JSDate.getDate]
    rw [he, hf.1, hf.2.1, hf.2.2]
    exact ⟨rfl, rfl, rfl⟩
  · intro hge
    have hf := fields_in_month (nextMonth y m).1 (nextMonth y m).2
      ((k : Int) - (w + monthLen m (leapOfYear y))) hn0 hn1 (by omega) (by omega)
    have he : MakeDay y m 1 - w + (k : Int) =
        MakeDay (nextMonth y m).1 (nextMonth y m).2 1 +
        ((k : Int) - (w + monthLen m (leapOfYear y))) := by omega
    simp only [JSDate.getFullYear, JSDate.getMonth, JSDate.getDate]
    rw [he, hf.1, hf.2.1, hf.2.2]
    exact ⟨rfl, rfl⟩

/-! ## Decimal rendering -/

theorem toDigitsCore_fuel (n : Nat) : ∀ (f : Nat) (acc : List Char), n < f →
    Nat.toDigitsCore 10 f n acc = Nat.toDigits 10 n ++ acc := by
  induction n using Nat.strong_induction_on with
  | _ n ih =>
    intro f acc hf
    obtain ⟨f', rfl⟩ : ∃ f', f = f' + 1 := ⟨f - 1, by omega⟩
    unfold Nat.toDigits
    simp only [Nat.toDigitsCore]
    by_cases h0 : n / 10 = 0
    · simp [h0]
    · simp only [h0, if_false]
      have hlt : n / 10 < n := by omega
      rw [ih (n / 10) hlt f' _ (by omega), ih (n / 10) hlt n _ hlt]
      simp

theorem toDigits_lt (n : Nat) (h : n < 10) : Nat.toDigits 10 n = [Nat.digitChar n] := by
  unfold Nat.toDigits
  simp only [Nat.toDigitsCore]
  have h0 : n / 10 = 0 := by omega
  have h1 : n % 10 = n := by omega
  simp [h0, h1]

theorem toDigits_ge (n : Nat) (h : 10 ≤ n) :
    Nat.toDigits 10 n = Nat.toDigits 10 (n / 10) ++ [Nat.digitChar (n % 10)] := by
  conv_lhs => unfold Nat.toDigits
  simp only [Nat.toDigitsCore]
  have h0 : ¬ n / 10 = 0 := by omega
  simp only [h0, if_false]
  exact toDigitsCore_fuel (n / 10) n _ (by omega)

theorem toDigits_ne_nil (n : Nat) : Nat.toDigits 10 n ≠ [] := by
  by_cases h : n < 10
  · rw [toDigits_lt n h]; simp
  · rw [toDigits_ge n (by omega)]; simp

theorem digitChar_inj {a b : Nat} (ha : a < 10) (hb : b < 10)
    (h : Nat.digitChar a = Nat.digitChar b) : a = b := by
  interval_cases a <;> interval_cases b <;> first | rfl | (exact absurd h (by decide))

theorem digitChar_ne_minus {a : Nat} (ha : a < 10) : Nat.digitChar a ≠ '-' := by
  interval_cases a <;> decide

theorem digitChar_ne_colon {a : Nat} (ha : a < 10) : Nat.digitChar a ≠ ':' := by
  interval_cases a <;> decide

theorem toDigits_inj : ∀ (n m : Nat), Nat.toDigits 10 n = Nat.toDigits 10 m → n = m := by
  intro n
  induction n using Nat.strong_induction_on with
  | _ n ih =>
    intro m h
    by_cases hn : n < 10
    · by_cases hm : m < 10
      · rw [toDigits_lt n hn, toDigits_lt m hm] at h
        exact digitChar_inj hn hm (by simpa using h)
      · rw [toDigits_lt n hn, toDigits_ge m (by omega)] at h
        have := congrArg List.length h
        have hne := toDigits_ne_nil (m / 10)
        cases hd : Nat.toDigits 10 (m / 10) with
        | nil => exact absurd hd hne
        | cons x xs => rw [hd] at this; simp at this
    · by_cases hm : m < 10
      · rw [toDigits_ge n (by omega), toDigits_lt m hm] at h
        have := congrArg List.length h
        have hne := toDigits_ne_nil (n / 10)
        cases hd : Nat.toDigits 10 (n / 10) with
        | nil => exact absurd hd hne
        | cons x xs => rw [hd] at this; simp at this
      · rw [toDigits_ge n (by omega), toDigits_ge m (by omega)] at h
        have h' := List.append_inj' h rfl
        have h1 := ih (n / 10) (by omega) (m / 10) h'.1
        have h2 := digitChar_inj (Nat.mod_lt n (by norm_num)) (Nat.mod_lt m (by norm_num))
          (by simpa using h'.2)
        omega

theorem toDigits_head_ne_minus (n : Nat) :
    ∀ c cs, Nat.toDigits 10 n = c :: cs → c ≠ '-' := by
  induction n using Nat.strong_induction_on with
  | _ n ih =>
    intro c cs h
    by_cases hn : n < 10
    · rw [toDigits_lt n hn] at h
      simp only [List.cons.injEq] at h
      rw [← h.1]
      exact digitChar_ne_minus hn
    · rw [toDigits_ge n (by omega)] at h
      cases hd : Nat.toDigits 10 (n / 10) with
      | nil => exact absurd hd (toDigits_ne_nil _)
      | cons x xs =>
        rw [hd] at h
        simp only [List.cons_append, List.cons.injEq] at h
        rw [← h.1]
        exact ih (n / 10) (by omega) x xs hd

theorem toString_int_data (n : Int) :
    (toString n).data =
      if 0 ≤ n then Nat.toDigits 10 n.toNat else '-' :: Nat.toDigits 10 (-n).toNat := by
  cases n with
  | ofNat m =>
    simp only [Int.ofNat_eq_coe, Int.ofNat_nonneg, if_true, Int.toNat_ofNat]
    rfl
  | negSucc m =>
    have h : ¬ (0 : Int) ≤ Int.negSucc m := by simp [Int.negSucc_lt_zero]
    rw [if_neg h]
    have h2 : (-Int.negSucc m).toNat = m + 1 := by
      rw [Int.neg_negSucc]; rfl
    rw [h2]
    rfl

theorem toString_int_inj (a b : Int) (h : toString a = toString b) : a = b := by
  have hd := congrArg String.data h
  rw [toString_int_data, toString_int_data] at hd
  by_cases ha : 0 ≤ a <;> by_cases hb : 0 ≤ b
  · rw [if_pos ha, if_pos hb] at hd
    have := toDigits_inj _ _ hd
    omega
  · rw [if_pos ha, if_neg hb] at hd
    cases hx : Nat.toDigits 10 a.toNat with
    | nil => exact absurd hx (toDigits_ne_nil _)
    | cons x xs =>
      rw [hx] at hd
      simp only [List.cons.injEq] at hd
      exact absurd hd.1 (toDigits_head_ne_minus _ x xs hx)
  · rw [if_neg ha, if_pos hb] at hd
    cases hx : Nat.toDigits 10 b.toNat with
    | nil => exact absurd hx (toDigits_ne_nil _)
    | cons x xs =>
      rw [hx] at hd
      simp only [List.cons.injEq] at hd
      exact absurd hd.1.symm (toDigits_head_ne_minus _ x xs hx)
  · rw [if_neg ha, if_neg hb] at hd
    simp only [List.cons.injEq, true_and] at hd
    have := toDigits_inj _ _ hd
    omega

/-- Two-digit zero-padded rendering of a number below 100 -/
theorem padStart_two (v : Int) (h0 : 0 ≤ v) (h1 : v < 100) :
    padStart (toString v) 2 '0' =
      String.mk [Nat.digitChar (v.toNat / 10), Nat.digitChar (v.toNat % 10)] := by
  unfold padStart
  have hlen : (toString v).length = (toString v).data.length := rfl
  rw [hlen, toString_int_data, if_pos h0]
  by_cases h : v.toNat < 10
  · rw [toDigits_lt _ h]
    have h2 : v.toNat / 10 = 0 := by omega
    have h3 : v.toNat % 10 = v.toNat := by omega
    rw [h2, h3]
    rfl
  · rw [toDigits_ge _ (by omega), toDigits_lt (v.toNat / 10) (by omega)]
    rfl


/-! ## The date key -/

/-- The text of `getDateString` for a valid date: the year in decimal, then
month and day of month as two digits each -/
theorem getDateString_data (d : JSDate) :
    (getDateString (.date (some d))).data =
      (toString d.getFullYear).data ++
        ['-', Nat.digitChar ((d.getMonth + 1).toNat / 10),
          Nat.digitChar ((d.getMonth + 1).toNat % 10),
          '-', Nat.digitChar (d.getDate.toNat / 10), Nat.digitChar (d.getDate.toNat % 10)] := by
  have hdec := date_decomp d.time
  have hlen := monthLen_range (MonthFromTime d.time) _ (leapOfYear_cases (YearFromTime d.time)).1
  have hm := padStart_two (d.getMonth + 1) (by unfold JSDate.getMonth; omega)
    (by unfold JSDate.getMonth; omega)
  have hd := padStart_two d.getDate (by unfold JSDate.getDate; omega)
    (by unfold JSDate.getDate; omega)
  simp only [getDateString, Option.map_some', numberToString, hm, hd, String.data_append]
  simp

theorem getDateString_eq_of_fields (a b : JSDate) (hy : a.getFullYear = b.getFullYear)
    (hm : a.getMonth = b.getMonth) (hd : a.getDate = b.getDate) :
    getDateString (.date (some a)) = getDateString (.date (some b)) := by
  simp only [getDateString, Option.map_some', hy, hm, hd]

theorem fields_of_getDateString_eq (a b : JSDate)
    (h : getDateString (.date (some a)) = getDateString (.date (some b))) :
    a.getFullYear = b.getFullYear ∧ a.getMonth = b.getMonth ∧ a.getDate = b.getDate := by
  have hda := date_decomp a.time
  have hdb := date_decomp b.time
  have hla := monthLen_range (MonthFromTime a.time) _ (leapOfYear_cases (YearFromTime a.time)).1
  have hlb := monthLen_range (MonthFromTime b.time) _ (leapOfYear_cases (YearFromTime b.time)).1
  have h' := congrArg String.data h
  rw [getDateString_data, getDateString_data] at h'
  obtain ⟨hy, hrest⟩ := List.append_inj' h' rfl
  simp only [List.cons.injEq, and_true, true_and] at hrest
  obtain ⟨m1, m2, d1, d2⟩ := hrest
  unfold JSDate.getMonth JSDate.getDate at *
  have e1 := digitChar_inj (by omega) (by omega) m1
  have e2 := digitChar_inj (by omega) (by omega) m2
  have e3 := digitChar_inj (by omega) (by omega) d1
  have e4 := digitChar_inj (by omega) (by omega) d2
  refine ⟨toString_int_inj _ _ (String.ext hy), by omega, by omega⟩

/-- The key of an Invalid Date differs from the key of every valid date -/
theorem getDateString_invalid_ne (b : JSDate) :
    getDateString (.date none) ≠ getDateString (.date (some b)) := by
  intro h
  have h' := congrArg String.data h
  rw [getDateString_data] at h'
  have h0 : (getDateString (.date none)).data =
      ['N', 'a', 'N', '-', 'N'] ++ ['a', 'N', '-', 'N', 'a', 'N'] := by decide
  rw [h0] at h'
  have := (List.append_inj' h' rfl).2
  simp only [List.cons.injEq] at this
  exact absurd this.1 (by decide)

/-- C9: `getDateString` is a faithful key for calendar-date equality: two valid
instants have the same key if and only if they fall on the same local calendar
day (same year, month and day of month), whatever their times of day. -/
theorem getDateString_faithful_key (a b : JSDate) :
    getDateString (.date (some a)) = getDateString (.date (some b)) ↔
      a.getFullYear = b.getFullYear ∧ a.getMonth = b.getMonth ∧ a.getDate = b.getDate :=
  ⟨fields_of_getDateString_eq a b, fun h => getDateString_eq_of_fields a b h.1 h.2.1 h.2.2⟩

theorem toDigits_four (n : Nat) (h0 : 1000 ≤ n) (h1 : n ≤ 9999) :
    Nat.toDigits 10 n = [Nat.digitChar (n / 1000), Nat.digitChar (n / 100 % 10),
      Nat.digitChar (n / 10 % 10), Nat.digitChar (n % 10)] := by
  rw [toDigits_ge n (by omega), toDigits_ge (n / 10) (by omega),
    toDigits_ge (n / 10 / 10) (by omega), toDigits_lt (n / 10 / 10 / 10) (by omega)]
  have e1 : n / 10 / 10 / 10 = n / 1000 := by omega
  have e2 : n / 10 / 10 % 10 = n / 100 % 10 := by omega
  rw [e1, e2]
  rfl

/-- C8 (as amended): for every date whose year is in 1000..9999,
`getDateString` returns a 10-character text of the form YYYY-MM-DD: the four
digits of the year, a hyphen, the month number (01..12) as two digits, a
hyphen, and the day of the month (01..31) as two digits. -/
theorem getDateString_format (d : JSDate)
    (hyear : 1000 ≤ d.getFullYear ∧ d.getFullYear ≤ 9999) :
    (getDateString (.date (some d))).length = 10 ∧
    1 ≤ d.getMonth + 1 ∧ d.getMonth + 1 ≤ 12 ∧ 1 ≤ d.getDate ∧ d.getDate ≤ 31 ∧
    getDateString (.date (some d)) = String.mk
      [Nat.digitChar (d.getFullYear.toNat / 1000), Nat.digitChar (d.getFullYear.toNat / 100 % 10),
        Nat.digitChar (d.getFullYear.toNat / 10 % 10), Nat.digitChar (d.getFullYear.toNat % 10),
        '-',
        Nat.digitChar ((d.getMonth + 1).toNat / 10), Nat.digitChar ((d.getMonth + 1).toNat % 10),
        '-',
        Nat.digitChar (d.getDate.toNat / 10), Nat.digitChar (d.getDate.toNat % 10)] := by
  have hdec := date_decomp d.time
  have hlen := monthLen_range (MonthFromTime d.time) _ (leapOfYear_cases (YearFromTime d.time)).1
  have hdata := getDateString_data d
  rw [toString_int_data, if_pos (by omega), toDigits_four _ (by omega) (by omega)] at hdata
  have hstr : getDateString (.date (some d)) = String.mk
      [Nat.digitChar (d.getFullYear.toNat / 1000), Nat.digitChar (d.getFullYear.toNat / 100 % 10),
        Nat.digitChar (d.getFullYear.toNat / 10 % 10), Nat.digitChar (d.getFullYear.toNat % 10),
        '-',
        Nat.digitChar ((d.getMonth + 1).toNat / 10), Nat.digitChar ((d.getMonth + 1).toNat % 10),
        '-',
        Nat.digitChar (d.getDate.toNat / 10), Nat.digitChar (d.getDate.toNat % 10)] :=
    String.ext hdata
  refine ⟨by rw [hstr]; rfl, ?_, ?_, ?_, ?_, hstr⟩ <;>
    (simp only [JSDate.getMonth, JSDate.getDate]; omega)

/-- The amended C8 at 2024-03-06: the key is `2024-03-06` -/
theorem getDateString_format_witness :
    (1000 ≤ (⟨1709683200000⟩ : JSDate).getFullYear ∧
      (⟨1709683200000⟩ : JSDate).getFullYear ≤ 9999) ∧
    ((getDateString (.date (some ⟨1709683200000⟩))).length = 10 ∧
    1 ≤ (⟨1709683200000⟩ : JSDate).getMonth + 1 ∧
    (⟨1709683200000⟩ : JSDate).getMonth + 1 ≤ 12 ∧
    1 ≤ (⟨1709683200000⟩ : JSDate).getDate ∧ (⟨1709683200000⟩ : JSDate).getDate ≤ 31 ∧
    getDateString (.date (some ⟨1709683200000⟩)) = String.mk
      [Nat.digitChar ((⟨1709683200000⟩ : JSDate).getFullYear.toNat / 1000),
        Nat.digitChar ((⟨1709683200000⟩ : JSDate).getFullYear.toNat / 100 % 10),
        Nat.digitChar ((⟨1709683200000⟩ : JSDate).getFullYear.toNat / 10 % 10),
        Nat.digitChar ((⟨1709683200000⟩ : JSDate).getFullYear.toNat % 10),
        '-',
        Nat.digitChar (((⟨1709683200000⟩ : JSDate).getMonth + 1).toNat / 10),
        Nat.digitChar (((⟨1709683200000⟩ : JSDate).getMonth + 1).toNat % 10),
        '-',
        Nat.digitChar ((⟨1709683200000⟩ : JSDate).getDate.toNat / 10),
        Nat.digitChar ((⟨1709683200000⟩ : JSDate).getDate.toNat % 10)]) :=
  ⟨by decide, getDateString_format ⟨1709683200000⟩ (by decide)⟩

/-- C8 as stated fails for dates outside the years 1000..9999, because the
year is not padded: for 10000-01-01 (time value 253402300800000) the key is
`10000-01-01`, of 11 characters, and for 0999-12-31 it is `999-12-31`, of 9. -/
theorem getDateString_year_10000 :
    getDateString (.date (some ⟨253402300800000⟩)) = "10000-01-01" ∧
    ¬ (getDateString (.date (some ⟨253402300800000⟩))).length = 10 ∧
    getDateString (.date (some ⟨-30610310400000⟩)) = "999-12-31" ∧
    ¬ (getDateString (.date (some ⟨-30610310400000⟩))).length = 10 := by
  decide


/-! ## Time formatting -/

theorem padStart_two_nat (v : Nat) (h1 : v < 100) :
    padStart (toString v) 2 '0' = String.mk [Nat.digitChar (v / 10), Nat.digitChar (v % 10)] := by
  have := padStart_two (v : Int) (by omega) (by omega)
  simp only [Int.toNat_ofNat] at this
  rw [← this]
  rfl

theorem splitChars_time (a b c d : Char) (ha : a ≠ ':') (hb : b ≠ ':') (hc : c ≠ ':')
    (hd : d ≠ ':') : splitChars ':' [a, b, ':', c, d] = [[a, b], [c, d]] := by
  simp [splitChars, ha, hb, hc, hd]

theorem parseInt_two_digits (h : Nat) (hh : h ≤ 23) :
    parseInt (String.mk [Nat.digitChar (h / 10), Nat.digitChar (h % 10)]) = some (h : Int) := by
  interval_cases h <;> rfl

theorem formatTime_of_parts (a b c d : Char) (ha : a ≠ ':') (hb : b ≠ ':') (hc : c ≠ ':')
    (hd : d ≠ ':') :
    formatTime (String.mk [a, b, ':', c, d]) =
      numberToString ((parseInt (String.mk [a, b])).map
        fun h => if h = 0 then 12 else if h > 12 then h - 12 else h) ++ ":" ++
      String.mk [c, d] ++ " " ++
      (if ((parseInt (String.mk [a, b])).map fun h => decide (h ≥ 12)).getD false then "PM"
        else "AM") := by
  have hne : String.mk [a, b, ':', c, d] ≠ "" := by
    intro h
    exact absurd (congrArg String.data h) (by simp)
  unfold formatTime
  rw [if_neg hne]
  simp only [split, splitChars_time a b c d ha hb hc hd]
  rfl

/-- C7: for every hour `h` in 0..23 and minute `m` in 0..59, `formatTime`
applied to the zero-padded text `HH:MM` returns `<h12>:MM <suffix>`, where `MM`
is the unchanged two-digit minute text and `(h12, suffix)` is `(12, AM)` for
`h = 0`, `(h, AM)` for `h` in 1..11, `(12, PM)` for `h = 12` and `(h - 12, PM)`
for `h` in 13..23. -/
theorem formatTime_twelve_hour (h m : Nat) (hh : h ≤ 23) (hm : m ≤ 59) :
    (padStart (toString m) 2 '0').length = 2 ∧
    (h = 0 → formatTime (padStart (toString h) 2 '0' ++ ":" ++ padStart (toString m) 2 '0') =
      "12:" ++ padStart (toString m) 2 '0' ++ " AM") ∧
    (1 ≤ h → h ≤ 11 →
      formatTime (padStart (toString h) 2 '0' ++ ":" ++ padStart (toString m) 2 '0') =
        toString h ++ ":" ++ padStart (toString m) 2 '0' ++ " AM") ∧
    (h = 12 → formatTime (padStart (toString h) 2 '0' ++ ":" ++ padStart (toString m) 2 '0') =
      "12:" ++ padStart (toString m) 2 '0' ++ " PM") ∧
    (13 ≤ h →
      formatTime (padStart (toString h) 2 '0' ++ ":" ++ padStart (toString m) 2 '0') =
        toString (h - 12) ++ ":" ++ padStart (toString m) 2 '0' ++ " PM") ∧
    (h = 13 → formatTime (padStart (toString h) 2 '0' ++ ":" ++ padStart (toString m) 2 '0') =
      "1:" ++ padStart (toString m) 2 '0' ++ " PM") ∧
    (h = 23 → formatTime (padStart (toString h) 2 '0' ++ ":" ++ padStart (toString m) 2 '0') =
      "11:" ++ padStart (toString m) 2 '0' ++ " PM") := by
  have hcm := @digitChar_ne_colon (m / 10) (by omega)
  have hdm := @digitChar_ne_colon (m % 10) (by omega)
  have hah := @digitChar_ne_colon (h / 10) (by omega)
  have hbh := @digitChar_ne_colon (h % 10) (by omega)
  have hfmt := formatTime_of_parts _ _ _ _ hah hbh hcm hdm
  rw [parseInt_two_digits h hh] at hfmt
  rw [padStart_two_nat h (by omega), padStart_two_nat m (by omega)]
  have hcat : String.mk [Nat.digitChar (h / 10), Nat.digitChar (h % 10)] ++ ":" ++
      String.mk [Nat.digitChar (m / 10), Nat.digitChar (m % 10)] =
      String.mk [Nat.digitChar (h / 10), Nat.digitChar (h % 10), ':',
        Nat.digitChar (m / 10), Nat.digitChar (m % 10)] := rfl
  rw [hcat, hfmt]
  refine ⟨rfl, ?_, ?_, ?_, ?_, ?_, ?_⟩
  · intro h0
    subst h0
    rfl
  · intro h1 h2
    interval_cases h <;> rfl
  · intro h0
    subst h0
    rfl
  · intro h1
    interval_cases h <;> rfl
  · intro h0
    subst h0
    rfl
  · intro h0
    subst h0
    rfl

/-- C7 at 13:05, which is shown as `1:05 PM` -/
theorem formatTime_twelve_hour_witness :
    (13 ≤ 23 ∧ 5 ≤ 59) ∧ formatTime "13:05" = "1:05 PM" :=
  ⟨by decide, (formatTime_twelve_hour 13 5 (by decide) (by decide)).2.2.2.2.1 (by decide)⟩


/-! ## The month grid: properties -/

/-- C1: for every reference date (any year and month) `generateCalendarDays`
returns a sequence of exactly 42 day-cells. -/
theorem grid_has_42_cells (currentDate : JSDate) :
    (generateCalendarDays currentDate).length = 42 :=
  generateCalendarDays_length currentDate

/-- Away from the years 0..99: for every reference date in range whose year is not
in 0..99, with `w` the weekday index of the first day of its month and `n` the
number of days of that month, the grid has 42 cells with valid dates, the cells
flagged `isCurrentMonth` are exactly those at positions `w .. w+n-1`, the cell
at such a position `k` holds day `k - w + 1` of the reference month and year,
and a cell is flagged if and only if its date lies in the reference month and
year. -/
theorem grid_currentMonth_cells (currentDate : JSDate)
    (hyear : ¬ (0 ≤ currentDate.getFullYear ∧ currentDate.getFullYear ≤ 99))
    (hr : gridInRange currentDate) :
    (generateCalendarDays currentDate).length = 42 ∧
    ∀ (k : Nat) (c : DayCell), (generateCalendarDays currentDate)[k]? = some c →
      ∃ d : JSDate, c.date = some d ∧
      (c.isCurrentMonth = true ↔
        firstWeekdayOfMonth currentDate ≤ (k : Int) ∧
        (k : Int) < firstWeekdayOfMonth currentDate +
          daysInMonthOf currentDate.getFullYear currentDate.getMonth) ∧
      (c.isCurrentMonth = true →
        d.getFullYear = currentDate.getFullYear ∧
        d.getMonth = currentDate.getMonth ∧
        d.getDate = (k : Int) - firstWeekdayOfMonth currentDate + 1) ∧
      (c.isCurrentMonth = true ↔
        d.getFullYear = currentDate.getFullYear ∧
        d.getMonth = currentDate.getMonth) := by
  refine ⟨generateCalendarDays_length currentDate, ?_⟩
  intro k c h
  obtain ⟨_, d, hd, _, hflag, hprev, hcur, hnext⟩ := grid_fields currentDate hyear hr k c h
  refine ⟨d, hd, hflag, fun hc => hcur (hflag.1 hc).1 (hflag.1 hc).2, ?_⟩
  constructor
  · intro hc
    exact ⟨(hcur (hflag.1 hc).1 (hflag.1 hc).2).1, (hcur (hflag.1 hc).1 (hflag.1 hc).2).2.1⟩
  · intro hym
    rw [hflag]
    by_contra hnot
    have hpair : (d.getFullYear, d.getMonth) =
        (currentDate.getFullYear, currentDate.getMonth) := by rw [hym.1, hym.2]
    by_cases hlt : (k : Int) < firstWeekdayOfMonth currentDate
    · exact prevMonth_ne _ _ ((hprev hlt).1.symm.trans hpair)
    · have hge : firstWeekdayOfMonth currentDate +
          daysInMonthOf currentDate.getFullYear currentDate.getMonth ≤ (k : Int) := by omega
      exact nextMonth_ne _ _ ((hnext hge).1.symm.trans hpair)

/-- C2, what the code does.  For the reference date 0050-01-15 (time value
-60588086400000) the first day of January 50 is a Saturday (`w = 6`), but the
cell at position 0 is flagged `isCurrentMonth` and holds 1950-01-01, because
the `Date` constructor reads the year argument 50 as 1950: the flagged cells
are not those at positions `w .. w+n-1`, and they hold no day of the reference
year.  For the last reference date that a `Date` can hold, 275760-09-13 (time
value 8640000000000000), the last day of the month is an Invalid Date and no
cell at all is flagged, although September has 30 days. -/
theorem grid_year50_flags :
    (⟨-60588086400000⟩ : JSDate).getFullYear = 50 ∧
    (⟨-60588086400000⟩ : JSDate).getMonth = 0 ∧
    firstWeekdayOfMonth ⟨-60588086400000⟩ = 6 ∧
    (generateCalendarDays ⟨-60588086400000⟩)[0]? = some ⟨some ⟨-631152000000⟩, true⟩ ∧
    (⟨-631152000000⟩ : JSDate).getFullYear = 1950 ∧
    (⟨-631152000000⟩ : JSDate).getMonth = 0 ∧
    (⟨-631152000000⟩ : JSDate).getDate = 1 ∧
    (⟨8640000000000000⟩ : JSDate).getFullYear = 275760 ∧
    (⟨8640000000000000⟩ : JSDate).getMonth = 8 ∧
    daysInMonthOf 275760 8 = 30 ∧
    (generateCalendarDays ⟨8640000000000000⟩).all (fun c => !c.isCurrentMonth) = true := by
  decide

/-- Away from the years 0..99: for every reference date in range whose year is not
in 0..99, with `w` the weekday index of the first day of its month and `n` the
number of days of that month, the cells at positions `k < w` are the last `w`
days of the previous month in ascending order, the cells at positions
`k ≥ w + n` are days 1, 2, ... of the next month, and the cells are consecutive
calendar days: cell `k` is local midnight `k` days after the first cell.
Previous and next month are taken across the year boundary. -/
theorem grid_adjacent_months (currentDate : JSDate)
    (hyear : ¬ (0 ≤ currentDate.getFullYear ∧ currentDate.getFullYear ≤ 99))
    (hr : gridInRange currentDate) :
    ∀ (k : Nat) (c : DayCell), (generateCalendarDays currentDate)[k]? = some c →
      ∃ d : JSDate, c.date = some d ∧
      ((k : Int) < firstWeekdayOfMonth currentDate →
        (d.getFullYear, d.getMonth) =
          prevMonth currentDate.getFullYear currentDate.getMonth ∧
        d.getDate =
          daysInMonthOf (prevMonth currentDate.getFullYear currentDate.getMonth).1
            (prevMonth currentDate.getFullYear currentDate.getMonth).2 -
          firstWeekdayOfMonth currentDate + (k : Int) + 1) ∧
      (firstWeekdayOfMonth currentDate +
          daysInMonthOf currentDate.getFullYear currentDate.getMonth ≤ (k : Int) →
        (d.getFullYear, d.getMonth) =
          nextMonth currentDate.getFullYear currentDate.getMonth ∧
        d.getDate = (k : Int) - (firstWeekdayOfMonth currentDate +
          daysInMonthOf currentDate.getFullYear currentDate.getMonth) + 1) ∧
      (∀ c0 : DayCell, (generateCalendarDays currentDate)[0]? = some c0 →
        ∃ d0 : JSDate, c0.date = some d0 ∧ TimeWithinDay d0.time = 0 ∧
        d.time = d0.time + (k : Int) * msPerDay) := by
  intro k c h
  obtain ⟨_, d, hd, ht, _, hprev, _, hnext⟩ := grid_fields currentDate hyear hr k c h
  refine ⟨d, hd, hprev, hnext, ?_⟩
  intro c0 h0
  obtain ⟨_, d0, hd0, ht0, _⟩ := grid_fields currentDate hyear hr 0 c0 h0
  refine ⟨d0, hd0, ?_⟩
  rw [ht, ht0]
  unfold TimeWithinDay msPerDay
  constructor
  · omega
  · push_cast
    ring

/-- C3, what the code does.  For the reference date 0050-01-15 (time value
-60588086400000) January 50 starts on a Saturday and has 31 days, so the first
six cells should be the last days of December 49 and the last cell (position
41) a day of February 50; but the first cell holds 1950-01-01 and the last
1950-02-11, because the `Date` constructor reads the year argument 50 as 1950.
For the last reference date that a `Date` can hold (time value
8640000000000000), the cells at positions 1 and 41 hold an Invalid Date and no
day of the next month. -/
theorem grid_year50_next_month :
    (⟨-60588086400000⟩ : JSDate).getFullYear = 50 ∧
    firstWeekdayOfMonth ⟨-60588086400000⟩ = 6 ∧
    daysInMonthOf 50 0 = 31 ∧
    prevMonth 50 0 = (49, 11) ∧ nextMonth 50 0 = (50, 1) ∧
    (generateCalendarDays ⟨-60588086400000⟩)[0]? = some ⟨some ⟨-631152000000⟩, true⟩ ∧
    (⟨-631152000000⟩ : JSDate).getFullYear = 1950 ∧
    (generateCalendarDays ⟨-60588086400000⟩)[41]? = some ⟨some ⟨-627609600000⟩, false⟩ ∧
    (⟨-627609600000⟩ : JSDate).getFullYear = 1950 ∧
    (⟨-627609600000⟩ : JSDate).getMonth = 1 ∧
    (⟨-627609600000⟩ : JSDate).getDate = 11 ∧
    (generateCalendarDays ⟨8640000000000000⟩)[1]? = some ⟨none, false⟩ ∧
    (generateCalendarDays ⟨8640000000000000⟩)[41]? = some ⟨none, false⟩ := by
  decide

/-! ## The week window -/

theorem TimeWithinDay_range (t : Int) : 0 ≤ TimeWithinDay t ∧ TimeWithinDay t < msPerDay := by
  unfold TimeWithinDay msPerDay
  omega

theorem weekStart_time (cd : JSDate) :
    (weekStart cd).time = (Day cd.time - WeekDay cd.time) * msPerDay := by
  have hr := TimeWithinDay_range cd.time
  simp only [weekStart, JSDate.setHours, JSDate.setDate, JSDate.getDate, JSDate.getDay]
  rw [MakeDay_fields, (Day_MakeDate _ _ hr.1 hr.2).1]
  simp only [MakeDate, MakeTime, msPerDay]
  omega

theorem weekEnd_time (cd : JSDate) :
    (weekEnd cd).time = (Day cd.time - WeekDay cd.time + 6) * msPerDay + 86399999 := by
  have hr := TimeWithinDay_range (weekStart cd).time
  have hs := weekStart_time cd
  simp only [weekEnd, JSDate.setHours, JSDate.setDate, JSDate.getDate]
  rw [MakeDay_fields, (Day_MakeDate _ _ hr.1 hr.2).1, hs, Day_midnight]
  simp only [MakeDate, MakeTime, msPerDay]
  omega

/-- C5: for every anchor date the week window starts at 00:00:00.000 of the
Sunday on or before the anchor (the day `anchor.weekday` days before it) and
ends at 23:59:59.999 of the Saturday six days after that Sunday; day numbers
are absolute, so month and year boundaries play no role.  For a Wednesday
anchor the window runs from three days before to three days after it. -/
theorem week_window (currentDate : JSDate) :
    TimeWithinDay (weekStart currentDate).time = 0 ∧
    (weekStart currentDate).getDay = 0 ∧
    Day (weekStart currentDate).time = Day currentDate.time - currentDate.getDay ∧
    Day (weekStart currentDate).time ≤ Day currentDate.time ∧
    Day currentDate.time - 6 ≤ Day (weekStart currentDate).time ∧
    TimeWithinDay (weekEnd currentDate).time = MakeTime 23 59 59 999 ∧
    (weekEnd currentDate).getDay = 6 ∧
    Day (weekEnd currentDate).time = Day (weekStart currentDate).time + 6 ∧
    (weekStart currentDate).time ≤ currentDate.time ∧
    currentDate.time ≤ (weekEnd currentDate).time ∧
    (currentDate.getDay = 3 →
      Day (weekStart currentDate).time = Day currentDate.time - 3 ∧
      Day (weekEnd currentDate).time = Day currentDate.time + 3) := by
  have hs := weekStart_time currentDate
  have he := weekEnd_time currentDate
  have hw := WeekDay_range currentDate.time
  simp only [JSDate.getDay]
  have hds : Day (weekStart currentDate).time = Day currentDate.time - WeekDay currentDate.time := by
    rw [hs, Day_midnight]
  have hde : Day (weekEnd currentDate).time =
      Day currentDate.time - WeekDay currentDate.time + 6 := by
    rw [he]
    exact (Day_MakeDate _ 86399999 (by norm_num) (by norm_num [msPerDay])).1
  have hts : TimeWithinDay (weekStart currentDate).time = 0 := by
    rw [hs]
    unfold TimeWithinDay msPerDay
    omega
  have hte : TimeWithinDay (weekEnd currentDate).time = MakeTime 23 59 59 999 := by
    rw [he]
    exact (Day_MakeDate _ 86399999 (by norm_num) (by norm_num [msPerDay])).2
  have hws : WeekDay (weekStart currentDate).time = 0 := by
    unfold WeekDay at *
    rw [hds]
    omega
  have hwe : WeekDay (weekEnd currentDate).time = 6 := by
    unfold WeekDay at *
    rw [hde]
    omega
  refine ⟨hts, hws, hds, by omega, by omega, hte, hwe, by omega, ?_, ?_, ?_⟩
  · rw [hs]
    unfold Day WeekDay msPerDay at *
    omega
  · rw [he]
    unfold Day WeekDay msPerDay at *
    omega
  · intro h3
    omega


/-! ## The day and week lists -/

theorem fields_of_Day_eq (a b : Int) (h : Day a = Day b) :
    YearFromTime a = YearFromTime b ∧ MonthFromTime a = MonthFromTime b ∧
    DateFromTime a = DateFromTime b := by
  refine ⟨?_, ?_, ?_⟩ <;>
    simp only [YearFromTime, MonthFromTime, DateFromTime, DayWithinYear, InLeapYear, h]

theorem getDateWithoutTime_key (d : JSDate) :
    getDateString (.date (some (getDateWithoutTime d))) = getDateString (.date (some d)) := by
  have h : Day (getDateWithoutTime d).time = Day d.time := by
    simp only [getDateWithoutTime, JSDate.setHours, MakeDate, MakeTime]
    norm_num
    exact Day_midnight _
  obtain ⟨h1, h2, h3⟩ := fields_of_Day_eq _ _ h
  exact getDateString_eq_of_fields _ _ h1 h2 h3

/-- The date key of an event's date equals the key of a valid date exactly
when the event's date is valid and falls on the same calendar day -/
theorem key_eq_iff (x : Option JSDate) (b : JSDate) :
    (getDateString (.date x) == getDateString (.date (some b))) = true ↔
      ∃ d, x = some d ∧ d.getFullYear = b.getFullYear ∧ d.getMonth = b.getMonth ∧
        d.getDate = b.getDate := by
  rw [beq_iff_eq]
  cases x with
  | none =>
    constructor
    · intro h
      exact absurd h (getDateString_invalid_ne b)
    · rintro ⟨d, hd, _⟩
      exact absurd hd (by simp)
  | some a =>
    constructor
    · intro h
      exact ⟨a, rfl, fields_of_getDateString_eq a b h⟩
    · rintro ⟨d, hd, h⟩
      cases hd
      exact getDateString_eq_of_fields a b h.1 h.2.1 h.2.2


theorem dateGE_iff (x : Option JSDate) (b : JSDate) :
    dateGE x b = true ↔ ∃ d, x = some d ∧ b.time ≤ d.time := by
  cases x with
  | none => simp [dateGE]
  | some a => simp [dateGE]

theorem dateLE_iff (x : Option JSDate) (b : JSDate) :
    dateLE x b = true ↔ ∃ d, x = some d ∧ d.time ≤ b.time := by
  cases x with
  | none => simp [dateLE]
  | some a => simp [dateLE]

theorem listFilter_day_iff (currentDate : JSDate) (e : Event) :
    listFilter .day currentDate e = true ↔
      ∃ d, eventDate e = some d ∧ d.getFullYear = currentDate.getFullYear ∧
        d.getMonth = currentDate.getMonth ∧ d.getDate = currentDate.getDate := by
  simp only [listFilter, if_true]
  exact key_eq_iff _ _

theorem listFilter_week_iff (currentDate : JSDate) (e : Event) :
    listFilter .week currentDate e = true ↔
      ∃ d, eventDate e = some d ∧ (weekStart currentDate).time ≤ d.time ∧
        d.time ≤ (weekEnd currentDate).time := by
  have hne : ¬ (ViewMode.week = ViewMode.day) := by decide
  simp only [listFilter, if_neg hne, Bool.and_eq_true, dateGE_iff, dateLE_iff]
  constructor
  · rintro ⟨⟨d, hd, h1⟩, ⟨d', hd', h2⟩⟩
    rw [hd] at hd'
    cases hd'
    exact ⟨d, hd, h1, h2⟩
  · rintro ⟨d, hd, h1, h2⟩
    exact ⟨⟨d, hd, h1⟩, ⟨d, hd, h2⟩⟩

theorem mem_listedEvents (viewMode : ViewMode) (currentDate : JSDate) (events : List Event)
    (e : Event) :
    e ∈ listedEvents viewMode currentDate events ↔
      e ∈ events ∧ listFilter viewMode currentDate e = true := by
  unfold listedEvents
  rw [List.mem_insertionSort, List.mem_filter]

theorem eventDate_of_truthy (e : Event) (h : truthy e.datetime = true) :
    eventDate e = dateOfField e.datetime := by
  simp [eventDate, orField, h]

theorem eventDate_of_falsy (e : Event) (h : truthy e.datetime = false) :
    eventDate e = dateOfField e.createdAt := by
  simp [eventDate, orField, h]

/-- The month-grid lookup is the day filter, restricted to the events that
have a truthy `datetime` or a truthy `createdAt` -/
theorem getEventsForDate_eq (events : List Event) (date : JSDate) :
    getEventsForDate events date = events.filter (fun e =>
      (truthy e.datetime || truthy e.createdAt) && listFilter .day date e) := by
  unfold getEventsForDate
  simp only [getDateWithoutTime_key]
  apply List.filter_congr
  intro e _
  simp only [listFilter, if_true]
  cases h1 : truthy e.datetime with
  | true => simp [eventDate_of_truthy e h1]
  | false =>
    cases h2 : truthy e.createdAt with
    | true => simp [eventDate_of_falsy e h1]
    | false => simp

theorem mem_getEventsForDate (events : List Event) (date : JSDate) (e : Event) :
    e ∈ getEventsForDate events date ↔
      e ∈ events ∧ (truthy e.datetime = true ∨ truthy e.createdAt = true) ∧
        ∃ d, eventDate e = some d ∧ d.getFullYear = date.getFullYear ∧
          d.getMonth = date.getMonth ∧ d.getDate = date.getDate := by
  rw [getEventsForDate_eq, List.mem_filter, Bool.and_eq_true, Bool.or_eq_true,
    listFilter_day_iff]

/-- C4: for every event list and every anchor date, an event is listed in Day
view if and only if it is in the collection and the local calendar date (year,
month, day) of its start instant, the date that `new Date(datetime ||
createdAt)` gives, equals the anchor's calendar date, whatever the time of day
of either.  The month-grid lookup `getEventsForDate` selects by the same rule
among the events that have a truthy `datetime` or `createdAt`.  An event
starting 2024-03-06T09:00 is listed for the anchor 2024-03-06 (at 00:00 or at
23:59:59.999) and not for the anchor 2024-03-07. -/
theorem day_view_listing (events : List Event) (currentDate : JSDate) (e : Event) :
    (e ∈ listedEvents .day currentDate events ↔
      e ∈ events ∧ ∃ d, eventDate e = some d ∧ d.getFullYear = currentDate.getFullYear ∧
        d.getMonth = currentDate.getMonth ∧ d.getDate = currentDate.getDate) ∧
    (e ∈ getEventsForDate events currentDate ↔
      e ∈ events ∧ (truthy e.datetime = true ∨ truthy e.createdAt = true) ∧
        ∃ d, eventDate e = some d ∧ d.getFullYear = currentDate.getFullYear ∧
          d.getMonth = currentDate.getMonth ∧ d.getDate = currentDate.getDate) ∧
    listedEvents .day ⟨1709683200000⟩ [{ datetime := some (.time 1709715600000) }] =
      [{ datetime := some (.time 1709715600000) }] ∧
    listedEvents .day ⟨1709769599999⟩ [{ datetime := some (.time 1709715600000) }] =
      [{ datetime := some (.time 1709715600000) }] ∧
    listedEvents .day ⟨1709769600000⟩ [{ datetime := some (.time 1709715600000) }] = [] := by
  refine ⟨?_, mem_getEventsForDate events currentDate e, by decide, by decide, by decide⟩
  rw [mem_listedEvents, listFilter_day_iff]

/-- C6: for every event list and anchor date, an event is listed in Week view
if and only if it is in the collection and its start instant lies in the
closed interval from `weekStart` to `weekEnd` of the anchor's week.  An event
starting exactly at `weekStart` or at `weekEnd` is listed, one starting a
millisecond before `weekStart` or after `weekEnd` is not.  With the anchor
2024-03-06, events at 2024-03-03T10:00 and 2024-03-09T23:00 are listed and one
at 2024-03-10T00:01 is not. -/
theorem week_view_listing (events : List Event) (currentDate : JSDate) (e : Event) :
    (e ∈ listedEvents .week currentDate events ↔
      e ∈ events ∧ ∃ d, eventDate e = some d ∧ (weekStart currentDate).time ≤ d.time ∧
        d.time ≤ (weekEnd currentDate).time) ∧
    (e ∈ events → eventDate e = some (weekStart currentDate) →
      e ∈ listedEvents .week currentDate events) ∧
    (e ∈ events → eventDate e = some (weekEnd currentDate) →
      e ∈ listedEvents .week currentDate events) ∧
    (eventDate e = some ⟨(weekStart currentDate).time - 1⟩ →
      e ∉ listedEvents .week currentDate events) ∧
    (eventDate e = some ⟨(weekEnd currentDate).time + 1⟩ →
      e ∉ listedEvents .week currentDate events) ∧
    listedEvents .week ⟨1709683200000⟩
      [{ datetime := some (.time 1709460000000) }, { datetime := some (.time 1710025200000) },
        { datetime := some (.time 1710028860000) }] =
      [{ datetime := some (.time 1709460000000) }, { datetime := some (.time 1710025200000) }] := by
  have hiff : e ∈ listedEvents .week currentDate events ↔
      e ∈ events ∧ ∃ d, eventDate e = some d ∧ (weekStart currentDate).time ≤ d.time ∧
        d.time ≤ (weekEnd currentDate).time := by
    rw [mem_listedEvents, listFilter_week_iff]
  have hord : (weekStart currentDate).time ≤ (weekEnd currentDate).time := by
    rw [weekStart_time, weekEnd_time]
    unfold msPerDay
    omega
  refine ⟨hiff, ?_, ?_, ?_, ?_, by decide⟩
  · intro hmem hd
    exact hiff.2 ⟨hmem, _, hd, le_refl _, hord⟩
  · intro hmem hd
    exact hiff.2 ⟨hmem, _, hd, hord, le_refl _⟩
  · intro hd hin
    obtain ⟨_, d, hd', h1, _⟩ := hiff.1 hin
    rw [hd] at hd'
    cases hd'
    simp only at h1
    omega
  · intro hd hin
    obtain ⟨_, d, hd', _, h2⟩ := hiff.1 hin
    rw [hd] at hd'
    cases hd'
    simp only at h2
    omega

/-- C10: for every event that has no start (`datetime` missing, empty or
null) but has a `createdAt`, every placement decision gives the same result as
for the same event with its start set to its `createdAt`: replacing the event
by that one in any collection commutes with `getEventsForDate`, with the Day
and the Week filter, and with the ordering of the list.  When the `createdAt`
denotes the instant `t`, the event is placed by `t`: the date used is `t`, the
month-grid lookup and the Day list hold the event exactly for the anchors on
the calendar day of `t`, the Week list exactly for the anchors whose week
contains `t`, and the comparator of the ordering uses `t`. -/
theorem createdAt_fallback (e : Event) (c : Stamp) (hstart : truthy e.datetime = false)
    (hcreated : e.createdAt = some c) (events : List Event) (currentDate : JSDate)
    (viewMode : ViewMode) :
    eventDate { e with datetime := some c } = eventDate e ∧
    getEventsForDate (events.map fun x => if x = e then { e with datetime := some c } else x)
        currentDate =
      (getEventsForDate events currentDate).map
        (fun x => if x = e then { e with datetime := some c } else x) ∧
    (events.map fun x => if x = e then { e with datetime := some c } else x).filter
        (listFilter viewMode currentDate) =
      (events.filter (listFilter viewMode currentDate)).map
        (fun x => if x = e then { e with datetime := some c } else x) ∧
    listedEvents viewMode currentDate
        (events.map fun x => if x = e then { e with datetime := some c } else x) =
      (listedEvents viewMode currentDate events).map
        (fun x => if x = e then { e with datetime := some c } else x) ∧
    (∀ t : Int, c = .time t →
      eventDate e = some ⟨t⟩ ∧
      (e ∈ getEventsForDate events currentDate ↔
        e ∈ events ∧ YearFromTime t = currentDate.getFullYear ∧
          MonthFromTime t = currentDate.getMonth ∧ DateFromTime t = currentDate.getDate) ∧
      (e ∈ listedEvents .day currentDate events ↔
        e ∈ events ∧ YearFromTime t = currentDate.getFullYear ∧
          MonthFromTime t = currentDate.getMonth ∧ DateFromTime t = currentDate.getDate) ∧
      (e ∈ listedEvents .week currentDate events ↔
        e ∈ events ∧ (weekStart currentDate).time ≤ t ∧ t ≤ (weekEnd currentDate).time) ∧
      (∀ (x : Event) (d : JSDate), eventDate x = some d →
        compareStart e x = some (t - d.time) ∧ compareStart x e = some (d.time - t))) := by
  have hdate : eventDate { e with datetime := some c } = eventDate e := by
    rw [eventDate_of_falsy e hstart, hcreated]
    cases c <;> simp [eventDate, orField, truthy, hcreated]
  have hdate1 : ∀ x, eventDate (if x = e then { e with datetime := some c } else x) =
      eventDate x := by
    intro x
    by_cases hx : x = e
    · rw [if_pos hx, hx]
      exact hdate
    · rw [if_neg hx]
  have hfilter : ∀ x, listFilter viewMode currentDate
      (if x = e then { e with datetime := some c } else x) = listFilter viewMode currentDate x := by
    intro x
    simp only [listFilter, hdate1]
  have hfilterDay : ∀ x, listFilter .day currentDate
      (if x = e then { e with datetime := some c } else x) = listFilter .day currentDate x := by
    intro x
    simp only [listFilter, hdate1]
  have hle : ∀ x y, startLE (if x = e then { e with datetime := some c } else x)
      (if y = e then { e with datetime := some c } else y) ↔ startLE x y := by
    intro x y
    simp only [startLE, compareStart, hdate1]
  have htruthy : ∀ x, (truthy (if x = e then { e with datetime := some c } else x).datetime ||
      truthy (if x = e then { e with datetime := some c } else x).createdAt) =
      (truthy x.datetime || truthy x.createdAt) := by
    intro x
    by_cases hx : x = e
    · rw [if_pos hx, hx]
      simp only [hcreated, hstart, Bool.false_or, Bool.or_self]
    · rw [if_neg hx]
  refine ⟨hdate, ?_, ?_, ?_, ?_⟩
  · rw [getEventsForDate_eq, getEventsForDate_eq, List.filter_map]
    congr 1
    apply List.filter_congr
    intro x _
    simp only [Function.comp, htruthy, hfilterDay]
  · rw [List.filter_map]
    congr 1
    apply List.filter_congr
    intro x _
    exact hfilter x
  · unfold listedEvents
    rw [List.filter_map]
    have hf : List.filter (listFilter viewMode currentDate ∘
        fun x => if x = e then { e with datetime := some c } else x) events =
        List.filter (listFilter viewMode currentDate) events := by
      apply List.filter_congr
      intro x _
      exact hfilter x
    rw [hf]
    exact (List.map_insertionSort startLE startLE _ _ (fun a _ b _ => (hle a b).symm)).symm
  · intro t ht
    subst ht
    have hed : eventDate e = some ⟨t⟩ := by
      rw [eventDate_of_falsy e hstart, hcreated]
      rfl
    have hfields : (∃ d : JSDate, eventDate e = some d ∧
        d.getFullYear = currentDate.getFullYear ∧ d.getMonth = currentDate.getMonth ∧
        d.getDate = currentDate.getDate) ↔
        (YearFromTime t = currentDate.getFullYear ∧ MonthFromTime t = currentDate.getMonth ∧
          DateFromTime t = currentDate.getDate) := by
      rw [hed]
      constructor
      · rintro ⟨d, hd, h⟩
        cases hd
        exact h
      · intro h
        exact ⟨⟨t⟩, rfl, h⟩
    refine ⟨hed, ?_, ?_, ?_, ?_⟩
    · rw [mem_getEventsForDate, hfields]
      constructor
      · rintro ⟨h1, _, h2⟩
        exact ⟨h1, h2⟩
      · rintro ⟨h1, h2⟩
        exact ⟨h1, Or.inr (by rw [hcreated]; rfl), h2⟩
    · rw [mem_listedEvents, listFilter_day_iff, hfields]
    · rw [mem_listedEvents, listFilter_week_iff, hed]
      constructor
      · rintro ⟨h1, d, hd, h2⟩
        cases hd
        exact ⟨h1, h2⟩
      · rintro ⟨h1, h2⟩
        exact ⟨h1, ⟨t⟩, rfl, h2⟩
    · intro x d hx
      simp [compareStart, hed, hx]

/-- C10 on an event created on 2024-03-06 at 09:00 that has no start: it is
found by the month-grid lookup for the anchor 2024-03-06 -/
theorem createdAt_fallback_witness :
    (truthy ({ createdAt := some (.time 1709715600000) } : Event).datetime = false ∧
      ({ createdAt := some (.time 1709715600000) } : Event).createdAt =
        some (.time 1709715600000)) ∧
    ({ createdAt := some (.time 1709715600000) } : Event) ∈
      getEventsForDate [{ createdAt := some (.time 1709715600000) }] ⟨1709683200000⟩ :=
  ⟨⟨rfl, rfl⟩, (((createdAt_fallback { createdAt := some (.time 1709715600000) }
    (.time 1709715600000) rfl rfl [{ createdAt := some (.time 1709715600000) }]
    ⟨1709683200000⟩ .day).2.2.2.2 1709715600000 rfl).2.1).2
    ⟨List.mem_singleton.2 rfl, by decide⟩⟩


/-! ## The event collection: lemmas -/

theorem saveEffect_eq (s : CalendarState) :
    saveEffect s = { s with cache := some (.json s.events) } := by
  unfold saveEffect
  rw [if_pos (by omega)]

theorem setEvents_eq (s : CalendarState) (events : List Event) :
    setEvents s events = { s with events := events, cache := some (.json events) } := by
  unfold setEvents
  rw [saveEffect_eq]

theorem mirror_events (b : Bool) (s : CalendarState) (remote : FetchOutcome) :
    (mirror b s remote).events = s.events ∧ (mirror b s remote).cache = s.cache := by
  unfold mirror
  cases b <;> cases remote <;> simp

theorem toISOString_time (t : Int) :
    toISOString (dateOfField (some (.time t))) = .ok (.time t) := rfl

theorem toISOString_garbled :
    toISOString (dateOfField (some .garbled)) = .error .rangeError := rfl

/-- The record that `updateEvent` puts in the place of a matching event -/
theorem mapEvents_pure (g : Event → Event) (events : List Event) :
    mapEvents (fun event => pure (g event)) events = .ok (events.map g) := by
  induction events with
  | nil => rfl
  | cons e es ih =>
    simp only [mapEvents, List.map_cons]
    rw [ih]
    rfl

theorem mapEvents_congr (f g : Event → Except JSError Event) (events : List Event)
    (h : ∀ e ∈ events, f e = g e) : mapEvents f events = mapEvents g events := by
  induction events with
  | nil => rfl
  | cons e es ih =>
    simp only [mapEvents]
    rw [h e (List.mem_cons_self _ _), ih (fun x hx => h x (List.mem_cons_of_mem _ hx))]


theorem createEvent_blank (s : CalendarState) (newEvent : EventForm) (clock : Int)
    (rand : String) (now : JSDate) (remote : FetchOutcome) (h : isBlank newEvent.title = true) :
    createEvent s newEvent clock rand now remote = ⟨s, none⟩ := by
  unfold createEvent
  rw [if_pos h]

theorem createEvent_valid (s : CalendarState) (newEvent : EventForm) (clock : Int)
    (rand : String) (now : JSDate) (remote : FetchOutcome) (ts te : Int)
    (htitle : isBlank newEvent.title = false) (hstart : newEvent.startStamp = .time ts)
    (hend : newEvent.endStamp = .time te) :
    createEvent s newEvent clock rand now remote =
      ⟨mirror s.apiOnline (setEvents s (s.events ++
        [eventDataOf (newEventId clock rand) newEvent newEvent.startStamp newEvent.endStamp
          (.time now.time)])) remote, none⟩ := by
  unfold createEvent
  rw [if_neg (by simp [htitle]), hstart, hend]
  rfl

theorem createEvent_garbled (s : CalendarState) (newEvent : EventForm) (clock : Int)
    (rand : String) (now : JSDate) (remote : FetchOutcome)
    (htitle : isBlank newEvent.title = false)
    (hbad : newEvent.startStamp = .garbled ∨ newEvent.endStamp = .garbled) :
    createEvent s newEvent clock rand now remote = ⟨s, some .rangeError⟩ := by
  unfold createEvent
  rw [if_neg (by simp [htitle])]
  rcases hbad with h | h
  · rw [h]
    rfl
  · rw [h]
    cases newEvent.startStamp <;> rfl

/-- A form whose date-times `new Date` reads as valid dates -/
theorem updateEvent_dates (s : CalendarState) (id : Option String) (editEvent : EventForm)
    (remote : FetchOutcome) (ds de : JSDate)
    (hstart : dateOfField (some editEvent.startStamp) = some ds)
    (hend : dateOfField (some editEvent.endStamp) = some de) :
    updateEvent s id editEvent remote =
      ⟨mirror s.apiOnline (setEvents s (s.events.map fun event =>
        if event._id = id then
          updatedEventOf event editEvent (.time ds.time) (.time de.time)
        else event)) remote, none⟩ := by
  unfold updateEvent
  simp only [hstart, hend]
  rw [mapEvents_congr _ (fun event => pure (if event._id = id then
          updatedEventOf event editEvent (.time ds.time) (.time de.time)
        else event)) s.events, mapEvents_pure]
  intro e _
  by_cases h : e._id = id
  · simp only [if_pos h]
    rfl
  · simp only [if_neg h]

theorem updateEvent_valid (s : CalendarState) (id : Option String) (editEvent : EventForm)
    (remote : FetchOutcome) (ts te : Int) (hstart : editEvent.startStamp = .time ts)
    (hend : editEvent.endStamp = .time te) :
    updateEvent s id editEvent remote =
      ⟨mirror s.apiOnline (setEvents s (s.events.map fun event =>
        if event._id = id then
          updatedEventOf event editEvent editEvent.startStamp editEvent.endStamp
        else event)) remote, none⟩ := by
  unfold updateEvent
  simp only [hstart, hend]
  rw [mapEvents_congr _ (fun event => pure (if event._id = id then
          updatedEventOf event editEvent (.time ts) (.time te)
        else event)) s.events, mapEvents_pure]
  intro e _
  by_cases h : e._id = id
  · simp only [if_pos h]
    rfl
  · simp only [if_neg h]

theorem updateEvent_absent (s : CalendarState) (id : Option String) (editEvent : EventForm)
    (remote : FetchOutcome) (habsent : ∀ e ∈ s.events, e._id ≠ id) :
    updateEvent s id editEvent remote = ⟨mirror s.apiOnline (setEvents s s.events) remote, none⟩ := by
  unfold updateEvent
  simp only
  rw [mapEvents_congr _ (fun event => pure ((fun x => x) event)) s.events, mapEvents_pure,
    List.map_id']
  intro e he
  simp only [if_neg (habsent e he)]

theorem mapEvents_error (f : Event → Except JSError Event) (id : Option String)
    (err : JSError) (hmatch : ∀ e : Event, e._id = id → f e = .error err)
    (hother : ∀ e : Event, e._id ≠ id → f e = .ok e) (events : List Event)
    (hex : ∃ e ∈ events, e._id = id) : mapEvents f events = .error err := by
  induction events with
  | nil =>
    obtain ⟨e, he, _⟩ := hex
    exact absurd he (List.not_mem_nil _)
  | cons x xs ih =>
    by_cases hx : x._id = id
    · simp only [mapEvents, hmatch x hx]
    · have hrest : ∃ e ∈ xs, e._id = id := by
        obtain ⟨e, he, heid⟩ := hex
        rcases List.mem_cons.1 he with h | h
        · exact absurd (h ▸ heid) hx
        · exact ⟨e, h, heid⟩
      simp only [mapEvents, hother x hx, ih hrest]

theorem updateEvent_garbled (s : CalendarState) (id : Option String) (editEvent : EventForm)
    (remote : FetchOutcome)
    (hbad : editEvent.startStamp = .garbled ∨ editEvent.endStamp = .garbled)
    (hex : ∃ e ∈ s.events, e._id = id) :
    updateEvent s id editEvent remote = ⟨s, some .rangeError⟩ := by
  unfold updateEvent
  simp only
  rw [mapEvents_error _ id .rangeError _ _ s.events hex]
  · intro e he
    rw [if_pos he]
    rcases hbad with h | h
    · rw [h]
      rfl
    · rw [h]
      cases editEvent.startStamp <;> rfl
  · intro e he
    rw [if_neg he]
    rfl

/-- What `new Date` makes of a stamp of a form: a valid date, or an Invalid
Date for a text that does not parse -/
theorem dateOfField_cases (x : Stamp) :
    x = .garbled ∨ ∃ d : JSDate, dateOfField (some x) = some d := by
  cases x with
  | time t => exact Or.inr ⟨_, rfl⟩
  | garbled => exact Or.inl rfl
  | null => exact Or.inr ⟨_, rfl⟩

theorem deleteEvent_confirmed (s : CalendarState) (id : Option String)
    (remote : FetchOutcome) :
    deleteEvent s id true remote =
      ⟨mirror s.apiOnline (setEvents s (s.events.filter fun event => decide (event._id ≠ id)))
        remote, none⟩ := rfl

theorem deleteEvent_declined (s : CalendarState) (id : Option String)
    (remote : FetchOutcome) : deleteEvent s id false remote = ⟨s, none⟩ := rfl


theorem updateEvent_cases (s : CalendarState) (id : Option String) (editEvent : EventForm)
    (remote : FetchOutcome) :
    updateEvent s id editEvent remote = ⟨s, some .rangeError⟩ ∨
    ∃ ds de : Stamp, updateEvent s id editEvent remote =
      ⟨mirror s.apiOnline (setEvents s (s.events.map fun event =>
        if event._id = id then updatedEventOf event editEvent ds de else event)) remote,
        none⟩ := by
  by_cases hex : ∃ e ∈ s.events, e._id = id
  · rcases dateOfField_cases editEvent.startStamp with hs | ⟨ds, hs⟩
    · exact Or.inl (updateEvent_garbled s id editEvent remote (Or.inl hs) hex)
    · rcases dateOfField_cases editEvent.endStamp with he | ⟨de, he⟩
      · exact Or.inl (updateEvent_garbled s id editEvent remote (Or.inr he) hex)
      · exact Or.inr ⟨_, _, updateEvent_dates s id editEvent remote ds de hs he⟩
  · right
    have habs : ∀ e ∈ s.events, e._id ≠ id := fun e he h => hex ⟨e, he, h⟩
    refine ⟨editEvent.startStamp, editEvent.endStamp, ?_⟩
    rw [updateEvent_absent s id editEvent remote habs]
    have hmap : (s.events.map fun event =>
        if event._id = id then
          updatedEventOf event editEvent editEvent.startStamp editEvent.endStamp
        else event) = s.events := by
      conv_rhs => rw [← List.map_id' s.events]
      apply List.map_congr_left
      intro e he
      rw [if_neg (habs e he)]
    rw [hmap]

/-- Whatever the form holds, `updateEvent` either raises a RangeError and
leaves the state as it was, or returns with a collection that has the same ids
at the same places -/
theorem updateEvent_ids (s : CalendarState) (id : Option String) (editEvent : EventForm)
    (remote : FetchOutcome) :
    (updateEvent s id editEvent remote = ⟨s, some .rangeError⟩) ∨
    ((updateEvent s id editEvent remote).raised = none ∧
      (updateEvent s id editEvent remote).state.events.map (·._id) = s.events.map (·._id)) := by
  rcases updateEvent_cases s id editEvent remote with h | ⟨ds, de, h⟩
  · exact Or.inl h
  · right
    rw [h, setEvents_eq]
    refine ⟨rfl, ?_⟩
    rw [(mirror_events _ _ _).1]
    simp only [List.map_map]
    apply List.map_congr_left
    intro e _
    by_cases h : e._id = id
    · simp [Function.comp, h, updatedEventOf]
    · simp [Function.comp, h]

theorem createEvent_cases (s : CalendarState) (newEvent : EventForm) (clock : Int)
    (rand : String) (now : JSDate) (remote : FetchOutcome) :
    createEvent s newEvent clock rand now remote = ⟨s, none⟩ ∨
    createEvent s newEvent clock rand now remote = ⟨s, some .rangeError⟩ ∨
    (isBlank newEvent.title = false ∧
      ∃ ds de : Stamp, createEvent s newEvent clock rand now remote =
        ⟨mirror s.apiOnline (setEvents s (s.events ++
          [eventDataOf (newEventId clock rand) newEvent ds de (.time now.time)])) remote,
          none⟩) := by
  cases hb : isBlank newEvent.title with
  | true => exact Or.inl (createEvent_blank s newEvent clock rand now remote hb)
  | false =>
    right
    unfold createEvent
    rw [if_neg (by simp [hb])]
    cases newEvent.startStamp <;> cases newEvent.endStamp <;>
      first
      | exact Or.inl rfl
      | exact Or.inr ⟨rfl, _, _, rfl⟩

theorem filter_absent (events : List Event) (id : Option String)
    (habsent : ∀ e ∈ events, e._id ≠ id) :
    events.filter (fun event => decide (event._id ≠ id)) = events := by
  rw [List.filter_eq_self]
  intro e he
  exact decide_eq_true (habsent e he)

/-! ## The event collection: create, update and delete -/

/-- C11 (as amended): for every collection and every draft whose title is
non-empty after trimming and whose date and times denote instants, create
returns normally with a collection that is the previous collection, unchanged
and in the same order, followed by exactly one new event; title, description,
start, end, location and type of the new event are those of the draft, its id
is the identifier built from the clock reading and the random text, and its
createdAt is the current instant; the local cache then holds this full
collection. -/
theorem create_appends_event (s : CalendarState) (newEvent : EventForm) (clock : Int)
    (rand : String) (now : JSDate) (remote : FetchOutcome) (ts te : Int)
    (htitle : isBlank newEvent.title = false) (hstart : newEvent.startStamp = .time ts)
    (hend : newEvent.endStamp = .time te) :
    (createEvent s newEvent clock rand now remote).raised = none ∧
    (∃ created : Event,
      (createEvent s newEvent clock rand now remote).state.events = s.events ++ [created] ∧
      created.title = some newEvent.title ∧
      created.description = some newEvent.description ∧
      created.datetime = some newEvent.startStamp ∧
      created.endDatetime = some newEvent.endStamp ∧
      created.location = some newEvent.location ∧
      created.type = some newEvent.type ∧
      created._id = some (newEventId clock rand) ∧
      created.createdAt = some (.time now.time)) ∧
    (createEvent s newEvent clock rand now remote).state.cache =
      some (.json (createEvent s newEvent clock rand now remote).state.events) := by
  rw [createEvent_valid s newEvent clock rand now remote ts te htitle hstart hend, setEvents_eq]
  refine ⟨rfl, ⟨_, (mirror_events _ _ _).1, rfl, rfl, rfl, rfl, rfl, rfl, rfl, rfl⟩, ?_⟩
  rw [(mirror_events _ _ _).1, (mirror_events _ _ _).2]

/-- The amended C11 for the draft `Standup`, 2024-03-06 09:00 to 09:30, created
while offline in an empty collection -/
theorem create_appends_event_witness :
    (isBlank "Standup" = false ∧ Stamp.time 1709715600000 = .time 1709715600000 ∧
      Stamp.time 1709717400000 = .time 1709717400000) ∧
    (createEvent ⟨[], false, false, "", some (.json [])⟩
      ⟨"Standup", "", .time 1709715600000, .time 1709717400000, "", "meeting"⟩
      1709700000000 "k3j2h1g0f" ⟨1709700000000⟩ .networkError).state.cache =
      some (.json (createEvent ⟨[], false, false, "", some (.json [])⟩
        ⟨"Standup", "", .time 1709715600000, .time 1709717400000, "", "meeting"⟩
        1709700000000 "k3j2h1g0f" ⟨1709700000000⟩ .networkError).state.events) :=
  ⟨by decide, (create_appends_event ⟨[], false, false, "", some (.json [])⟩
    ⟨"Standup", "", .time 1709715600000, .time 1709717400000, "", "meeting"⟩
    1709700000000 "k3j2h1g0f" ⟨1709700000000⟩ .networkError 1709715600000 1709717400000
    (by decide) rfl rfl).2.2⟩

/-- C11 as stated fails for a draft with a title and an empty date field: the
text built from the date and the start time is no date, `toISOString` throws a
RangeError, and the collection stays as it was, with no new event. -/
theorem create_without_date_raises :
    isBlank "Standup" = false ∧
    (createEvent ⟨[], false, false, "", some (.json [])⟩
      ⟨"Standup", "", .garbled, .garbled, "", "meeting"⟩
      1709700000000 "k3j2h1g0f" ⟨1709700000000⟩ .networkError).raised = some .rangeError ∧
    ¬ ∃ created : Event,
      (createEvent ⟨[], false, false, "", some (.json [])⟩
        ⟨"Standup", "", .garbled, .garbled, "", "meeting"⟩
        1709700000000 "k3j2h1g0f" ⟨1709700000000⟩ .networkError).state.events =
        (⟨[], false, false, "", some (.json [])⟩ : CalendarState).events ++ [created] := by
  refine ⟨by decide, by decide, ?_⟩
  rintro ⟨created, h⟩
  have h0 : (createEvent ⟨[], false, false, "", some (.json [])⟩
      ⟨"Standup", "", .garbled, .garbled, "", "meeting"⟩
      1709700000000 "k3j2h1g0f" ⟨1709700000000⟩ .networkError).state.events = [] := by decide
  rw [h0] at h
  simp at h


/-- C12 (as amended): a rejected operation is not reported to its caller as an
error.  Create with a title that is empty after trimming returns normally,
update with an id that no event of the collection has returns normally, and
delete returns normally whatever the id, so also the second of two deletes of
the same id. -/
theorem rejected_operations_return_normally :
    (∀ (s : CalendarState) (newEvent : EventForm) (clock : Int) (rand : String) (now : JSDate)
      (remote : FetchOutcome), isBlank newEvent.title = true →
      (createEvent s newEvent clock rand now remote).raised = none) ∧
    (∀ (s : CalendarState) (id : Option String) (editEvent : EventForm) (remote : FetchOutcome),
      (∀ e ∈ s.events, e._id ≠ id) → (updateEvent s id editEvent remote).raised = none) ∧
    (∀ (s : CalendarState) (id : Option String) (confirmed : Bool) (remote : FetchOutcome),
      (deleteEvent s id confirmed remote).raised = none) ∧
    (∀ (s : CalendarState) (id : Option String) (remote remote2 : FetchOutcome),
      (deleteEvent (deleteEvent s id true remote).state id true remote2).raised = none) := by
  refine ⟨?_, ?_, ?_, ?_⟩
  · intro s newEvent clock rand now remote h
    rw [createEvent_blank s newEvent clock rand now remote h]
  · intro s id editEvent remote h
    rw [updateEvent_absent s id editEvent remote h]
  · intro s id confirmed remote
    cases confirmed <;> rfl
  · intro s id remote remote2
    rfl

/-- C12 as stated fails: with a collection that holds one event of id
`event_1_abc`, create with the blank title of two spaces, update and delete
with the absent id `event_2_xyz`, and the second of two deletes of
`event_1_abc`, all end without any error. -/
theorem rejected_operations_raise_nothing :
    isBlank "  " = true ∧
    ¬ (createEvent
        ⟨[{ _id := some "event_1_abc", title := some "Standup" }], true, false, "",
          some (.json [{ _id := some "event_1_abc", title := some "Standup" }])⟩
        ⟨"  ", "", .time 1709715600000, .time 1709717400000, "", "meeting"⟩
        1709700000000 "k3j2h1g0f" ⟨1709700000000⟩ (.response true none)).raised.isSome = true ∧
    ¬ (updateEvent
        ⟨[{ _id := some "event_1_abc", title := some "Standup" }], true, false, "",
          some (.json [{ _id := some "event_1_abc", title := some "Standup" }])⟩
        (some "event_2_xyz")
        ⟨"Review", "", .time 1709715600000, .time 1709717400000, "", "meeting"⟩
        (.response true none)).raised.isSome = true ∧
    ¬ (deleteEvent
        ⟨[{ _id := some "event_1_abc", title := some "Standup" }], true, false, "",
          some (.json [{ _id := some "event_1_abc", title := some "Standup" }])⟩
        (some "event_2_xyz") true (.response true none)).raised.isSome = true ∧
    ¬ (deleteEvent (deleteEvent
        ⟨[{ _id := some "event_1_abc", title := some "Standup" }], true, false, "",
          some (.json [{ _id := some "event_1_abc", title := some "Standup" }])⟩
        (some "event_1_abc") true (.response true none)).state
        (some "event_1_abc") true (.response true none)).raised.isSome = true := by
  decide

/-- C13: rejected operations do not change the collection or the cache.  In a
state whose cache holds the collection, create with a title that is empty
after trimming leaves the whole state as it was, and update or delete with an
id that no event has leave the collection (contents and order) and the cache
as they were. -/
theorem rejected_operations_keep_state (s : CalendarState) (hsync : cacheInSync s) :
    (∀ (newEvent : EventForm) (clock : Int) (rand : String) (now : JSDate)
      (remote : FetchOutcome), isBlank newEvent.title = true →
      (createEvent s newEvent clock rand now remote).state = s) ∧
    (∀ (id : Option String) (editEvent : EventForm) (remote : FetchOutcome),
      (∀ e ∈ s.events, e._id ≠ id) →
      (updateEvent s id editEvent remote).state.events = s.events ∧
      (updateEvent s id editEvent remote).state.cache = s.cache) ∧
    (∀ (id : Option String) (confirmed : Bool) (remote : FetchOutcome),
      (∀ e ∈ s.events, e._id ≠ id) →
      (deleteEvent s id confirmed remote).state.events = s.events ∧
      (deleteEvent s id confirmed remote).state.cache = s.cache) := by
  unfold cacheInSync at hsync
  refine ⟨?_, ?_, ?_⟩
  · intro newEvent clock rand now remote h
    rw [createEvent_blank s newEvent clock rand now remote h]
  · intro id editEvent remote h
    rw [updateEvent_absent s id editEvent remote h, setEvents_eq]
    exact ⟨(mirror_events _ _ _).1, by rw [(mirror_events _ _ _).2, hsync]⟩
  · intro id confirmed remote h
    cases confirmed
    · exact ⟨rfl, rfl⟩
    · rw [deleteEvent_confirmed, filter_absent s.events id h, setEvents_eq]
      exact ⟨(mirror_events _ _ _).1, by rw [(mirror_events _ _ _).2, hsync]⟩

/-- C13 in a state with one event, whose cache holds the collection -/
theorem rejected_operations_keep_state_witness :
    cacheInSync
      ⟨[{ _id := some "event_1_abc", title := some "Standup" }], true, false, "",
        some (.json [{ _id := some "event_1_abc", title := some "Standup" }])⟩ ∧
    (updateEvent
        ⟨[{ _id := some "event_1_abc", title := some "Standup" }], true, false, "",
          some (.json [{ _id := some "event_1_abc", title := some "Standup" }])⟩
        (some "event_2_xyz")
        ⟨"Review", "", .time 1709715600000, .time 1709717400000, "", "meeting"⟩
        .networkError).state.events =
      [{ _id := some "event_1_abc", title := some "Standup" }] :=
  ⟨rfl, ((rejected_operations_keep_state
      ⟨[{ _id := some "event_1_abc", title := some "Standup" }], true, false, "",
        some (.json [{ _id := some "event_1_abc", title := some "Standup" }])⟩ rfl).2.1
      (some "event_2_xyz")
      ⟨"Review", "", .time 1709715600000, .time 1709717400000, "", "meeting"⟩
      .networkError (by decide)).1⟩

/-- C14 (as amended): for every collection, id and patch whose date and times
denote instants, update returns normally and changes only the events with
that id.  The collection keeps its length, and at every position the new event
is the old one if its id differs; if its id is the given one, its title,
description, start, end, location and type are those of the patch while its id
and createdAt are unchanged. -/
theorem update_changes_target_only (s : CalendarState) (id : Option String)
    (editEvent : EventForm) (remote : FetchOutcome) (ts te : Int)
    (hstart : editEvent.startStamp = .time ts) (hend : editEvent.endStamp = .time te) :
    (updateEvent s id editEvent remote).raised = none ∧
    (updateEvent s id editEvent remote).state.events.length = s.events.length ∧
    ∀ (i : Nat) (old : Event), s.events[i]? = some old →
      ∃ new : Event, (updateEvent s id editEvent remote).state.events[i]? = some new ∧
        (old._id ≠ id → new = old) ∧
        (old._id = id →
          new.title = some editEvent.title ∧
          new.description = some editEvent.description ∧
          new.datetime = some editEvent.startStamp ∧
          new.endDatetime = some editEvent.endStamp ∧
          new.location = some editEvent.location ∧
          new.type = some editEvent.type ∧
          new._id = old._id ∧
          new.createdAt = old.createdAt) := by
  rw [updateEvent_valid s id editEvent remote ts te hstart hend, setEvents_eq]
  refine ⟨rfl, ?_, ?_⟩
  · rw [(mirror_events _ _ _).1]
    simp
  · intro i old hold
    rw [(mirror_events _ _ _).1]
    simp only [List.getElem?_map, hold, Option.map_some']
    refine ⟨_, rfl, ?_, ?_⟩
    · intro hne
      rw [if_neg hne]
    · intro heq
      rw [if_pos heq]
      exact ⟨rfl, rfl, rfl, rfl, rfl, rfl, rfl, rfl⟩

/-- The amended C14: the event `event_1_abc` gets the title `Review` -/
theorem update_changes_target_only_witness :
    (Stamp.time 1709715600000 = .time 1709715600000 ∧
      Stamp.time 1709717400000 = .time 1709717400000) ∧
    (updateEvent
        ⟨[{ _id := some "event_1_abc", title := some "Standup" }], true, false, "",
          some (.json [{ _id := some "event_1_abc", title := some "Standup" }])⟩
        (some "event_1_abc")
        ⟨"Review", "", .time 1709715600000, .time 1709717400000, "", "meeting"⟩
        .networkError).state.events.length =
      (⟨[{ _id := some "event_1_abc", title := some "Standup" }], true, false, "",
          some (.json [{ _id := some "event_1_abc", title := some "Standup" }])⟩ :
        CalendarState).events.length :=
  ⟨⟨rfl, rfl⟩, (update_changes_target_only
      ⟨[{ _id := some "event_1_abc", title := some "Standup" }], true, false, "",
        some (.json [{ _id := some "event_1_abc", title := some "Standup" }])⟩
      (some "event_1_abc")
      ⟨"Review", "", .time 1709715600000, .time 1709717400000, "", "meeting"⟩
      .networkError 1709715600000 1709717400000 rfl rfl).2.1⟩

/-- C14 as stated fails for a patch with an empty date field: for the event
`event_1_abc` and the patch title `Review`, `toISOString` throws a RangeError
and the event keeps its title `Standup`. -/
theorem update_without_date_raises :
    (updateEvent
        ⟨[{ _id := some "event_1_abc", title := some "Standup" }], true, false, "",
          some (.json [{ _id := some "event_1_abc", title := some "Standup" }])⟩
        (some "event_1_abc") ⟨"Review", "", .garbled, .garbled, "", "meeting"⟩
        .networkError).raised = some .rangeError ∧
    ¬ (∀ (i : Nat) (old : Event),
      (⟨[{ _id := some "event_1_abc", title := some "Standup" }], true, false, "",
          some (.json [{ _id := some "event_1_abc", title := some "Standup" }])⟩ :
        CalendarState).events[i]? = some old →
      ∃ new : Event,
        (updateEvent
          ⟨[{ _id := some "event_1_abc", title := some "Standup" }], true, false, "",
            some (.json [{ _id := some "event_1_abc", title := some "Standup" }])⟩
          (some "event_1_abc") ⟨"Review", "", .garbled, .garbled, "", "meeting"⟩
          .networkError).state.events[i]? = some new ∧
        (old._id = some "event_1_abc" → new.title = some "Review")) := by
  refine ⟨by decide, ?_⟩
  intro h
  obtain ⟨new, hnew, htitle⟩ := h 0 { _id := some "event_1_abc", title := some "Standup" } rfl
  have h0 : (updateEvent
      ⟨[{ _id := some "event_1_abc", title := some "Standup" }], true, false, "",
        some (.json [{ _id := some "event_1_abc", title := some "Standup" }])⟩
      (some "event_1_abc") ⟨"Review", "", .garbled, .garbled, "", "meeting"⟩
      .networkError).state.events[0]? =
      some { _id := some "event_1_abc", title := some "Standup" } := by decide
  rw [h0] at hnew
  cases hnew
  exact absurd (htitle rfl) (by decide)

/-- C15: for every collection and id, a confirmed delete returns normally with
the collection from which exactly the events of that id are removed, the
others kept in their order; deleting the same id a second time leaves the
collection and the cache equal to the result of the first delete. -/
theorem delete_removes_and_is_idempotent (s : CalendarState) (id : Option String)
    (remote remote2 : FetchOutcome) :
    (deleteEvent s id true remote).raised = none ∧
    (deleteEvent s id true remote).state.events =
      s.events.filter (fun event => decide (event._id ≠ id)) ∧
    (∀ e : Event, e ∈ (deleteEvent s id true remote).state.events ↔ e ∈ s.events ∧ e._id ≠ id) ∧
    List.Sublist (deleteEvent s id true remote).state.events s.events ∧
    (deleteEvent (deleteEvent s id true remote).state id true remote2).state.events =
      (deleteEvent s id true remote).state.events ∧
    (deleteEvent (deleteEvent s id true remote).state id true remote2).state.cache =
      (deleteEvent s id true remote).state.cache := by
  have hev : (deleteEvent s id true remote).state.events =
      s.events.filter (fun event => decide (event._id ≠ id)) := by
    rw [deleteEvent_confirmed, setEvents_eq]
    exact (mirror_events _ _ _).1
  have hcache : (deleteEvent s id true remote).state.cache =
      some (.json (s.events.filter (fun event => decide (event._id ≠ id)))) := by
    rw [deleteEvent_confirmed, setEvents_eq]
    exact (mirror_events _ _ _).2
  have hev2 : (deleteEvent (deleteEvent s id true remote).state id true remote2).state.events =
      (deleteEvent s id true remote).state.events := by
    rw [deleteEvent_confirmed (deleteEvent s id true remote).state, setEvents_eq,
      (mirror_events _ _ _).1, hev, List.filter_filter]
    simp
  refine ⟨rfl, hev, ?_, ?_, hev2, ?_⟩
  · intro e
    rw [hev, List.mem_filter]
    simp
  · rw [hev]
    exact List.filter_sublist _
  · rw [deleteEvent_confirmed (deleteEvent s id true remote).state, setEvents_eq,
      (mirror_events _ _ _).2, hcache, hev, List.filter_filter]
    simp


/-! ## The event collection: invariants -/

/-- C16 (as amended): uniqueness of ids is kept by every update and every
delete, and by every create whose new identifier (built from the clock reading
and the random text) differs from the ids of the collection. -/
theorem ids_stay_unique (s : CalendarState) (hunique : idsUnique s.events) :
    (∀ (id : Option String) (editEvent : EventForm) (remote : FetchOutcome),
      idsUnique (updateEvent s id editEvent remote).state.events) ∧
    (∀ (id : Option String) (confirmed : Bool) (remote : FetchOutcome),
      idsUnique (deleteEvent s id confirmed remote).state.events) ∧
    (∀ (newEvent : EventForm) (clock : Int) (rand : String) (now : JSDate)
      (remote : FetchOutcome),
      (∀ e ∈ s.events, e._id ≠ some (newEventId clock rand)) →
      idsUnique (createEvent s newEvent clock rand now remote).state.events) := by
  unfold idsUnique at *
  refine ⟨?_, ?_, ?_⟩
  · intro id editEvent remote
    rcases updateEvent_ids s id editEvent remote with h | ⟨_, h⟩
    · rw [h]
      exact hunique
    · rw [h]
      exact hunique
  · intro id confirmed remote
    cases confirmed
    · exact hunique
    · rw [deleteEvent_confirmed, setEvents_eq, (mirror_events _ _ _).1]
      exact hunique.sublist ((List.filter_sublist _).map _)
  · intro newEvent clock rand now remote hfresh
    rcases createEvent_cases s newEvent clock rand now remote with h | h | ⟨_, _, _, h⟩
    · rw [h]
      exact hunique
    · rw [h]
      exact hunique
    · rw [h, setEvents_eq, (mirror_events _ _ _).1]
      simp only [List.map_append, List.map_cons, List.map_nil]
      rw [List.nodup_append]
      refine ⟨hunique, List.nodup_singleton _, ?_⟩
      intro a ha hb
      rw [List.mem_singleton] at hb
      rw [List.mem_map] at ha
      obtain ⟨e, he, hea⟩ := ha
      exact hfresh e he (hea.trans hb)

/-- The amended C16: a create with a fresh identifier in a collection of one event -/
theorem ids_stay_unique_witness :
    idsUnique [{ _id := some "event_1_abc", title := some "Standup" }] ∧
    idsUnique (createEvent
      ⟨[{ _id := some "event_1_abc", title := some "Standup" }], true, false, "",
        some (.json [{ _id := some "event_1_abc", title := some "Standup" }])⟩
      ⟨"Review", "", .time 1709715600000, .time 1709717400000, "", "meeting"⟩
      2 "xyz" ⟨1709700000000⟩ .networkError).state.events :=
  ⟨by decide, (ids_stay_unique
    ⟨[{ _id := some "event_1_abc", title := some "Standup" }], true, false, "",
      some (.json [{ _id := some "event_1_abc", title := some "Standup" }])⟩ (by decide)).2.2
    ⟨"Review", "", .time 1709715600000, .time 1709717400000, "", "meeting"⟩
    2 "xyz" ⟨1709700000000⟩ .networkError (by decide)⟩

/-- C16 as stated fails: in a collection whose only event has the id
`event_1_abc`, a create at the clock reading 1 with the random text `abc`
builds the same id, and two events share it. -/
theorem create_can_repeat_an_id :
    newEventId 1 "abc" = "event_1_abc" ∧
    idsUnique [{ _id := some "event_1_abc", title := some "Standup" }] ∧
    ¬ idsUnique (createEvent
      ⟨[{ _id := some "event_1_abc", title := some "Standup" }], true, false, "",
        some (.json [{ _id := some "event_1_abc", title := some "Standup" }])⟩
      ⟨"Review", "", .time 1709715600000, .time 1709717400000, "", "meeting"⟩
      1 "abc" ⟨1709700000000⟩ .networkError).state.events := by
  decide

theorem hasTitle_eventDataOf (newId : String) (newEvent : EventForm)
    (datetime endDatetime createdAt : Stamp) (h : isBlank newEvent.title = false) :
    hasTitle (eventDataOf newId newEvent datetime endDatetime createdAt) = true := by
  simp [hasTitle, eventDataOf, h]

theorem hasTitle_updatedEventOf (event : Event) (editEvent : EventForm)
    (datetime endDatetime : Stamp) (h : isBlank editEvent.title = false) :
    hasTitle (updatedEventOf event editEvent datetime endDatetime) = true := by
  simp [hasTitle, updatedEventOf, h]

theorem createEvent_titles (s : CalendarState) (h : ∀ e ∈ s.events, hasTitle e = true)
    (newEvent : EventForm) (clock : Int) (rand : String) (now : JSDate)
    (remote : FetchOutcome) :
    ∀ e ∈ (createEvent s newEvent clock rand now remote).state.events, hasTitle e = true := by
  rcases createEvent_cases s newEvent clock rand now remote with hc | hc | ⟨hb, _, _, hc⟩
  · rw [hc]
    exact h
  · rw [hc]
    exact h
  · rw [hc, setEvents_eq, (mirror_events _ _ _).1]
    intro e he
    rcases List.mem_append.1 he with h1 | h1
    · exact h e h1
    · rw [List.mem_singleton] at h1
      rw [h1]
      exact hasTitle_eventDataOf _ _ _ _ _ hb

/-- Titles under create and under the buttons: starting from a collection in which every event
has a title that is non-empty after trimming, every create and every update
made with the `Update Event` button, for any draft or patch, yields a
collection with the same property; a draft with a blank title is rejected by
`createEvent`, the state staying as it was.  The button `Update Event` is
disabled while the title of the edit form is blank; this is the only check of
the title on update. -/
theorem titles_stay_nonblank (s : CalendarState) (h : ∀ e ∈ s.events, hasTitle e = true) :
    (∀ (newEvent : EventForm) (clock : Int) (rand : String) (now : JSDate)
      (remote : FetchOutcome),
      (∀ e ∈ (createEvent s newEvent clock rand now remote).state.events, hasTitle e = true) ∧
      (∀ e ∈ (clickCreate s newEvent clock rand now remote).state.events, hasTitle e = true) ∧
      (isBlank newEvent.title = true →
        createEvent s newEvent clock rand now remote = ⟨s, none⟩ ∧
        clickCreate s newEvent clock rand now remote = ⟨s, none⟩)) ∧
    (∀ (id : Option String) (editEvent : EventForm) (remote : FetchOutcome),
      (∀ e ∈ (clickUpdate s id editEvent remote).state.events, hasTitle e = true) ∧
      (isBlank editEvent.title = true → clickUpdate s id editEvent remote = ⟨s, none⟩)) := by
  refine ⟨?_, ?_⟩
  · intro newEvent clock rand now remote
    refine ⟨createEvent_titles s h newEvent clock rand now remote, ?_, ?_⟩
    · unfold clickCreate
      split_ifs
      · exact h
      · exact createEvent_titles s h newEvent clock rand now remote
    · intro hb
      refine ⟨createEvent_blank s newEvent clock rand now remote hb, ?_⟩
      unfold clickCreate
      rw [if_pos hb]
  · intro id editEvent remote
    constructor
    · unfold clickUpdate
      cases hb : isBlank editEvent.title with
      | true =>
        simp only [if_true]
        exact h
      | false =>
        simp only [Bool.false_eq_true, if_false]
        rcases updateEvent_cases s id editEvent remote with hc | ⟨_, _, hc⟩
        · rw [hc]
          exact h
        · rw [hc, setEvents_eq, (mirror_events _ _ _).1]
          intro e he
          rw [List.mem_map] at he
          obtain ⟨old, hold, hnew⟩ := he
          by_cases hid : old._id = id
          · rw [if_pos hid] at hnew
            rw [← hnew]
            exact hasTitle_updatedEventOf _ _ _ _ hb
          · rw [if_neg hid] at hnew
            rw [← hnew]
            exact h old hold
    · intro hb
      unfold clickUpdate
      rw [if_pos hb]

/-- C17, what the code does.  The function `updateEvent` has no check of the
title: on a collection whose one event has the title `Standup`, called with a
patch whose title is two blanks (and valid date and times), it returns
normally and stores the blank title, so the collection no longer has only
non-blank titles; the cache holds the same collection.  The sibling
`createEvent`, called in the same state with a draft of the same blank title,
rejects it and leaves the collection as it was. -/
theorem updateEvent_stores_blank_title :
    (∀ e ∈ [({ _id := some "event_1_abc", title := some "Standup" } : Event)],
      hasTitle e = true) ∧
    isBlank "  " = true ∧
    (updateEvent
      ⟨[{ _id := some "event_1_abc", title := some "Standup" }], true, false, "",
        some (.json [{ _id := some "event_1_abc", title := some "Standup" }])⟩
      (some "event_1_abc") ⟨"  ", "", .time 1709715600000, .time 1709717400000, "", "meeting"⟩
      .networkError).raised = none ∧
    (updateEvent
      ⟨[{ _id := some "event_1_abc", title := some "Standup" }], true, false, "",
        some (.json [{ _id := some "event_1_abc", title := some "Standup" }])⟩
      (some "event_1_abc") ⟨"  ", "", .time 1709715600000, .time 1709717400000, "", "meeting"⟩
      .networkError).state.events.map (fun event => event.title) = [some "  "] ∧
    (updateEvent
      ⟨[{ _id := some "event_1_abc", title := some "Standup" }], true, false, "",
        some (.json [{ _id := some "event_1_abc", title := some "Standup" }])⟩
      (some "event_1_abc") ⟨"  ", "", .time 1709715600000, .time 1709717400000, "", "meeting"⟩
      .networkError).state.events.all hasTitle = false ∧
    (updateEvent
      ⟨[{ _id := some "event_1_abc", title := some "Standup" }], true, false, "",
        some (.json [{ _id := some "event_1_abc", title := some "Standup" }])⟩
      (some "event_1_abc") ⟨"  ", "", .time 1709715600000, .time 1709717400000, "", "meeting"⟩
      .networkError).state.cache =
      some (.json (updateEvent
        ⟨[{ _id := some "event_1_abc", title := some "Standup" }], true, false, "",
          some (.json [{ _id := some "event_1_abc", title := some "Standup" }])⟩
        (some "event_1_abc")
        ⟨"  ", "", .time 1709715600000, .time 1709717400000, "", "meeting"⟩
        .networkError).state.events) ∧
    createEvent
      ⟨[{ _id := some "event_1_abc", title := some "Standup" }], true, false, "",
        some (.json [{ _id := some "event_1_abc", title := some "Standup" }])⟩
      ⟨"  ", "", .time 1709715600000, .time 1709717400000, "", "meeting"⟩
      1709700000000 "k3j2h1g0f" ⟨1709700000000⟩ .networkError =
      ⟨⟨[{ _id := some "event_1_abc", title := some "Standup" }], true, false, "",
        some (.json [{ _id := some "event_1_abc", title := some "Standup" }])⟩, none⟩ := by
  decide


/-! ## Start-up and loading -/

theorem saveEffect_initialState (cache : Option CacheText) :
    saveEffect (initialState cache) = ⟨[], true, true, "", some (.json [])⟩ := by
  rw [saveEffect_eq]
  rfl

/-- The start-up does not depend on what the cache held before -/
theorem startup_eq (cache : Option CacheText) (fetched : FetchOutcome) :
    startup cache fetched = loadEvents ⟨[], true, true, "", some (.json [])⟩ fetched := by
  unfold startup
  simp only [saveEffect_initialState]

theorem loadEvents_success (s : CalendarState) (data : List Event) :
    loadEvents s (.response true (some data)) =
      ⟨⟨data, true, false, "", some (.json data)⟩, none⟩ := by
  simp only [loadEvents, setEvents_eq]

/-- C18, what the code does: when the remote fetch fails at start-up (network
error, non-success response, or a body that is no JSON), `apiOnline` becomes
false, but the collection and the cache both end empty whatever the cache held
when the calendar was started, because the save effect of the first render
has written the empty collection to the cache before the fallback reads it.
With a cache that holds one event, that event is lost. -/
theorem startup_offline_loses_cache :
    (∀ cache : Option CacheText, startup cache .networkError =
      ⟨⟨[], false, false, "Offline mode: changes stored locally", some (.json [])⟩, none⟩) ∧
    (∀ (cache : Option CacheText) (body : Option (List Event)),
      startup cache (.response false body) =
      ⟨⟨[], false, false, "Offline mode: changes stored locally", some (.json [])⟩, none⟩) ∧
    (∀ cache : Option CacheText, startup cache (.response true none) =
      ⟨⟨[], false, false, "Offline mode: changes stored locally", some (.json [])⟩, none⟩) ∧
    (startup (some (.json [{ _id := some "event_1_abc", title := some "Standup" }]))
        .networkError).state.events = [] ∧
    (startup (some (.json [{ _id := some "event_1_abc", title := some "Standup" }]))
        .networkError).state.events ≠
      [{ _id := some "event_1_abc", title := some "Standup" }] ∧
    (startup (some (.json [{ _id := some "event_1_abc", title := some "Standup" }]))
        .networkError).state.cache = some (.json []) := by
  refine ⟨?_, ?_, ?_, by decide, by decide, by decide⟩
  · intro cache
    rw [startup_eq]
    rfl
  · intro cache body
    rw [startup_eq]
    cases body <;> rfl
  · intro cache
    rw [startup_eq]
    rfl

/-- C19: when the remote fetch succeeds with a set of events, the load makes
the collection and the cache both equal to the fetched set, whatever the state
and the cache were before, sets `apiOnline` and returns normally; so does the
start-up as a whole. -/
theorem load_success_replaces_collection (s : CalendarState) (cache : Option CacheText)
    (data : List Event) :
    (loadEvents s (.response true (some data))).raised = none ∧
    (loadEvents s (.response true (some data))).state.events = data ∧
    (loadEvents s (.response true (some data))).state.cache = some (.json data) ∧
    (loadEvents s (.response true (some data))).state.apiOnline = true ∧
    (startup cache (.response true (some data))).raised = none ∧
    (startup cache (.response true (some data))).state.events = data ∧
    (startup cache (.response true (some data))).state.cache = some (.json data) ∧
    (startup cache (.response true (some data))).state.apiOnline = true := by
  rw [startup_eq, loadEvents_success, loadEvents_success]
  exact ⟨rfl, rfl, rfl, rfl, rfl, rfl, rfl, rfl⟩

/-- The function `loadEvents` returns normally unless the fetch has failed and
the cache entry that the fallback reads is a text that is not valid JSON -/
theorem loadEvents_raised (s : CalendarState) (fetched : FetchOutcome) :
    (loadEvents s fetched).raised = none ∨
    (s.cache = some .invalid ∧ (∀ data, fetched ≠ .response true (some data)) ∧
      (loadEvents s fetched).raised = some .syntaxError) := by
  rcases s with ⟨events, apiOnline, loading, error, cache⟩
  cases fetched with
  | networkError =>
    cases cache with
    | none => exact Or.inl rfl
    | some c =>
      cases c with
      | empty => exact Or.inl rfl
      | json l => exact Or.inl rfl
      | invalid => exact Or.inr ⟨rfl, (fun _ h => by cases h), rfl⟩
  | response ok body =>
    cases ok with
    | true =>
      cases body with
      | some data => exact Or.inl rfl
      | none =>
        cases cache with
        | none => exact Or.inl rfl
        | some c =>
          cases c with
          | empty => exact Or.inl rfl
          | json l => exact Or.inl rfl
          | invalid => exact Or.inr ⟨rfl, (fun _ h => by cases h), rfl⟩
    | false =>
      cases cache with
      | none => exact Or.inl rfl
      | some c =>
        cases c with
        | empty => exact Or.inl rfl
        | json l => exact Or.inl rfl
        | invalid => exact Or.inr ⟨rfl, (fun _ h => by cases h), rfl⟩

/-- Run on a cache entry that is not valid JSON after a failed fetch,
`loadEvents` ends with the SyntaxError of `JSON.parse` -/
theorem loadEvents_invalid_cache (events : List Event) (apiOnline loading : Bool)
    (error : String) :
    (loadEvents ⟨events, apiOnline, loading, error, some .invalid⟩ .networkError).raised =
      some .syntaxError := rfl

/-- C20, amended: `loadEvents` completes normally for every outcome of the
remote fetch when the cache entry that its fallback reads is absent, empty or
valid JSON, and for every cache entry when the fetch succeeds; when the fetch
fails (network error, non-success status or malformed body) and the cache
entry is a text that is not valid JSON, it ends with the SyntaxError of
`JSON.parse`, after `apiOnline` has been set to false and with `loading` set
to false. -/
theorem load_raises_only_on_invalid_cache (s : CalendarState) (fetched : FetchOutcome) :
    ((loadEvents s fetched).raised = none ↔
      (s.cache ≠ some .invalid ∨ ∃ data, fetched = .response true (some data))) ∧
    ((loadEvents s fetched).raised = some .syntaxError ↔
      (s.cache = some .invalid ∧ ∀ data, fetched ≠ .response true (some data))) ∧
    ((loadEvents s fetched).raised = some .syntaxError →
      (loadEvents s fetched).state.apiOnline = false ∧
      (loadEvents s fetched).state.loading = false ∧
      (loadEvents s fetched).state.events = s.events) := by
  rcases s with ⟨events, apiOnline, loading, error, cache⟩
  cases fetched with
  | networkError =>
    cases cache with
    | none => simp [loadEvents]
    | some c => cases c <;> simp [loadEvents, setEvents_eq]
  | response ok body =>
    cases ok with
    | true =>
      cases body with
      | some data => simp [loadEvents, setEvents_eq]
      | none =>
        cases cache with
        | none => simp [loadEvents]
        | some c => cases c <;> simp [loadEvents, setEvents_eq]
    | false =>
      cases cache with
      | none => simp [loadEvents]
      | some c => cases c <;> simp [loadEvents, setEvents_eq]

/-- C20 as stated fails when the cache entry that the fallback reads is a text
that is not valid JSON and the fetch fails, by a network error, a non-success
status or a malformed body: `loadEvents` ends with a SyntaxError. -/
theorem load_raises_on_invalid_cache :
    (loadEvents ⟨[], true, true, "", some .invalid⟩ .networkError).raised =
      some .syntaxError ∧
    (loadEvents ⟨[], true, true, "", some .invalid⟩ (.response false none)).raised =
      some .syntaxError ∧
    (loadEvents ⟨[], true, true, "", some .invalid⟩ (.response true none)).raised =
      some .syntaxError := by
  decide


/-! ## The remote mirror and the sync state -/

theorem formDatesValid_iff (form : EventForm) :
    formDatesValid form = true ↔ ∃ ts te, form.startStamp = .time ts ∧ form.endStamp = .time te := by
  unfold formDatesValid
  cases form.startStamp <;> cases form.endStamp <;> simp

theorem mirror_apiOnline (b : Bool) (s : CalendarState) (remote : FetchOutcome) :
    (mirror b s remote).apiOnline =
      if b = true ∧ remote = .networkError then false else s.apiOnline := by
  unfold mirror
  cases b <;> cases remote <;> simp

theorem setEvents_apiOnline (s : CalendarState) (events : List Event) :
    (setEvents s events).apiOnline = s.apiOnline := by
  rw [setEvents_eq]

/-- Local part of the result of an operation: collection, cache and exception -/
theorem createEvent_local (s : CalendarState) (newEvent : EventForm) (clock : Int)
    (rand : String) (now : JSDate) (b : Bool) (remote remote1 : FetchOutcome) :
    (createEvent { s with apiOnline := b } newEvent clock rand now remote1).state.events =
      (createEvent s newEvent clock rand now remote).state.events ∧
    (createEvent { s with apiOnline := b } newEvent clock rand now remote1).state.cache =
      (createEvent s newEvent clock rand now remote).state.cache ∧
    (createEvent { s with apiOnline := b } newEvent clock rand now remote1).raised =
      (createEvent s newEvent clock rand now remote).raised := by
  unfold createEvent
  by_cases hb : isBlank newEvent.title = true
  · simp only [hb, if_true, and_self]
  · simp only [hb]
    cases newEvent.startStamp <;> cases newEvent.endStamp <;>
      simp [dateOfField, toISOString, bind, Except.bind, pure, Except.pure, mirror_events,
        setEvents_eq]

theorem updateEvent_local (s : CalendarState) (id : Option String) (editEvent : EventForm)
    (b : Bool) (remote remote1 : FetchOutcome) :
    (updateEvent { s with apiOnline := b } id editEvent remote1).state.events =
      (updateEvent s id editEvent remote).state.events ∧
    (updateEvent { s with apiOnline := b } id editEvent remote1).state.cache =
      (updateEvent s id editEvent remote).state.cache ∧
    (updateEvent { s with apiOnline := b } id editEvent remote1).raised =
      (updateEvent s id editEvent remote).raised := by
  unfold updateEvent
  simp only
  cases mapEvents _ s.events with
  | error e => exact ⟨rfl, rfl, rfl⟩
  | ok l => simp [mirror_events, setEvents_eq]

theorem deleteEvent_local (s : CalendarState) (id : Option String) (confirmed : Bool)
    (b : Bool) (remote remote1 : FetchOutcome) :
    (deleteEvent { s with apiOnline := b } id confirmed remote1).state.events =
      (deleteEvent s id confirmed remote).state.events ∧
    (deleteEvent { s with apiOnline := b } id confirmed remote1).state.cache =
      (deleteEvent s id confirmed remote).state.cache ∧
    (deleteEvent { s with apiOnline := b } id confirmed remote1).raised =
      (deleteEvent s id confirmed remote).raised := by
  unfold deleteEvent
  cases confirmed
  · exact ⟨rfl, rfl, rfl⟩
  · simp [mirror_events, setEvents_eq]


theorem loadEvents_cached (s : CalendarState) (stored : List Event)
    (h : s.cache = some (.json stored)) :
    (loadEvents s .networkError).state.events = stored := by
  simp only [loadEvents, h, setEvents_eq]

/-- C21, what the code does: a draft with a non-blank title and valid date and
times is created, so the new event is in the collection and in the local cache;
after a reload of the page during which the remote fetch fails, the collection
and the cache are both empty, so the created event is not returned.  The cause
is the save effect of the first render, which overwrites the cache with the
empty collection before the fallback of `loadEvents` reads it: `loadEvents` run
on the state that `createEvent` left, without that effect, gives the collection
with the created event back. -/
theorem create_then_reload_offline_loses_event (s : CalendarState) (newEvent : EventForm)
    (clock : Int) (rand : String) (now : JSDate) (remote : FetchOutcome) (ts te : Int)
    (htitle : isBlank newEvent.title = false) (hstart : newEvent.startStamp = .time ts)
    (hend : newEvent.endStamp = .time te) :
    eventDataOf (newEventId clock rand) newEvent newEvent.startStamp newEvent.endStamp
        (.time now.time) ∈ (createEvent s newEvent clock rand now remote).state.events ∧
    (createEvent s newEvent clock rand now remote).state.cache =
      some (.json (s.events ++ [eventDataOf (newEventId clock rand) newEvent
        newEvent.startStamp newEvent.endStamp (.time now.time)])) ∧
    (reload (createEvent s newEvent clock rand now remote).state .networkError).state.events
      = [] ∧
    (reload (createEvent s newEvent clock rand now remote).state .networkError).state.cache
      = some (.json []) ∧
    (loadEvents (createEvent s newEvent clock rand now remote).state .networkError).state.events
      = s.events ++ [eventDataOf (newEventId clock rand) newEvent
        newEvent.startStamp newEvent.endStamp (.time now.time)] := by
  rw [createEvent_valid s newEvent clock rand now remote ts te htitle hstart hend, setEvents_eq]
  refine ⟨?_, ?_, ?_, ?_, ?_⟩
  · rw [(mirror_events _ _ _).1]; simp
  · rw [(mirror_events _ _ _).2]
  · simp only [reload, startup_eq]; rfl
  · simp only [reload, startup_eq]; rfl
  · exact loadEvents_cached _ _ (mirror_events _ _ _).2

/-- The draft `Standup`, 2024-03-06 09:00 to 09:30, created while offline in an
empty collection, is gone after a reload with the remote unreachable -/
theorem create_then_reload_offline_loses_event_witness :
    (isBlank "Standup" = false ∧ Stamp.time 1709715600000 = .time 1709715600000 ∧
      Stamp.time 1709717400000 = .time 1709717400000) ∧
    (reload (createEvent ⟨[], false, false, "", some (.json [])⟩
      ⟨"Standup", "", .time 1709715600000, .time 1709717400000, "", "meeting"⟩
      1709700000000 "k3j2h1g0f" ⟨1709700000000⟩ .networkError).state .networkError).state.events
      = [] :=
  ⟨by decide, (create_then_reload_offline_loses_event ⟨[], false, false, "", some (.json [])⟩
    ⟨"Standup", "", .time 1709715600000, .time 1709717400000, "", "meeting"⟩
    1709700000000 "k3j2h1g0f" ⟨1709700000000⟩ .networkError 1709715600000 1709717400000
    (by decide) rfl rfl).2.2.1⟩

/-- C22, amended: for a create (non-blank title, valid date and times), an
update (valid date and times) or a confirmed delete performed while `apiOnline`
holds, a network error of the remote mirror call (the promise of `fetch`
rejects) sets `apiOnline` to false; a response, whatever its status and body
(also a non-success status or a malformed body), leaves `apiOnline` true. -/
theorem only_network_error_sets_offline (s : CalendarState) (hon : s.apiOnline = true) :
    (∀ (newEvent : EventForm) (clock : Int) (rand : String) (now : JSDate),
      isBlank newEvent.title = false → formDatesValid newEvent = true →
      (createEvent s newEvent clock rand now .networkError).state.apiOnline = false) ∧
    (∀ (id : Option String) (editEvent : EventForm), formDatesValid editEvent = true →
      (updateEvent s id editEvent .networkError).state.apiOnline = false) ∧
    (∀ id : Option String, (deleteEvent s id true .networkError).state.apiOnline = false) ∧
    (∀ (ok : Bool) (body : Option (List Event)) (newEvent : EventForm) (clock : Int)
      (rand : String) (now : JSDate),
      (createEvent s newEvent clock rand now (.response ok body)).state.apiOnline = true) ∧
    (∀ (ok : Bool) (body : Option (List Event)) (id : Option String) (editEvent : EventForm),
      (updateEvent s id editEvent (.response ok body)).state.apiOnline = true) ∧
    (∀ (ok : Bool) (body : Option (List Event)) (id : Option String) (confirmed : Bool),
      (deleteEvent s id confirmed (.response ok body)).state.apiOnline = true) := by
  refine ⟨?_, ?_, ?_, ?_, ?_, ?_⟩
  · intro newEvent clock rand now htitle hv
    obtain ⟨ts, te, h1, h2⟩ := (formDatesValid_iff newEvent).1 hv
    rw [createEvent_valid s newEvent clock rand now _ ts te htitle h1 h2, mirror_apiOnline, hon]
    simp
  · intro id editEvent hv
    obtain ⟨ts, te, h1, h2⟩ := (formDatesValid_iff editEvent).1 hv
    rw [updateEvent_valid s id editEvent _ ts te h1 h2, mirror_apiOnline, hon]
    simp
  · intro id
    rw [deleteEvent_confirmed, mirror_apiOnline, hon]
    simp
  · intro ok body newEvent clock rand now
    rcases createEvent_cases s newEvent clock rand now (.response ok body) with
      h | h | ⟨_, _, _, h⟩ <;> rw [h]
    · exact hon
    · exact hon
    · rw [mirror_apiOnline, setEvents_apiOnline, hon]; simp
  · intro ok body id editEvent
    rcases updateEvent_cases s id editEvent (.response ok body) with h | ⟨_, _, h⟩ <;> rw [h]
    · exact hon
    · rw [mirror_apiOnline, setEvents_apiOnline, hon]; simp
  · intro ok body id confirmed
    cases confirmed
    · exact hon
    · rw [deleteEvent_confirmed, mirror_apiOnline, setEvents_apiOnline, hon]; simp

/-- The amended C22 for a confirmed delete in an online state with one event,
with the remote unreachable -/
theorem only_network_error_sets_offline_witness :
    (⟨[{ _id := some "event_1_abc", title := some "Standup" }], true, false, "",
        some (.json [{ _id := some "event_1_abc", title := some "Standup" }])⟩ :
      CalendarState).apiOnline = true ∧
    (deleteEvent ⟨[{ _id := some "event_1_abc", title := some "Standup" }], true, false, "",
        some (.json [{ _id := some "event_1_abc", title := some "Standup" }])⟩
      (some "event_1_abc") true .networkError).state.apiOnline = false :=
  ⟨rfl, (only_network_error_sets_offline
    ⟨[{ _id := some "event_1_abc", title := some "Standup" }], true, false, "",
      some (.json [{ _id := some "event_1_abc", title := some "Standup" }])⟩ rfl).2.2.1
    (some "event_1_abc")⟩

/-- C22 as stated fails for a mirror call that is answered with a non-success
status or with a malformed body: the state was online, the delete (create,
update) is carried out locally, and `apiOnline` is still true afterwards. -/
theorem failed_status_stays_online :
    (⟨[{ _id := some "event_1_abc", title := some "Standup" }], true, false, "",
        some (.json [{ _id := some "event_1_abc", title := some "Standup" }])⟩ :
      CalendarState).apiOnline = true ∧
    (deleteEvent ⟨[{ _id := some "event_1_abc", title := some "Standup" }], true, false, "",
        some (.json [{ _id := some "event_1_abc", title := some "Standup" }])⟩
      (some "event_1_abc") true (.response false none)).state.apiOnline = true ∧
    (deleteEvent ⟨[{ _id := some "event_1_abc", title := some "Standup" }], true, false, "",
        some (.json [{ _id := some "event_1_abc", title := some "Standup" }])⟩
      (some "event_1_abc") true (.response false none)).state.events = [] ∧
    (createEvent ⟨[], true, false, "", some (.json [])⟩
      ⟨"Standup", "", .time 1709715600000, .time 1709717400000, "", "meeting"⟩
      1709700000000 "k3j2h1g0f" ⟨1709700000000⟩ (.response false none)).state.apiOnline = true ∧
    (updateEvent ⟨[{ _id := some "event_1_abc", title := some "Standup" }], true, false, "",
        some (.json [{ _id := some "event_1_abc", title := some "Standup" }])⟩
      (some "event_1_abc")
      ⟨"Review", "", .time 1709715600000, .time 1709717400000, "", "meeting"⟩
      (.response true none)).state.apiOnline = true := by
  decide

/-- C23 as stated fails for a create in an offline state whose draft has a
title and an empty date field: the operation ends with a RangeError. -/
theorem offline_create_without_date_raises :
    (⟨[], false, false, "Offline mode: changes stored locally", some (.json [])⟩ :
      CalendarState).apiOnline = false ∧
    isBlank "Standup" = false ∧
    (createEvent ⟨[], false, false, "Offline mode: changes stored locally", some (.json [])⟩
      ⟨"Standup", "", .garbled, .garbled, "", "meeting"⟩
      1709700000000 "k3j2h1g0f" ⟨1709700000000⟩ .networkError).raised = some .rangeError := by
  refine ⟨rfl, by decide, by decide⟩

theorem operationRequests_offline (s : CalendarState) (hoff : s.apiOnline = false)
    (op : Operation) : operationRequests s op = [] := by
  cases op with
  | create newEvent clock rand now remote =>
    simp only [operationRequests, createEventRequests, hoff, mirrorRequests]
    split
    · rfl
    · split <;> rfl
  | update id editEvent remote =>
    simp only [operationRequests, updateEventRequests, hoff, mirrorRequests]
    split <;> rfl
  | delete id confirmed remote =>
    simp only [operationRequests, deleteEventRequests, hoff, mirrorRequests]
    split <;> rfl

theorem applyOperation_offline (s : CalendarState) (hoff : s.apiOnline = false)
    (op : Operation) : (applyOperation s op).state.apiOnline = false := by
  cases op with
  | create newEvent clock rand now remote =>
    simp only [applyOperation]
    rcases createEvent_cases s newEvent clock rand now remote with h | h | ⟨_, _, _, h⟩ <;> rw [h]
    · exact hoff
    · exact hoff
    · rw [mirror_apiOnline, setEvents_apiOnline, hoff]; simp
  | update id editEvent remote =>
    simp only [applyOperation]
    rcases updateEvent_cases s id editEvent remote with h | ⟨_, _, h⟩ <;> rw [h]
    · exact hoff
    · rw [mirror_apiOnline, setEvents_apiOnline, hoff]; simp
  | delete id confirmed remote =>
    simp only [applyOperation]
    cases confirmed
    · exact hoff
    · rw [deleteEvent_confirmed, mirror_apiOnline, setEvents_apiOnline, hoff]; simp

theorem applyOperation_valid (s : CalendarState) (op : Operation)
    (hv : op.datesValid = true) : (applyOperation s op).raised = none := by
  cases op with
  | create newEvent clock rand now remote =>
    simp only [applyOperation]
    obtain ⟨ts, te, h1, h2⟩ := (formDatesValid_iff newEvent).1 hv
    by_cases hb : isBlank newEvent.title = true
    · rw [createEvent_blank s newEvent clock rand now remote hb]
    · rw [createEvent_valid s newEvent clock rand now remote ts te (by simpa using hb) h1 h2]
  | update id editEvent remote =>
    simp only [applyOperation]
    obtain ⟨ts, te, h1, h2⟩ := (formDatesValid_iff editEvent).1 hv
    rw [updateEvent_valid s id editEvent remote ts te h1 h2]
  | delete id confirmed remote =>
    simp only [applyOperation]
    cases confirmed <;> rfl

theorem runOperations_offline (ops : List Operation) :
    ∀ s : CalendarState, s.apiOnline = false → (runOperations s ops).apiOnline = false := by
  induction ops with
  | nil => intro s h; exact h
  | cons op rest ih =>
    intro s h
    exact ih _ (applyOperation_offline s h op)

/-- C23, amended: in every state in which `apiOnline` is false, each of create,
update and delete sends no request to the remote service and leaves `apiOnline`
false, and it ends without an exception whenever the date and times of its
form are valid (a delete always); after every sequence of such operations
`apiOnline` is still false; a load whose fetch succeeds sets it to true. -/
theorem offline_is_absorbing (s : CalendarState) (hoff : s.apiOnline = false) :
    (∀ op : Operation, operationRequests s op = [] ∧
      (applyOperation s op).state.apiOnline = false ∧
      (op.datesValid = true → (applyOperation s op).raised = none)) ∧
    (∀ ops : List Operation, (runOperations s ops).apiOnline = false) ∧
    (∀ data : List Event, (loadEvents s (.response true (some data))).state.apiOnline = true) :=
  ⟨fun op => ⟨operationRequests_offline s hoff op, applyOperation_offline s hoff op,
    applyOperation_valid s op⟩, fun ops => runOperations_offline ops s hoff, fun _ => rfl⟩

/-- The amended C23 for an offline start state and a create followed by a
delete, each with a remote that would answer -/
theorem offline_is_absorbing_witness :
    (⟨[], false, false, "Offline mode: changes stored locally", some (.json [])⟩ :
      CalendarState).apiOnline = false ∧
    (runOperations ⟨[], false, false, "Offline mode: changes stored locally", some (.json [])⟩
      [.create ⟨"Standup", "", .time 1709715600000, .time 1709717400000, "", "meeting"⟩
        1709700000000 "k3j2h1g0f" ⟨1709700000000⟩ (.response true none),
       .delete (some "event_1709700000000_k3j2h1g0f") true (.response true none)]).apiOnline
      = false :=
  ⟨rfl, (offline_is_absorbing
    ⟨[], false, false, "Offline mode: changes stored locally", some (.json [])⟩ rfl).2.1 _⟩

/-- C24: for every state, every value `b` of `apiOnline` and every two outcomes
of the remote call, each of create, update and delete leaves the same event
collection and the same local cache when run with `apiOnline = b` and the one
outcome as when run in the given state with the other outcome: no remote
failure or response changes, rolls back or overwrites the local result. -/
theorem local_state_independent_of_remote (s : CalendarState) (b : Bool)
    (remote remote1 : FetchOutcome) :
    (∀ (newEvent : EventForm) (clock : Int) (rand : String) (now : JSDate),
      (createEvent { s with apiOnline := b } newEvent clock rand now remote1).state.events =
        (createEvent s newEvent clock rand now remote).state.events ∧
      (createEvent { s with apiOnline := b } newEvent clock rand now remote1).state.cache =
        (createEvent s newEvent clock rand now remote).state.cache) ∧
    (∀ (id : Option String) (editEvent : EventForm),
      (updateEvent { s with apiOnline := b } id editEvent remote1).state.events =
        (updateEvent s id editEvent remote).state.events ∧
      (updateEvent { s with apiOnline := b } id editEvent remote1).state.cache =
        (updateEvent s id editEvent remote).state.cache) ∧
    (∀ (id : Option String) (confirmed : Bool),
      (deleteEvent { s with apiOnline := b } id confirmed remote1).state.events =
        (deleteEvent s id confirmed remote).state.events ∧
      (deleteEvent { s with apiOnline := b } id confirmed remote1).state.cache =
        (deleteEvent s id confirmed remote).state.cache) :=
  ⟨fun newEvent clock rand now =>
      ⟨(createEvent_local s newEvent clock rand now b remote remote1).1,
        (createEvent_local s newEvent clock rand now b remote remote1).2.1⟩,
    fun id editEvent =>
      ⟨(updateEvent_local s id editEvent b remote remote1).1,
        (updateEvent_local s id editEvent b remote remote1).2.1⟩,
    fun id confirmed =>
      ⟨(deleteEvent_local s id confirmed b remote remote1).1,
        (deleteEvent_local s id confirmed b remote remote1).2.1⟩⟩

/-! ## Navigation -/

theorem time_split (t : Int) : t = Day t * msPerDay + TimeWithinDay t := by
  unfold Day TimeWithinDay
  have := Int.ediv_add_emod t msPerDay
  linarith [mul_comm (t / msPerDay) msPerDay]

theorem setDate_time (d : JSDate) (j : Int) :
    (d.setDate (d.getDate + j)).time = d.time + j * msPerDay := by
  simp only [JSDate.setDate, JSDate.getDate, MakeDay_fields, MakeDate]
  have := time_split d.time
  have e : (Day d.time - DateFromTime d.time + (DateFromTime d.time + j)) * msPerDay
      = Day d.time * msPerDay + j * msPerDay := by ring
  rw [e]; omega

theorem navigateWeek_time (cd : JSDate) (direction : Int) :
    (navigateWeek cd direction).time = cd.time + direction * 7 * msPerDay := by
  simp only [navigateWeek]
  exact setDate_time cd (direction * 7)

theorem navigateDay_time (cd : JSDate) (direction : Int) :
    (navigateDay cd direction).time = cd.time + direction * msPerDay := by
  simp only [navigateDay]
  exact setDate_time cd direction

theorem Day_add_days (t j : Int) : Day (t + j * msPerDay) = Day t + j ∧
    TimeWithinDay (t + j * msPerDay) = TimeWithinDay t := by
  unfold Day TimeWithinDay
  constructor
  · rw [Int.add_mul_ediv_right _ _ (by unfold msPerDay; decide)]
  · rw [Int.add_mul_emod_self]

theorem MakeDay_prev (y m : Int) (hm0 : 0 ≤ m) (hm1 : m ≤ 11) :
    MakeDay y (m - 1) 1 = MakeDay (prevMonth y m).1 (prevMonth y m).2 1 := by
  unfold prevMonth
  by_cases h : m = 0
  · subst h
    simp only [if_true, MakeDay]
    norm_num
    simp only [sub_eq_add_neg]
  · rw [if_neg h]

theorem setMonth_Day (cd : JSDate) (m : Int) :
    Day (cd.setMonth m).time = MakeDay cd.getFullYear m 1 + (cd.getDate - 1) := by
  simp only [JSDate.setMonth, JSDate.getFullYear, JSDate.getDate]
  rw [(Day_MakeDate _ _ (TimeWithinDay_range _).1 (TimeWithinDay_range _).2).1, MakeDay_shift]
  ring

theorem fields_of_Day (t Y M j : Int) (hm0 : 0 ≤ M) (hm1 : M ≤ 11) (hj0 : 0 ≤ j)
    (hj1 : j < monthLen M (leapOfYear Y)) (h : Day t = MakeDay Y M 1 + j) :
    YearFromTime t = Y ∧ MonthFromTime t = M ∧ DateFromTime t = j + 1 := by
  obtain ⟨h1, h2, h3⟩ := fields_in_month Y M j hm0 hm1 hj0 hj1
  have hd : Day t = Day ((MakeDay Y M 1 + j) * msPerDay) := by
    rw [h]; unfold Day
    rw [Int.mul_ediv_cancel _ (by unfold msPerDay; decide)]
  obtain ⟨e1, e2, e3⟩ := fields_of_Day_eq _ _ hd
  exact ⟨e1.trans h1, e2.trans h2, e3.trans h3⟩

/-- Month navigation from an anchor whose day of the month exists in the
target month: the result is that day of the adjacent month -/
theorem navigateMonth_next_fits (cd : JSDate)
    (hfit : cd.getDate ≤ daysInMonthOf (nextMonth cd.getFullYear cd.getMonth).1
      (nextMonth cd.getFullYear cd.getMonth).2) :
    ((navigateMonth cd 1).getFullYear, (navigateMonth cd 1).getMonth) =
      nextMonth cd.getFullYear cd.getMonth ∧
    (navigateMonth cd 1).getDate = cd.getDate := by
  have hm0 : 0 ≤ cd.getMonth := (date_decomp cd.time).1
  have hm1 : cd.getMonth ≤ 11 := (date_decomp cd.time).2.1
  have hd0 : 1 ≤ cd.getDate := (date_decomp cd.time).2.2.1
  obtain ⟨hn0, hn1, hn⟩ := nextMonth_first cd.getFullYear cd.getMonth hm0 hm1
  have hday := setMonth_Day cd (cd.getMonth + 1)
  rw [MakeDay_next _ _ _ hm0 hm1, ← hn] at hday
  obtain ⟨e1, e2, e3⟩ := fields_of_Day _ _ _ (cd.getDate - 1) hn0 hn1 (by omega)
    (by unfold daysInMonthOf at hfit; omega) hday
  simp only [navigateMonth, JSDate.getFullYear, JSDate.getMonth, JSDate.getDate] at *
  rw [e1, e2, e3]
  exact ⟨rfl, by ring⟩

theorem navigateMonth_prev_fits (cd : JSDate)
    (hfit : cd.getDate ≤ daysInMonthOf (prevMonth cd.getFullYear cd.getMonth).1
      (prevMonth cd.getFullYear cd.getMonth).2) :
    ((navigateMonth cd (-1)).getFullYear, (navigateMonth cd (-1)).getMonth) =
      prevMonth cd.getFullYear cd.getMonth ∧
    (navigateMonth cd (-1)).getDate = cd.getDate := by
  have hm0 : 0 ≤ cd.getMonth := (date_decomp cd.time).1
  have hm1 : cd.getMonth ≤ 11 := (date_decomp cd.time).2.1
  have hd0 : 1 ≤ cd.getDate := (date_decomp cd.time).2.2.1
  obtain ⟨hn0, hn1, _⟩ := prevMonth_first cd.getFullYear cd.getMonth hm0 hm1
  have hday := setMonth_Day cd (cd.getMonth + -1)
  rw [← sub_eq_add_neg, MakeDay_prev _ _ hm0 hm1] at hday
  obtain ⟨e1, e2, e3⟩ := fields_of_Day _ _ _ (cd.getDate - 1) hn0 hn1 (by omega)
    (by unfold daysInMonthOf at hfit; omega) hday
  simp only [navigateMonth, JSDate.getFullYear, JSDate.getMonth, JSDate.getDate] at *
  rw [← sub_eq_add_neg, e1, e2, e3]
  exact ⟨rfl, by ring⟩

/-- C25, what the code does: `navigateMonth` keeps the day of the month, and a
day that the target month does not have overflows into the month after it.
From the anchor 2024-01-31 the action next gives 2024-03-02, a date in March
and not in February; from the anchor 2024-03-31 the action previous gives
2024-03-02, a date in the anchor's own month and not in February. -/
theorem month_navigation_skips_short_months :
    (⟨1706659200000⟩ : JSDate).getFullYear = 2024 ∧ (⟨1706659200000⟩ : JSDate).getMonth = 0 ∧
    (⟨1706659200000⟩ : JSDate).getDate = 31 ∧
    navigate .month ⟨1706659200000⟩ 1 = ⟨1709337600000⟩ ∧
    (navigate .month ⟨1706659200000⟩ 1).getMonth = 2 ∧
    (navigate .month ⟨1706659200000⟩ 1).getDate = 2 ∧
    nextMonth 2024 0 = (2024, 1) ∧
    (⟨1711843200000⟩ : JSDate).getMonth = 2 ∧ (⟨1711843200000⟩ : JSDate).getDate = 31 ∧
    navigate .month ⟨1711843200000⟩ (-1) = ⟨1709337600000⟩ ∧
    (navigate .month ⟨1711843200000⟩ (-1)).getMonth = 2 ∧
    prevMonth 2024 2 = (2024, 1) := by
  decide

/-- C26: in week mode the buttons move the anchor by exactly 7 calendar days
in the given direction (next is direction 1, previous is -1): the day number
changes by 7, the weekday stays, and the week window moves by 7 days, so that
after next it starts on the day after the old window ends and after previous
it ends on the day before the old window starts; in day mode they move the
anchor by exactly 1 calendar day; this holds for every anchor, so also across
the end of a month or year.  A move followed by the move in the opposite
direction gives the calendar date of the original anchor back.  All of this is
stated on calendar days: what becomes of the time of day is left open. -/
theorem week_and_day_navigation (currentDate : JSDate) (direction : Int) :
    Day (navigate .week currentDate direction).time = Day currentDate.time + direction * 7 ∧
    (navigate .week currentDate direction).getDay = currentDate.getDay ∧
    Day (weekStart (navigate .week currentDate direction)).time =
      Day (weekStart currentDate).time + direction * 7 ∧
    Day (weekEnd (navigate .week currentDate direction)).time =
      Day (weekEnd currentDate).time + direction * 7 ∧
    Day (weekStart (navigate .week currentDate 1)).time = Day (weekEnd currentDate).time + 1 ∧
    Day (weekEnd (navigate .week currentDate (-1))).time =
      Day (weekStart currentDate).time - 1 ∧
    Day (navigate .day currentDate direction).time = Day currentDate.time + direction ∧
    Day (navigate .week (navigate .week currentDate direction) (-direction)).time =
      Day currentDate.time ∧
    Day (navigate .day (navigate .day currentDate direction) (-direction)).time =
      Day currentDate.time ∧
    ((navigate .week (navigate .week currentDate direction) (-direction)).getFullYear =
        currentDate.getFullYear ∧
      (navigate .week (navigate .week currentDate direction) (-direction)).getMonth =
        currentDate.getMonth ∧
      (navigate .week (navigate .week currentDate direction) (-direction)).getDate =
        currentDate.getDate) ∧
    ((navigate .day (navigate .day currentDate direction) (-direction)).getFullYear =
        currentDate.getFullYear ∧
      (navigate .day (navigate .day currentDate direction) (-direction)).getMonth =
        currentDate.getMonth ∧
      (navigate .day (navigate .day currentDate direction) (-direction)).getDate =
        currentDate.getDate) := by
  have hw : ∀ cd d, navigate .week cd d = navigateWeek cd d := fun _ _ => rfl
  have hd : ∀ cd d, navigate .day cd d = navigateDay cd d := fun _ _ => rfl
  have hwD : ∀ (cd : JSDate) (d : Int), Day (navigateWeek cd d).time = Day cd.time + d * 7 := by
    intro cd d
    rw [navigateWeek_time]
    exact (Day_add_days cd.time (d * 7)).1
  have hdD : ∀ (cd : JSDate) (d : Int), Day (navigateDay cd d).time = Day cd.time + d := by
    intro cd d
    rw [navigateDay_time]
    exact (Day_add_days cd.time d).1
  have hwd : ∀ (cd : JSDate) (d : Int),
      WeekDay (navigateWeek cd d).time = WeekDay cd.time := by
    intro cd d
    unfold WeekDay
    rw [hwD]
    omega
  have hws : ∀ cd : JSDate, Day (weekStart cd).time = Day cd.time - WeekDay cd.time := by
    intro cd
    rw [weekStart_time, Day_midnight]
  have hwe : ∀ cd : JSDate, Day (weekEnd cd).time = Day cd.time - WeekDay cd.time + 6 := by
    intro cd
    rw [weekEnd_time]
    unfold Day msPerDay
    omega
  have hrw : Day (navigateWeek (navigateWeek currentDate direction) (-direction)).time =
      Day currentDate.time := by
    rw [hwD, hwD]
    ring
  have hrd : Day (navigateDay (navigateDay currentDate direction) (-direction)).time =
      Day currentDate.time := by
    rw [hdD, hdD]
    ring
  simp only [hw, hd]
  refine ⟨hwD _ _, hwd _ _, ?_, ?_, ?_, ?_, hdD _ _, hrw, hrd, ?_, ?_⟩
  · rw [hws, hws, hwd, hwD]; ring
  · rw [hwe, hwe, hwd, hwD]; ring
  · rw [hws, hwe, hwd, hwD]; ring
  · rw [hws, hwe, hwd, hwD]; ring
  · exact fields_of_Day_eq _ _ hrw
  · exact fields_of_Day_eq _ _ hrd

/-! ## Event types -/

theorem eventTypes_find_default (type : Option String)
    (h : ∀ info ∈ eventTypes, some info.value ≠ type) :
    getEventTypeInfo type = some ⟨"meeting", "Meeting", "event-meeting", "text-blue-700"⟩ := by
  have h0 := h ⟨"meeting", "Meeting", "event-meeting", "text-blue-700"⟩ (by simp [eventTypes])
  have h1 := h ⟨"reminder", "Reminder", "event-reminder", "text-green-700"⟩ (by simp [eventTypes])
  have h2 := h ⟨"task", "Task", "event-task", "text-yellow-700"⟩ (by simp [eventTypes])
  have h3 := h ⟨"event", "Event", "event-event", "text-purple-700"⟩ (by simp [eventTypes])
  have h4 := h ⟨"personal", "Personal", "event-personal", "text-pink-700"⟩ (by simp [eventTypes])
  simp only [getEventTypeInfo, eventTypes, List.find?, decide_eq_false h0, decide_eq_false h1,
    decide_eq_false h2, decide_eq_false h3, decide_eq_false h4]
  rfl

/-- C27: the table `eventTypes` has the five values meeting, reminder, task,
event, personal; for every argument, also a missing one, `getEventTypeInfo`
returns an entry of the table: the entry whose value equals the argument when
there is one, and the first entry (meeting) when no entry has that value. -/
theorem getEventTypeInfo_table (type : Option String) :
    eventTypes.map (fun info => info.value) =
      ["meeting", "reminder", "task", "event", "personal"] ∧
    (∃ info, getEventTypeInfo type = some info ∧ info ∈ eventTypes) ∧
    (∀ info ∈ eventTypes, some info.value = type → getEventTypeInfo type = some info) ∧
    ((∀ info ∈ eventTypes, some info.value ≠ type) →
      getEventTypeInfo type = some ⟨"meeting", "Meeting", "event-meeting", "text-blue-700"⟩) := by
  have hmatch : ∀ info ∈ eventTypes, some info.value = type → getEventTypeInfo type = some info := by
    intro info hinfo hv
    subst hv
    simp only [eventTypes, List.mem_cons, List.mem_singleton, List.not_mem_nil, or_false] at hinfo
    rcases hinfo with h | h | h | h | h <;> subst h <;> decide
  refine ⟨rfl, ?_, hmatch, eventTypes_find_default type⟩
  by_cases h : ∃ info ∈ eventTypes, some info.value = type
  · obtain ⟨info, hinfo, hv⟩ := h
    exact ⟨info, hmatch info hinfo hv, hinfo⟩
  · refine ⟨_, eventTypes_find_default type (fun info hinfo hv => h ⟨info, hinfo, hv⟩), ?_⟩
    simp [eventTypes]

/-! ## Weekdays of the grid -/

/-- C28, amended: for every reference date in range (at least 37 days after
the first and 42 days before the last instant that a `Date` can hold) and
every index `k` below 42, the month grid has a cell at position `k`, the cell
holds a valid date, and that date falls on weekday `k mod 7` (0 = Sunday),
whatever the year of the reference date. -/
theorem grid_weekday (cd : JSDate) (hr : gridInRange cd) (k : Nat) (hk : k < 42) :
    ∃ (c : DayCell) (d : JSDate), (generateCalendarDays cd)[k]? = some c ∧
      c.date = some d ∧ d.getDay = (k : Int) % 7 := by
  have h := generateCalendarDays_eq cd _ rfl hr
  have hget : ∃ c, (generateCalendarDays cd)[k]? = some c := by
    rw [h, List.getElem?_map, List.getElem?_range hk]
    exact ⟨_, rfl⟩
  obtain ⟨c, hc⟩ := hget
  obtain ⟨_, hcell⟩ := grid_cell cd _ rfl hr k c hc
  refine ⟨c, _, hc, by rw [hcell], ?_⟩
  simp only [JSDate.getDay, WeekDay, Day]
  rw [Int.mul_ediv_cancel _ (by unfold msPerDay; decide)]
  omega

/-- The amended C28 for the reference date 2024-03-06 and the cell at position 10 -/
theorem grid_weekday_witness :
    (gridInRange ⟨1709683200000⟩ ∧ 10 < 42) ∧
    ∃ (c : DayCell) (d : JSDate), (generateCalendarDays ⟨1709683200000⟩)[10]? = some c ∧
      c.date = some d ∧ d.getDay = ((10 : Nat) : Int) % 7 :=
  ⟨⟨by decide, by decide⟩, grid_weekday ⟨1709683200000⟩ (by decide) 10 (by decide)⟩

/-- C28 as stated fails for the last reference date that a `Date` can hold,
275760-09-13 (time value 8640000000000000): the cell at position 1, as every
later cell, holds an Invalid Date, which falls on no weekday. -/
theorem grid_weekday_range_end :
    (generateCalendarDays ⟨8640000000000000⟩)[1]? = some ⟨none, false⟩ ∧
    ¬ ∃ (c : DayCell) (d : JSDate), (generateCalendarDays ⟨8640000000000000⟩)[1]? = some c ∧
      c.date = some d ∧ d.getDay = ((1 : Nat) : Int) % 7 := by
  have h1 : (generateCalendarDays ⟨8640000000000000⟩)[1]? = some ⟨none, false⟩ := by decide
  refine ⟨h1, ?_⟩
  rintro ⟨c, d, hc, hd, _⟩
  rw [h1] at hc
  cases hc
  cases hd

/-! ## The month lookup, the lists and the empty state -/

theorem emptyStateShown_day (events : List Event) (d : JSDate) :
    emptyStateShown .day d events = true ↔ events.filter (listFilter .day d) = [] := by
  have hne : (ViewMode.day = ViewMode.week) = False := by simp
  simp only [emptyStateShown, hne, decide_True, decide_False, Bool.true_and, Bool.false_and,
    Bool.or_false, Bool.not_eq_true', List.filter_eq_nil_iff, listFilter, if_true]
  rw [List.any_eq_false]

/-- Agreement of lookup and day view: when no event of the list lacks a truthy
`datetime` and holds `null` as `createdAt`, `getEventsForDate` returns the events
that the filter of the day list selects for the anchor `d`, in the order of
the collection; the day list is a rearrangement of them; and the empty state
of day view is shown exactly when there is no such event. -/
theorem month_lookup_agrees_with_day_view (events : List Event) (d : JSDate)
    (hstamps : ∀ e ∈ events, truthy e.datetime = true ∨ e.createdAt ≠ some .null) :
    getEventsForDate events d = events.filter (listFilter .day d) ∧
    (listedEvents .day d events).Perm (getEventsForDate events d) ∧
    (emptyStateShown .day d events = true ↔ getEventsForDate events d = []) ∧
    (emptyStateShown .day d events = true ↔ listedEvents .day d events = []) := by
  have h1 : getEventsForDate events d = events.filter (listFilter .day d) := by
    rw [getEventsForDate_eq]
    apply List.filter_congr
    intro e he
    cases h1 : truthy e.datetime with
    | true => simp
    | false =>
      cases h2 : truthy e.createdAt with
      | true => simp
      | false =>
        have hnn : e.createdAt ≠ some .null := by
          rcases hstamps e he with h | h
          · rw [h1] at h
            cases h
          · exact h
        have hnone : e.createdAt = none := by
          cases hc : e.createdAt with
          | none => rfl
          | some c =>
            cases c with
            | time t => rw [hc] at h2; cases h2
            | garbled => rw [hc] at h2; cases h2
            | null => exact absurd hc hnn
        have hfalse : listFilter .day d e = false := by
          simp only [listFilter, if_true, eventDate_of_falsy e h1, hnone, dateOfField]
          exact beq_false_of_ne (getDateString_invalid_ne d)
        simp [hfalse]
  have hp : (listedEvents .day d events).Perm (events.filter (listFilter .day d)) :=
    List.perm_insertionSort _ _
  refine ⟨h1, ?_, ?_, ?_⟩
  · rw [h1]; exact hp
  · rw [h1]; exact emptyStateShown_day events d
  · rw [emptyStateShown_day]
    constructor
    · intro h
      have := hp
      rw [h] at this
      exact List.perm_nil.1 this
    · intro h
      have := hp
      rw [h] at this
      exact List.nil_perm.1 this

/-- C29, what the code does.  For the event list that holds one event whose
`datetime` and `createdAt` are both `null` and the date 1970-01-01, the
month-grid lookup `getEventsForDate` returns no event, since it skips an event
without a truthy timestamp, while the filter of the day list, which has no
such test, reads the epoch from `null` and selects the event: the day list
shows it, and the empty state of day view is not shown although the lookup
gives the empty list. -/
theorem lookup_and_day_view_differ_on_null :
    getEventsForDate
      [{ _id := some "event_1_abc", title := some "Standup", datetime := some .null,
         createdAt := some .null }] ⟨0⟩ = [] ∧
    ([{ _id := some "event_1_abc", title := some "Standup", datetime := some .null,
        createdAt := some .null }] : List Event).filter (listFilter .day ⟨0⟩) =
      [{ _id := some "event_1_abc", title := some "Standup", datetime := some .null,
         createdAt := some .null }] ∧
    listedEvents .day ⟨0⟩
      [{ _id := some "event_1_abc", title := some "Standup", datetime := some .null,
         createdAt := some .null }] =
      [{ _id := some "event_1_abc", title := some "Standup", datetime := some .null,
         createdAt := some .null }] ∧
    emptyStateShown .day ⟨0⟩
      [{ _id := some "event_1_abc", title := some "Standup", datetime := some .null,
         createdAt := some .null }] = false ∧
    (⟨0⟩ : JSDate).getFullYear = 1970 ∧ (⟨0⟩ : JSDate).getMonth = 0 ∧
    (⟨0⟩ : JSDate).getDate = 1 := by
  decide

theorem listFilter_valid (viewMode : ViewMode) (currentDate : JSDate) (e : Event)
    (h : listFilter viewMode currentDate e = true) : ∃ d, eventDate e = some d := by
  cases viewMode with
  | day =>
    obtain ⟨d, hd, _⟩ := (listFilter_day_iff currentDate e).1 h
    exact ⟨d, hd⟩
  | week =>
    obtain ⟨d, hd, _⟩ := (listFilter_week_iff currentDate e).1 h
    exact ⟨d, hd⟩
  | month =>
    have hne : ¬ (ViewMode.month = ViewMode.day) := by decide
    simp only [listFilter, if_neg hne, Bool.and_eq_true, dateGE_iff] at h
    obtain ⟨⟨d, hd, _⟩, _⟩ := h
    exact ⟨d, hd⟩

theorem startLE_iff (a b : Event) (x y : JSDate) (ha : eventDate a = some x)
    (hb : eventDate b = some y) : startLE a b ↔ x.time ≤ y.time := by
  simp only [startLE, compareStart, ha, hb]
  omega

theorem orderedInsert_congr (r r1 : Event → Event → Prop) [DecidableRel r] [DecidableRel r1]
    (a : Event) (l : List Event) (h : ∀ b ∈ l, (r a b ↔ r1 a b)) :
    l.orderedInsert r a = l.orderedInsert r1 a := by
  induction l with
  | nil => rfl
  | cons b l ih =>
    have hb := h b (List.mem_cons_self _ _)
    have ih1 := ih (fun c hc => h c (List.mem_cons_of_mem _ hc))
    simp only [List.orderedInsert]
    by_cases hr : r a b
    · rw [if_pos hr, if_pos (hb.1 hr)]
    · rw [if_neg hr, if_neg (fun h1 => hr (hb.2 h1)), ih1]

theorem insertionSort_congr (r r1 : Event → Event → Prop) [DecidableRel r] [DecidableRel r1]
    (l : List Event) (h : ∀ a ∈ l, ∀ b ∈ l, (r a b ↔ r1 a b)) :
    l.insertionSort r = l.insertionSort r1 := by
  induction l with
  | nil => rfl
  | cons a l ih =>
    have ih1 := ih (fun x hx y hy => h x (List.mem_cons_of_mem _ hx) y (List.mem_cons_of_mem _ hy))
    simp only [List.insertionSort]
    rw [ih1]
    apply orderedInsert_congr
    intro b hb
    have hb1 : b ∈ l := (List.perm_insertionSort r1 l).subset hb
    exact h a (List.mem_cons_self _ _) b (List.mem_cons_of_mem _ hb1)

theorem insertionSort_startLE_sorted (l : List Event) (hv : ∀ e ∈ l, ∃ d, eventDate e = some d) :
    (l.insertionSort startLE).Pairwise (fun a b =>
      ∃ x y, startTime a = some x ∧ startTime b = some y ∧ x ≤ y) := by
  have hcongr : l.insertionSort startLE =
      l.insertionSort (fun a b => (startTime a).getD 0 ≤ (startTime b).getD 0) := by
    apply insertionSort_congr
    intro a ha b hb
    obtain ⟨x, hx⟩ := hv a ha
    obtain ⟨y, hy⟩ := hv b hb
    rw [startLE_iff a b x y hx hy]
    simp [startTime, hx, hy]
  haveI : IsTotal Event (fun a b => (startTime a).getD 0 ≤ (startTime b).getD 0) :=
    ⟨fun a b => le_total _ _⟩
  haveI : IsTrans Event (fun a b => (startTime a).getD 0 ≤ (startTime b).getD 0) :=
    ⟨fun a b c h1 h2 => le_trans h1 h2⟩
  have hs := List.sorted_insertionSort
    (fun a b => (startTime a).getD 0 ≤ (startTime b).getD 0) l
  rw [← hcongr] at hs
  refine List.Pairwise.imp_of_mem ?_ hs
  intro a b ha hb hab
  obtain ⟨x, hx⟩ := hv a ((List.perm_insertionSort _ l).subset ha)
  obtain ⟨y, hy⟩ := hv b ((List.perm_insertionSort _ l).subset hb)
  refine ⟨x.time, y.time, by simp [startTime, hx], by simp [startTime, hy], ?_⟩
  simpa [startTime, hx, hy] using hab

/-- C30: for every event list, anchor and view mode, the listed events are a
permutation of the events that the filter of the view selects, and every
listed event has a valid start instant (that of `datetime`, or of `createdAt`
when `datetime` is absent) that is at most the start instant of each event
listed after it. -/
theorem listed_events_sorted_permutation (viewMode : ViewMode) (currentDate : JSDate)
    (events : List Event) :
    (listedEvents viewMode currentDate events).Perm
      (events.filter (listFilter viewMode currentDate)) ∧
    (listedEvents viewMode currentDate events).Pairwise (fun a b =>
      ∃ x y, startTime a = some x ∧ startTime b = some y ∧ x ≤ y) := by
  refine ⟨List.perm_insertionSort _ _, ?_⟩
  apply insertionSort_startLE_sorted
  intro e he
  exact listFilter_valid viewMode currentDate e (List.mem_filter.1 he).2

end Calendar
